import Mathlib

/-! Design-pattern demos: a verification development.

Shallow embedding of the object-graph demos of the repository and theorems
about them.

* `Composite`: `src/Composite/Composite.cpp` (file-system tree, `size_bytes`,
  `add`, `remove`).
* `ChainOfResponsibility`: `src/ChainOfResponsibility/ChainOfResponsibility.cpp`
  (`Handler::handle`, `Handler::setNext`, the four concrete handlers, `main`).
* `Prototype`: `src/Prototype/Prototype.cpp` (`clone`, `spawnAt`,
  `EnemySpawner`, the mutators, `main`).
* `Builder`: `src/Builder/Builder.cpp` (`PCBuilder`, `PCDirector`,
  `PCFluentBuilder`, `main`).
* `StateDemo`: `src/State/State.cpp` (the three states, `AudioPlayer`, `main`).
* `Memonto`: `src/Memonto/Memonto.cpp` (`Editor`, `Memento`, `History`, `main`).
* `Flyweight`: `src/Flyweight/Flyweight.cpp` (`GlyphFactory`, `main`).
* `Proxy`: `src/Proxy/Proxy.cpp` (`RealDatabase`, `DatabaseProxy`, `main`).

Conventions of the embedding:

* an object that a member function mutates is passed in and returned: a member
  function `bool Folder::remove(name)` becomes a function returning the pair
  (returned value, receiver after the call);
* a C++ exception is a value of `Exception` in an `Except`;
* `std::size_t` is a `Nat` below `SIZE_MOD = 2 ^ 64`, and every addition on it
  is reduced modulo `SIZE_MOD`;
* `std::unique_ptr<T>` is the owned value itself; `std::vector` is `List`;
* `int` is an `Int`, and an addition whose result is not a value of `int`
  (signed overflow, undefined behaviour in C++) is marked as such;
* `double` is `ChainOfResponsibility.Double`, with the comparisons of IEEE 754;
* a raw pointer into an owned structure is the path to the object it designates.
* text written to `std::cout` is the list of the lines written, in order;
* a `std::shared_ptr` is the address it holds, the position of the object among
  the objects made so far.
-/

namespace Composite

/-! ## Data model -/

/-- Number of values of `std::size_t` (64-bit target): unsigned arithmetic on
sizes wraps at this modulus. -/
def SIZE_MOD : Nat := 2 ^ 64

/-- C++ exceptions raised by the demo; `std::logic_error` carries `what()`. -/
inductive Exception where
  | logic_error (what : String)
  deriving Repr, DecidableEq

/-- Class hierarchy `Node` / `File` / `Folder`: a `File` holds `name_` and
`bytes_`, a `Folder` holds `name_` and the vector `children_`. -/
inductive Node where
  | file (name : String) (bytes : Nat)
  | folder (name : String) (children : List Node)
  deriving Repr

/-- Accessor `Node::name()`. -/
def Node.name : Node → String
  | .file n _ => n
  | .folder n _ => n

/-- Function `make_file(name, bytes)`; `bytes` is a `std::size_t` argument. -/
def make_file (name : String) (bytes : Nat) : Node := .file name bytes

/-- Function `make_folder(name)`: a folder with an empty `children_`. -/
def make_folder (name : String) : Node := .folder name []

/-! ## `size_bytes` -/

mutual
/-- Virtual `size_bytes()`: `File::size_bytes` returns `bytes_`;
`Folder::size_bytes` runs the accumulation loop from `total = 0`. -/
def Node.size_bytes : Node → Nat
  | .file _ bytes => bytes
  | .folder _ children => Folder.size_loop children 0
/-- Loop `for (const auto& c : children_) total += c->size_bytes();` of
`Folder::size_bytes`, on the children still to visit and the running
`std::size_t total`. -/
def Folder.size_loop : List Node → Nat → Nat
  | [], total => total
  | c :: rest, total => Folder.size_loop rest ((total + c.size_bytes) % SIZE_MOD)
end

/-! ## `add` -/

/-- Virtual `add(child)`: the base `Node::add`, which `File` inherits, throws
`std::logic_error`; `Folder::add` does `children_.push_back(child)`. The result
is the outcome of the call and the receiver after it. -/
def Node.add : Node → Node → Except Exception Unit × Node
  | .file n b, _ => (.error (.logic_error ("Cannot add child to a leaf: " ++ n)), .file n b)
  | .folder n children, child => (.ok (), .folder n (children ++ [child]))

/-! ## `remove` -/

/-- Call `std::remove_if(children_.begin(), children_.end(), pred)` with
`pred p = (p->name() == child_name)`: the elements that do not satisfy `pred`,
in their original relative order, are moved to the front; the returned iterator
`it` is at offset `length` of this list. -/
def remove_if (children : List Node) (child_name : String) : List Node :=
  children.filter (fun p => !(p.name == child_name))

mutual
/-- Virtual `remove(child_name)`: the base `Node::remove`, which `File`
inherits, returns `false`; `Folder::remove` erases the direct children that
match (`it != children_.end()`), and otherwise runs the loop over the
subfolders. The result is the returned `bool` and the receiver after the call. -/
def Node.remove (child_name : String) : Node → Bool × Node
  | .file n b => (false, .file n b)
  | .folder n children =>
    let kept := remove_if children child_name
    if kept.length ≠ children.length then (true, .folder n kept)
    else
      let r := Folder.remove_loop child_name children
      (r.1, .folder n r.2)
/-- Loop `for (auto& c : children_)` of `Folder::remove`: a child that is a
`Folder` (`dynamic_cast<Folder*>`) is asked to remove; the loop returns `true`
at the first child whose `remove` returns `true`, and `false` at the end. The
result is the returned `bool` and the children after the loop. -/
def Folder.remove_loop (child_name : String) : List Node → Bool × List Node
  | [] => (false, [])
  | .file n b :: rest =>
    let r := Folder.remove_loop child_name rest
    (r.1, .file n b :: r.2)
  | .folder n cs :: rest =>
    let f := Node.remove child_name (.folder n cs)
    if f.1 then (true, f.2 :: rest)
    else
      let r := Folder.remove_loop child_name rest
      (r.1, f.2 :: r.2)
end

/-! ## `main` -/

/-- Folder `docs` of `main` after its two `add` calls. -/
def main_docs : Node :=
  (Node.add (Node.add (make_folder "docs") (make_file "report.pdf" 1200)).2
    (make_file "notes.txt" 300)).2

/-- Folder `images` of `main` after its two `add` calls. -/
def main_images : Node :=
  (Node.add (Node.add (make_folder "images") (make_file "logo.png" 500)).2
    (make_file "banner.jpg" 2048)).2

/-- Folder `root` of `main` at the `== Before ==` print. -/
def main_root : Node :=
  (Node.add (Node.add (Node.add (make_folder "root") main_docs).2 main_images).2
    (make_file "readme.md" 100)).2

/-- Call `root->remove("banner.jpg")` of `main`: the `bool ok` and `root` at
the `== After ==` print. -/
def main_removed : Bool × Node := Node.remove "banner.jpg" main_root

/-! ## Notions used to state the properties -/

mutual
/-- Byte sizes of the `File` leaves reachable from a node, left to right. -/
def Node.leaf_sizes : Node → List Nat
  | .file _ bytes => [bytes]
  | .folder _ children => Folder.leaf_sizes children
/-- Byte sizes of the `File` leaves reachable from a sequence of children. -/
def Folder.leaf_sizes : List Node → List Nat
  | [] => []
  | c :: rest => c.leaf_sizes ++ Folder.leaf_sizes rest
end

/-- Well-formedness of the stored sizes: every `bytes_` is a `std::size_t`
value, that is, below `SIZE_MOD`. -/
def Node.fits (t : Node) : Prop := ∀ b ∈ t.leaf_sizes, b < SIZE_MOD

instance (t : Node) : Decidable t.fits := by
  unfold Node.fits; infer_instance

mutual
/-- Names of the nodes strictly below a node, in depth-first pre-order
(children in insertion order). -/
def Node.names_below : Node → List String
  | .file _ _ => []
  | .folder _ children => Folder.names_of children
/-- Names of a sequence of children and of everything below them, in
depth-first pre-order. -/
def Folder.names_of : List Node → List String
  | [] => []
  | c :: rest => (c.name :: c.names_below) ++ Folder.names_of rest
end

mutual
/-- Decision procedure for equality of nodes. -/
def Node.decEq : (a b : Node) → Decidable (a = b)
  | .file n b, .file n' b' =>
    if h : n = n' ∧ b = b' then isTrue (by rw [h.1, h.2])
    else isFalse (fun e => by injection e with e1 e2; exact h ⟨e1, e2⟩)
  | .folder n cs, .folder n' cs' =>
    match Node.decEqList cs cs' with
    | isTrue hc =>
      if h : n = n' then isTrue (by rw [h, hc])
      else isFalse (fun e => by injection e with e1 _; exact h e1)
    | isFalse hc => isFalse (fun e => by injection e with _ e2; exact hc e2)
  | .file _ _, .folder _ _ => isFalse (fun e => by cases e)
  | .folder _ _, .file _ _ => isFalse (fun e => by cases e)
/-- Decision procedure for equality of sequences of nodes. -/
def Node.decEqList : (as bs : List Node) → Decidable (as = bs)
  | [], [] => isTrue rfl
  | [], _ :: _ => isFalse (fun e => by cases e)
  | _ :: _, [] => isFalse (fun e => by cases e)
  | a :: as, b :: bs =>
    match Node.decEq a b, Node.decEqList as bs with
    | isTrue h1, isTrue h2 => isTrue (by rw [h1, h2])
    | isFalse h1, _ => isFalse (fun e => by injection e with e1 _; exact h1 e1)
    | _, isFalse h2 => isFalse (fun e => by injection e with _ e2; exact h2 e2)
end

instance : DecidableEq Node := Node.decEq

/-- Every way of deleting exactly one element of a sequence of children: the
deleted child and the remaining sequence, the others in place and in order. -/
def delete_each : List Node → List (Node × List Node)
  | [] => []
  | c :: rest => (c, rest) :: (delete_each rest).map (fun p => (p.1, c :: p.2))

mutual
/-- Every way of deleting exactly one child (with its subtree) from exactly
one folder of a tree: the deleted child and the tree that remains, every other
node in place and in order. -/
def Node.child_deletions : Node → List (Node × Node)
  | .file _ _ => []
  | .folder m cs =>
    (delete_each cs).map (fun p => (p.1, Node.folder m p.2))
      ++ (Folder.deletions_below cs).map (fun p => (p.1, Node.folder m p.2))
/-- Every way of deleting exactly one child from exactly one folder strictly
inside a sequence of children. -/
def Folder.deletions_below : List Node → List (Node × List Node)
  | [] => []
  | c :: rest =>
    c.child_deletions.map (fun p => (p.1, p.2 :: rest))
      ++ (Folder.deletions_below rest).map (fun p => (p.1, c :: p.2))
end

mutual
/-- Every tree obtained from a tree by erasing, in exactly one folder that has
a direct child named `n`, all the direct children named `n`. The folders are
taken in depth-first pre-order: the tree's own root first, then the folders
below each child, children in insertion order. -/
def Node.erasures (n : String) : Node → List Node
  | .file _ _ => []
  | .folder m cs =>
    (if cs.any (fun c => c.name == n) then [Node.folder m (remove_if cs n)] else [])
      ++ (Folder.erasures_below n cs).map (Node.folder m)
/-- Erasures of `Node.erasures` that take place inside one of the children. -/
def Folder.erasures_below (n : String) : List Node → List (List Node)
  | [] => []
  | c :: rest =>
    (c.erasures n).map (fun c' => c' :: rest)
      ++ (Folder.erasures_below n rest).map (fun rest' => c :: rest')
end

mutual
/-- Specification-side removal, after the words "first depth-first match
wins": delete the first node below the tree, in depth-first pre-order with
children in insertion order, that is named `n`. Not a translation of the
source; it is compared with `Node.remove`. -/
def Node.remove_first_preorder (n : String) : Node → Bool × Node
  | .file m b => (false, .file m b)
  | .folder m cs =>
    let r := Folder.remove_first_preorder n cs
    (r.1, .folder m r.2)
/-- Specification-side removal on a sequence of children: each child is
visited before its own children, and before the children that follow it. -/
def Folder.remove_first_preorder (n : String) : List Node → Bool × List Node
  | [] => (false, [])
  | c :: rest =>
    if c.name == n then (true, rest)
    else
      let r := Node.remove_first_preorder n c
      if r.1 then (true, r.2 :: rest)
      else
        let q := Folder.remove_first_preorder n rest
        (q.1, c :: q.2)
end

end Composite

/-! # Chain of Responsibility -/

namespace ChainOfResponsibility

/-- Class `Handler`: the virtual `process` of the concrete handler and the
owned pointer `next_`, empty at the end of the chain. The request type is a
parameter. -/
inductive Handler (Request : Type) where
  | mk (process : Request → Bool) (next_ : Option (Handler Request))

/-- Observable steps of `Handler::handle`: a call of `process` on the handler
reached after `position` links from the handler first called, with the value
it returned, and the `[REJECTED]` line written at the end of the chain. -/
inductive Event where
  | processed (position : Nat) (accepted : Bool)
  | rejected
  deriving Repr, DecidableEq

/-- Member `Handler::handle(r)`, on the handler at `position`: `process(r)`
is called; on `true` the call returns, otherwise the request goes to `next_`
when there is one, and the rejection is written when there is none. -/
def Handler.handle_at {Request : Type} (r : Request) : Handler Request → Nat → List Event
  | .mk process next_, position =>
    if process r then [Event.processed position true]
    else
      Event.processed position false ::
        (match next_ with
         | some next => Handler.handle_at r next (position + 1)
         | none => [Event.rejected])

/-- Member `Handler::handle(r)` called on the head of a chain. -/
def Handler.handle {Request : Type} (head : Handler Request) (r : Request) : List Event :=
  Handler.handle_at r head 0

/-- The `process` functions of a chain, from the head along `next_`. -/
def Handler.chain {Request : Type} : Handler Request → List (Request → Bool)
  | .mk process next_ =>
    process :: (match next_ with
      | some next => Handler.chain next
      | none => [])

/-- The virtual `process` of a handler, as a function of the request. -/
def Handler.process {Request : Type} : Handler Request → Request → Bool
  | .mk process _ => process

end ChainOfResponsibility

namespace ChainOfResponsibility

/-! ## Requests and the concrete handlers -/

/-- Values of the C++ type `double` (IEEE 754 binary64): not-a-number, the two
infinities, and the finite values, a finite value being `mantissa * 2 ^ exponent`.
Every finite `double` has this form; the model also admits mantissas and
exponents beyond the binary64 ranges. `+0.0` and `-0.0`, which compare equal,
are both `finite 0 e`. -/
inductive Double where
  | nan
  | neg_inf
  | finite (mantissa exponent : Int)
  | pos_inf
  deriving Repr, DecidableEq

/-- Comparison `m1 * 2 ^ e1 <= m2 * 2 ^ e2` of two finite values, on integers:
both sides are scaled by `2 ^ (- min e1 e2)`. -/
def Double.finite_le (m1 e1 m2 e2 : Int) : Bool :=
  decide (m1 * ((2 ^ (e1 - min e1 e2).toNat : Nat) : Int)
    ≤ m2 * ((2 ^ (e2 - min e1 e2).toNat : Nat) : Int))

/-- Operator `a <= b` on `double`: false when an operand is not-a-number. -/
def Double.le : Double → Double → Bool
  | .nan, _ => false
  | _, .nan => false
  | .neg_inf, _ => true
  | _, .pos_inf => true
  | .finite m1 e1, .finite m2 e2 => Double.finite_le m1 e1 m2 e2
  | .finite _ _, .neg_inf => false
  | .pos_inf, _ => false

/-- Operator `a > b` on `double`: false when an operand is not-a-number. -/
def Double.gt : Double → Double → Bool
  | .nan, _ => false
  | _, .nan => false
  | .neg_inf, _ => false
  | _, .pos_inf => false
  | .finite m1 e1, .finite m2 e2 => !Double.finite_le m1 e1 m2 e2
  | .finite _ _, .neg_inf => true
  | .pos_inf, _ => true

/-- A `double` literal with an integral value, such as `1000.0`. -/
def Double.ofInt (n : Int) : Double := .finite n 0

/-- The `double` literal `999.9`: the binary64 value nearest to 999.9, which is
`8795213412905779 * 2 ^ (-43)`. -/
def Double.lit_999_9 : Double := .finite 8795213412905779 (-43)

/-- Struct `Request`. -/
structure Request where
  amount : Double
  description : String
  deriving Repr, DecidableEq

/-- Member `TeamLead::process`: the returned `bool` (the call also writes one
line, `[APPROVED]` or `[PASS]`, and assigns no member). -/
def TeamLead.process (r : Request) : Bool :=
  if Double.le r.amount (Double.ofInt 1000) then true else false

/-- Member `Manager::process`: the returned `bool`. -/
def Manager.process (r : Request) : Bool :=
  if Double.le r.amount (Double.ofInt 5000) then true else false

/-- Member `Director::process`: the returned `bool`. -/
def Director.process (r : Request) : Bool :=
  if Double.le r.amount (Double.ofInt 50000) then true else false

/-- Member `CEO::process`: the returned `bool`. -/
def CEO.process (r : Request) : Bool :=
  if Double.le r.amount (Double.ofInt 200000) then true else false

/-- Construction of a handler of a concrete class with the given `process`:
`next_` is empty. -/
def Handler.ctor {Request : Type} (process : Request → Bool) : Handler Request :=
  .mk process none

/-- Expression `std::make_unique<TeamLead>()`. -/
def TeamLead.ctor : Handler Request := Handler.ctor TeamLead.process

/-- Expression `std::make_unique<Manager>()`. -/
def Manager.ctor : Handler Request := Handler.ctor Manager.process

/-- Expression `std::make_unique<Director>()`. -/
def Director.ctor : Handler Request := Handler.ctor Director.process

/-- Expression `std::make_unique<CEO>()`. -/
def CEO.ctor : Handler Request := Handler.ctor CEO.process

/-! ## `setNext` -/

/-- Member `Handler::setNext(next)`: the receiver after `next_ = std::move(next)`.
The returned pointer `next_.get()` designates the handler one link below the
receiver. -/
def Handler.setNext {Request : Type} : Handler Request → Handler Request → Handler Request
  | .mk process _, next => .mk process (some next)

/-- Handler designated by a pointer into a chain: the handler reached from the
head after `links` links, if the chain is that long. -/
def Handler.deref {Request : Type} : Handler Request → Nat → Option (Handler Request)
  | h, 0 => some h
  | .mk _ none, _ + 1 => none
  | .mk _ (some next), links + 1 => Handler.deref next links

/-- Call `tail->setNext(next)` where `tail` designates the handler `links`
links below the head: the chain after the call. The returned pointer designates
the handler `links + 1` links below the head. -/
def Handler.setNext_at {Request : Type} :
    Handler Request → Nat → Handler Request → Handler Request
  | h, 0, next => h.setNext next
  | .mk process none, _ + 1, _ => .mk process none
  | .mk process (some nx), links + 1, next =>
    .mk process (some (Handler.setNext_at nx links next))

/-- Loop `tail = tail->setNext(x)` over the handlers `xs`, from the chain
`head` and the pointer `tail`: the chain and the pointer at the end. -/
def Handler.attach_all {Request : Type} :
    Handler Request → Nat → List (Handler Request) → Handler Request × Nat
  | head, tail, [] => (head, tail)
  | head, tail, x :: xs => Handler.attach_all (Handler.setNext_at head tail x) (tail + 1) xs

/-! ## `handle`, with the chain after the call -/

/-- Member `Handler::handle(r)` as `Handler.handle_at`, together with the
receiver after the call: `handle` assigns no member, `process` assigns none,
and the successor is the successor after its own `handle`. -/
def Handler.handle_run {Request : Type} (r : Request) :
    Handler Request → Nat → List Event × Handler Request
  | .mk process next_, position =>
    if process r then ([Event.processed position true], .mk process next_)
    else
      match next_ with
      | some next =>
        let q := Handler.handle_run r next (position + 1)
        (Event.processed position false :: q.1, .mk process (some q.2))
      | none => ([Event.processed position false, Event.rejected], .mk process none)

/-- Loop `for (const auto& r : requests) chain->handle(r);` of `main`: the
steps of each call, in order, and the chain after the loop. -/
def serve {Request : Type} :
    Handler Request → List Request → List (List Event) × Handler Request
  | head, [] => ([], head)
  | head, r :: rs =>
    let q := Handler.handle_run r head 0
    let rest := serve q.2 rs
    (q.1 :: rest.1, rest.2)

/-! ## `main` -/

/-- Chain built by `main`: `chain` after the three `tail = tail->setNext(..)`. -/
def main_chain : Handler Request :=
  (Handler.attach_all TeamLead.ctor 0 [Manager.ctor, Director.ctor, CEO.ctor]).1

/-- Vector `requests` of `main`. -/
def main_requests : List Request :=
  [ ⟨Double.ofInt 120, "Stationery purchase"⟩,
    ⟨Double.lit_999_9, "Team lunch"⟩,
    ⟨Double.ofInt 1800, "New dev laptop (deposit)"⟩,
    ⟨Double.ofInt 4200, "Conference fees"⟩,
    ⟨Double.ofInt 22000, "Small server upgrade"⟩,
    ⟨Double.ofInt 120000, "Data center annual contract"⟩,
    ⟨Double.ofInt 350000, "New office renovation"⟩ ]

/-! ## Notions used to state the properties -/

/-- Terminal steps of a call of `handle`: an approval or the rejection. -/
def Event.terminal : Event → Bool
  | .processed _ accepted => accepted
  | .rejected => true

/-- Rational value of a finite `double`. -/
def Double.value (mantissa exponent : Int) : ℚ := (mantissa : ℚ) * (2 : ℚ) ^ exponent

end ChainOfResponsibility

/-! # Prototype -/

namespace Prototype

/-! ## Values of type `int`, exceptions, outcomes -/

/-- Largest value of the C++ type `int` (32-bit target). -/
def INT_MAX : Int := 2147483647

/-- Smallest value of the C++ type `int` (32-bit target). -/
def INT_MIN : Int := -2147483648

/-- Addition on `int`: `none` when the sum is not a value of `int`, in which
case the C++ behaviour is undefined (signed overflow). -/
def int_add (a b : Int) : Option Int :=
  if INT_MIN ≤ a + b ∧ a + b ≤ INT_MAX then some (a + b) else none

/-- C++ exceptions raised by the demo; `std::runtime_error` carries `what()`. -/
inductive Exception where
  | runtime_error (what : String)
  deriving Repr, DecidableEq

/-- How a call ends: it returns a value, it throws, or its behaviour is
undefined (signed overflow, or a `static_cast` to a class the object has not). -/
inductive Outcome (α : Type) where
  | returned (value : α)
  | thrown (e : Exception)
  | undefined
  deriving Repr, DecidableEq

/-! ## Enemies -/

/-- Struct `Brain`, the object owned through `std::unique_ptr<Brain> brain_`. -/
structure Brain where
  aiLevel : Int
  behavior : String
  deriving Repr, DecidableEq

/-- Member `Brain::clone`: `std::make_unique<Brain>(*this)`, a new `Brain`
with both members copied. -/
def Brain.clone (b : Brain) : Brain := ⟨b.aiLevel, b.behavior⟩

/-- Base class `Enemy`: the shared attributes `id_`, `x_`, `y_`. -/
structure EnemyBase where
  id_ : Int
  x_ : Int
  y_ : Int
  deriving Repr, DecidableEq

/-- Default construction of the base class: `id_ = 0`, `x_ = 0, y_ = 0`. -/
def EnemyBase.ctor : EnemyBase := ⟨0, 0, 0⟩

/-- Class `Orc`: the base-class part and the members `hp_`, `atk_`,
`abilities_`, `brain_`. -/
structure Orc where
  base : EnemyBase
  hp_ : Int
  atk_ : Int
  abilities_ : List String
  brain_ : Brain
  deriving Repr, DecidableEq

/-- Class `Dragon`: the base-class part and the members `hp_`, `atk_`,
`element_`, `brain_`. -/
structure Dragon where
  base : EnemyBase
  hp_ : Int
  atk_ : Int
  element_ : String
  brain_ : Brain
  deriving Repr, DecidableEq

/-- Constructor `Orc(hp, atk, abilities)`; the defaults are 100, 12 and
{"Roar"}. The base class is default-constructed. -/
def Orc.ctor (hp atk : Int) (abilities : List String) : Orc :=
  ⟨EnemyBase.ctor, hp, atk, abilities, ⟨1, "Aggressive"⟩⟩

/-- Copy constructor `Orc(const Orc& o)`: its initializer list names `hp_`,
`atk_` and `abilities_`, and its body assigns `brain_ = o.brain_->clone()`. The
base class is not named in the initializer list, so it is default-constructed. -/
def Orc.copy_ctor (o : Orc) : Orc :=
  ⟨EnemyBase.ctor, o.hp_, o.atk_, o.abilities_, o.brain_.clone⟩

/-- Member `Orc::addAbility(a)`: `abilities_.push_back(a)`. -/
def Orc.addAbility (o : Orc) (a : String) : Orc :=
  ⟨o.base, o.hp_, o.atk_, o.abilities_ ++ [a], o.brain_⟩

/-- Member `Orc::setAI(lvl, beh)`: assigns both members of the owned `Brain`. -/
def Orc.setAI (o : Orc) (lvl : Int) (beh : String) : Orc :=
  ⟨o.base, o.hp_, o.atk_, o.abilities_, ⟨lvl, beh⟩⟩

/-- Constructor `Dragon(hp, atk, element)`; the defaults are 300, 35 and
"Fire". The base class is default-constructed. -/
def Dragon.ctor (hp atk : Int) (element : String) : Dragon :=
  ⟨EnemyBase.ctor, hp, atk, element, ⟨3, "Territorial"⟩⟩

/-- Copy constructor `Dragon(const Dragon& d)`: as for `Orc`, the base class is
not named in the initializer list, so it is default-constructed. -/
def Dragon.copy_ctor (d : Dragon) : Dragon :=
  ⟨EnemyBase.ctor, d.hp_, d.atk_, d.element_, d.brain_.clone⟩

/-- Member `Dragon::empower(bonus)`: `atk_ += bonus`; `none` on signed
overflow. -/
def Dragon.empower (d : Dragon) (bonus : Int) : Option Dragon :=
  match int_add d.atk_ bonus with
  | some atk => some ⟨d.base, d.hp_, atk, d.element_, d.brain_⟩
  | none => none

/-- Member `Dragon::setElement(e)`. -/
def Dragon.setElement (d : Dragon) (e : String) : Dragon :=
  ⟨d.base, d.hp_, d.atk_, e, d.brain_⟩

/-- An object held through `std::unique_ptr<Enemy>`, with its dynamic class. -/
inductive Enemy where
  | orc (o : Orc)
  | dragon (d : Dragon)
  deriving Repr, DecidableEq

/-- The base-class part of an enemy. -/
def Enemy.base : Enemy → EnemyBase
  | .orc o => o.base
  | .dragon d => d.base

/-- An enemy with its base-class part replaced. -/
def Enemy.set_base : Enemy → EnemyBase → Enemy
  | .orc o, b => .orc ⟨b, o.hp_, o.atk_, o.abilities_, o.brain_⟩
  | .dragon d, b => .dragon ⟨b, d.hp_, d.atk_, d.element_, d.brain_⟩

/-- Virtual `clone()`: `std::make_unique<Orc>(*this)` or
`std::make_unique<Dragon>(*this)`, a new object made by the copy constructor. -/
def Enemy.clone : Enemy → Enemy
  | .orc o => .orc o.copy_ctor
  | .dragon d => .dragon d.copy_ctor

/-- Virtual `spawnAt(x, y)`: `x_ = x; y_ = y; id_ = NextId++;`. The result is
the receiver and the static `NextId` after the call; `none` when the increment
overflows. -/
def Enemy.spawnAt (e : Enemy) (x y : Int) (NextId : Int) : Option (Enemy × Int) :=
  match int_add NextId 1 with
  | some next => some (e.set_base ⟨NextId, x, y⟩, next)
  | none => none

/-! ## The spawner -/

/-- Class `EnemySpawner`: the map `protos_`, as the list of its entries. -/
structure EnemySpawner where
  protos_ : List (String × Enemy)
  deriving Repr, DecidableEq

/-- A default-constructed `EnemySpawner`: `protos_` is empty. -/
def EnemySpawner.ctor : EnemySpawner := ⟨[]⟩

/-- Call `protos_.find(key)`: the template stored under `key`, if any. -/
def EnemySpawner.find (s : EnemySpawner) (key : String) : Option Enemy :=
  s.protos_.lookup key

/-- Assignment `protos_[key] = proto` on the entries of the map: the value of
an existing entry is replaced, otherwise an entry is inserted. -/
def assign (key : String) (proto : Enemy) : List (String × Enemy) → List (String × Enemy)
  | [] => [(key, proto)]
  | (k, v) :: rest =>
    if k = key then (key, proto) :: rest else (k, v) :: assign key proto rest

/-- Member `registerProto<T>(key, args...)`: `proto` is the object
`T(args...)` that the call constructs. -/
def EnemySpawner.registerProto (s : EnemySpawner) (key : String) (proto : Enemy) :
    EnemySpawner :=
  ⟨assign key proto s.protos_⟩

/-- Member `spawn(key, x, y)`: how the call ends, the spawner after the call
and the static `NextId` after the call. The member is `const`; it calls
`clone()` on the template and `spawnAt` on the clone. -/
def EnemySpawner.spawn (s : EnemySpawner) (key : String) (x y : Int) (NextId : Int) :
    Outcome Enemy × EnemySpawner × Int :=
  match s.find key with
  | none => (.thrown (.runtime_error ("no prototype: " ++ key)), s, NextId)
  | some template =>
    match template.clone.spawnAt x y NextId with
    | some (e, next) => (.returned e, s, next)
    | none => (.undefined, s, NextId)

/-! ## Client programs -/

/-- Calls of the members that are not `const` on an enemy held by the client,
through `static_cast<Orc*>` or `static_cast<Dragon*>`. -/
inductive Mutator where
  | addAbility (a : String)
  | setAI (lvl : Int) (beh : String)
  | empower (bonus : Int)
  | setElement (e : String)
  deriving Repr, DecidableEq

/-- The enemy after a mutator call; `none` when the behaviour is undefined:
the object is not of the class of the `static_cast`, or `atk_` overflows. -/
def Mutator.apply : Mutator → Enemy → Option Enemy
  | .addAbility a, .orc o => some (.orc (o.addAbility a))
  | .setAI lvl beh, .orc o => some (.orc (o.setAI lvl beh))
  | .empower bonus, .dragon d =>
    match d.empower bonus with
    | some d' => some (.dragon d')
    | none => none
  | .setElement e, .dragon d => some (.dragon (d.setElement e))
  | _, _ => none

/-- State of a client program: its spawner, the static `NextId`, and the
enemies it has spawned and holds, in spawn order. -/
structure World where
  spawner : EnemySpawner
  NextId : Int
  spawned : List Enemy
  deriving Repr, DecidableEq

/-- State at the start of `main`: `static int NextId = 1`, an empty spawner. -/
def World.init : World := ⟨EnemySpawner.ctor, 1, []⟩

/-- Statements of a client program. -/
inductive Call where
  | registerProto (key : String) (proto : Enemy)
  | spawn (key : String) (x y : Int)
  | mutate (index : Nat) (m : Mutator)
  deriving Repr, DecidableEq

/-- Execution of one statement: how it ends and the state after it. A spawned
enemy is added after the ones already held; a statement whose behaviour is
undefined leaves the state as it was. -/
def exec : Call → World → Outcome Unit × World
  | .registerProto key proto, w =>
    (.returned (), ⟨w.spawner.registerProto key proto, w.NextId, w.spawned⟩)
  | .spawn key x y, w =>
    match w.spawner.spawn key x y w.NextId with
    | (.returned e, s, next) => (.returned (), ⟨s, next, w.spawned ++ [e]⟩)
    | (.thrown ex, s, next) => (.thrown ex, ⟨s, next, w.spawned⟩)
    | (.undefined, _, _) => (.undefined, w)
  | .mutate index m, w =>
    match w.spawned[index]? with
    | none => (.undefined, w)
    | some e =>
      match m.apply e with
      | some e' => (.returned (), ⟨w.spawner, w.NextId, w.spawned.set index e'⟩)
      | none => (.undefined, w)

/-- Execution of a sequence of statements, an exception being caught by the
client: how each statement ends, and the state at the end. -/
def run : List Call → World → List (Outcome Unit) × World
  | [], w => ([], w)
  | c :: cs, w =>
    let q := exec c w
    let rest := run cs q.2
    (q.1 :: rest.1, rest.2)

/-- Statements of `main`, in order; the positions of the three orcs of the
wave come from `rand_range` and are parameters. The enemies `o` (i = 0, 1, 2),
`d1`, `protoOrc` and `protoDragon` are held at indices 0 to 5. -/
def main_calls (p0 p1 p2 : Int × Int) : List Call :=
  [ .registerProto "orc-basic" (.orc (Orc.ctor 120 15 ["Roar", "Charge"])),
    .registerProto "dragon-fire" (.dragon (Dragon.ctor 350 40 "Fire")),
    .spawn "orc-basic" p0.1 p0.2,
    .spawn "orc-basic" p1.1 p1.2,
    .mutate 1 (.addAbility "Berserk"),
    .spawn "orc-basic" p2.1 p2.2,
    .spawn "dragon-fire" 10 2,
    .mutate 3 (.empower 15),
    .spawn "orc-basic" 0 0,
    .spawn "dragon-fire" 0 0 ]

/-- State of `main` before the enemies are printed. -/
def main_world (p0 p1 p2 : Int × Int) : World := (run (main_calls p0 p1 p2) World.init).2

end Prototype

namespace Composite

/-! ## `print` -/

/-- Expression `std::string(indent, ' ')` for an `indent` that is not negative. -/
def spaces (indent : Nat) : String := String.mk (List.replicate indent ' ')

mutual
/-- Virtual `print(indent)`: the lines written to `std::cout`, each with its
final newline, for an `indent` that is not negative. `File::print` writes one
line; `Folder::print` writes its header and then runs the loop over the
children with `indent + 2`. -/
def Node.print : Node → Nat → List String
  | .file name bytes, indent =>
    [spaces indent ++ "- " ++ name ++ " (" ++ toString bytes ++ " B)\n"]
  | .folder name children, indent =>
    (spaces indent ++ "+ " ++ name ++ " ["
        ++ toString (Node.size_bytes (.folder name children)) ++ " B]\n")
      :: Folder.print_loop children (indent + 2)
/-- Loop `for (const auto& c : children_) c->print(indent + 2);` of
`Folder::print`, with the indentation of the children. -/
def Folder.print_loop : List Node → Nat → List String
  | [], _ => []
  | c :: rest, indent => c.print indent ++ Folder.print_loop rest indent
end

/-! ## `main`: error branches and exit status -/

/-- Sequencing of an `add` call with the statements after it: an exception
thrown by `add` leaves `main`, which has no handler. -/
def add_then (r : Except Exception Unit × Node) (k : Node → Except Exception Int) :
    Except Exception Int :=
  match r.1 with
  | .ok _ => k r.2
  | .error e => .error e

/-- Function `main`: the value it returns, or the exception that leaves it. -/
def main : Except Exception Int :=
  add_then (Node.add (make_folder "docs") (make_file "report.pdf" 1200)) fun docs =>
  add_then (Node.add docs (make_file "notes.txt" 300)) fun docs =>
  add_then (Node.add (make_folder "images") (make_file "logo.png" 500)) fun images =>
  add_then (Node.add images (make_file "banner.jpg" 2048)) fun images =>
  add_then (Node.add (make_folder "root") docs) fun root =>
  add_then (Node.add root images) fun root =>
  add_then (Node.add root (make_file "readme.md" 100)) fun root =>
  let _before := root.print 0
  let removed := Node.remove "banner.jpg" root
  let _after := removed.2.print 0
  .ok 0

/-! ## Notions used to state the properties of `print` -/

mutual
/-- The nodes of a tree in depth-first pre-order (children in insertion
order), each with its depth below the root, the root having depth `depth`. -/
def Node.preorder : Node → Nat → List (Nat × Node)
  | .file name bytes, depth => [(depth, .file name bytes)]
  | .folder name children, depth =>
    (depth, .folder name children) :: Folder.preorder children (depth + 1)
/-- The nodes of a sequence of children and below, in depth-first pre-order. -/
def Folder.preorder : List Node → Nat → List (Nat × Node)
  | [], _ => []
  | c :: rest, depth => c.preorder depth ++ Folder.preorder rest depth
end

/-- The line of one node at a given indentation: the indentation, "- " or
"+ ", the name, and the byte size of a file or the aggregated size of a folder. -/
def Node.line (indent : Nat) : Node → String
  | .file name bytes => spaces indent ++ "- " ++ name ++ " (" ++ toString bytes ++ " B)\n"
  | .folder name children =>
    spaces indent ++ "+ " ++ name ++ " ["
      ++ toString (Node.size_bytes (.folder name children)) ++ " B]\n"

mutual
/-- Number of nodes of a tree, its root included. -/
def Node.count_nodes : Node → Nat
  | .file _ _ => 1
  | .folder _ children => 1 + Folder.count_nodes children
/-- Number of nodes of a sequence of children and below. -/
def Folder.count_nodes : List Node → Nat
  | [] => 0
  | c :: rest => c.count_nodes + Folder.count_nodes rest
end

end Composite

namespace ChainOfResponsibility

/-- The limits of the handlers of the chain of `main`, in chain order:
TeamLead, Manager, Director, CEO. -/
def main_limits : List Int := [1000, 5000, 50000, 200000]

end ChainOfResponsibility

namespace Prototype

/-! ## `main`: error branches and exit status -/

/-- How a function without a handler ends after its statements ended as
listed: it returns 0 when every statement returned, and otherwise ends as the
first statement that did not. -/
def exit_status : List (Outcome Unit) → Outcome Int
  | [] => .returned 0
  | .returned _ :: rest => exit_status rest
  | .thrown e :: _ => .thrown e
  | .undefined :: _ => .undefined

/-- Function `main`: the value it returns, or how it ends otherwise; the
positions of the three orcs of the wave are parameters. -/
def main (p0 p1 p2 : Int × Int) : Outcome Int :=
  exit_status (run (main_calls p0 p1 p2) World.init).1

end Prototype

/-! # Builder -/

namespace Builder

/-- C++ exceptions raised by the demo; `std::runtime_error` carries `what()`. -/
inductive Exception where
  | runtime_error (what : String)
  deriving Repr, DecidableEq

/-- Struct `PC`. -/
structure PC where
  cpu : String
  ramGB : Int
  gpu : String
  storages : List String
  wifi : Bool
  bluetooth : Bool
  deriving Repr, DecidableEq

/-- Expression `PC{}`: empty strings, `ramGB = 0`, no storage, both flags
false. -/
def PC.ctor : PC := ⟨"", 0, "", [], false, false⟩

/-- Class `PCBuilder`: the member `pc_`. -/
structure PCBuilder where
  pc_ : PC
  deriving Repr, DecidableEq

/-- A default-constructed `PCBuilder`. -/
def PCBuilder.ctor : PCBuilder := ⟨PC.ctor⟩

/-- Member `PCBuilder::SetCPU(v)`. -/
def PCBuilder.SetCPU (b : PCBuilder) (v : String) : PCBuilder :=
  ⟨⟨v, b.pc_.ramGB, b.pc_.gpu, b.pc_.storages, b.pc_.wifi, b.pc_.bluetooth⟩⟩

/-- Member `PCBuilder::SetRAM(gb)`. -/
def PCBuilder.SetRAM (b : PCBuilder) (gb : Int) : PCBuilder :=
  ⟨⟨b.pc_.cpu, gb, b.pc_.gpu, b.pc_.storages, b.pc_.wifi, b.pc_.bluetooth⟩⟩

/-- Member `PCBuilder::SetGPU(v)`. -/
def PCBuilder.SetGPU (b : PCBuilder) (v : String) : PCBuilder :=
  ⟨⟨b.pc_.cpu, b.pc_.ramGB, v, b.pc_.storages, b.pc_.wifi, b.pc_.bluetooth⟩⟩

/-- Member `PCBuilder::AddStorage(v)`: `pc_.storages.push_back(v)`. -/
def PCBuilder.AddStorage (b : PCBuilder) (v : String) : PCBuilder :=
  ⟨⟨b.pc_.cpu, b.pc_.ramGB, b.pc_.gpu, b.pc_.storages ++ [v], b.pc_.wifi, b.pc_.bluetooth⟩⟩

/-- Member `PCBuilder::EnableWiFi(on)`; the default argument is `true`. -/
def PCBuilder.EnableWiFi (b : PCBuilder) (enable : Bool) : PCBuilder :=
  ⟨⟨b.pc_.cpu, b.pc_.ramGB, b.pc_.gpu, b.pc_.storages, enable, b.pc_.bluetooth⟩⟩

/-- Member `PCBuilder::EnableBluetooth(on)`; the default argument is `true`. -/
def PCBuilder.EnableBluetooth (b : PCBuilder) (enable : Bool) : PCBuilder :=
  ⟨⟨b.pc_.cpu, b.pc_.ramGB, b.pc_.gpu, b.pc_.storages, b.pc_.wifi, enable⟩⟩

/-- Member `PCBuilder::Build()`: the three checks in the order of the source,
then `return pc_;`, a copy of the member. The result is the outcome of the call
and the receiver after it. -/
def PCBuilder.Build (b : PCBuilder) : Except Exception PC × PCBuilder :=
  if b.pc_.cpu = "" then (.error (.runtime_error "CPU is required"), b)
  else if b.pc_.ramGB ≤ 0 then (.error (.runtime_error "RAM must be > 0"), b)
  else if b.pc_.storages = [] then
    (.error (.runtime_error "At least one storage required"), b)
  else (.ok b.pc_, b)

/-- Member `PCBuilder::Reset()`: `pc_ = PC{}`. -/
def PCBuilder.Reset (_b : PCBuilder) : PCBuilder := ⟨PC.ctor⟩

/-- Function `PCDirector::MakeGamingRig(b)`: the outcome and the builder
after the call. -/
def PCDirector.MakeGamingRig (b : PCBuilder) : Except Exception PC × PCBuilder :=
  (((((((b.SetCPU "AMD Ryzen 7 7800X3D").SetRAM 32).SetGPU "NVIDIA RTX 4070 Ti").AddStorage
    "1TB NVMe").AddStorage "2TB SSD").EnableWiFi true).EnableBluetooth true).Build

/-- Function `PCDirector::MakeOfficeBox(b)`: the outcome and the builder
after the call. -/
def PCDirector.MakeOfficeBox (b : PCBuilder) : Except Exception PC × PCBuilder :=
  ((((((b.SetCPU "Intel i5-13400").SetRAM 16).SetGPU "Integrated").AddStorage
    "512GB NVMe").EnableWiFi false).EnableBluetooth true).Build

/-- Class `PCFluentBuilder`: the member `pc_`. -/
structure PCFluentBuilder where
  pc_ : PC
  deriving Repr, DecidableEq

/-- Expression `PCFluentBuilder{}`. -/
def PCFluentBuilder.ctor : PCFluentBuilder := ⟨PC.ctor⟩

/-- Member `PCFluentBuilder::cpu(v)`. -/
def PCFluentBuilder.cpu (b : PCFluentBuilder) (v : String) : PCFluentBuilder :=
  ⟨⟨v, b.pc_.ramGB, b.pc_.gpu, b.pc_.storages, b.pc_.wifi, b.pc_.bluetooth⟩⟩

/-- Member `PCFluentBuilder::ram(gb)`. -/
def PCFluentBuilder.ram (b : PCFluentBuilder) (gb : Int) : PCFluentBuilder :=
  ⟨⟨b.pc_.cpu, gb, b.pc_.gpu, b.pc_.storages, b.pc_.wifi, b.pc_.bluetooth⟩⟩

/-- Member `PCFluentBuilder::gpu(v)`. -/
def PCFluentBuilder.gpu (b : PCFluentBuilder) (v : String) : PCFluentBuilder :=
  ⟨⟨b.pc_.cpu, b.pc_.ramGB, v, b.pc_.storages, b.pc_.wifi, b.pc_.bluetooth⟩⟩

/-- Member `PCFluentBuilder::storage(v)`: `pc_.storages.push_back(v)`. -/
def PCFluentBuilder.storage (b : PCFluentBuilder) (v : String) : PCFluentBuilder :=
  ⟨⟨b.pc_.cpu, b.pc_.ramGB, b.pc_.gpu, b.pc_.storages ++ [v], b.pc_.wifi, b.pc_.bluetooth⟩⟩

/-- Member `PCFluentBuilder::wifi(on)`; the default argument is `true`. -/
def PCFluentBuilder.wifi (b : PCFluentBuilder) (enable : Bool) : PCFluentBuilder :=
  ⟨⟨b.pc_.cpu, b.pc_.ramGB, b.pc_.gpu, b.pc_.storages, enable, b.pc_.bluetooth⟩⟩

/-- Member `PCFluentBuilder::bt(on)`; the default argument is `true`. -/
def PCFluentBuilder.bt (b : PCFluentBuilder) (enable : Bool) : PCFluentBuilder :=
  ⟨⟨b.pc_.cpu, b.pc_.ramGB, b.pc_.gpu, b.pc_.storages, b.pc_.wifi, enable⟩⟩

/-- Member `PCFluentBuilder::build()`: the same checks and `return pc_;`. -/
def PCFluentBuilder.build (b : PCFluentBuilder) : Except Exception PC × PCFluentBuilder :=
  if b.pc_.cpu = "" then (.error (.runtime_error "CPU is required"), b)
  else if b.pc_.ramGB ≤ 0 then (.error (.runtime_error "RAM must be > 0"), b)
  else if b.pc_.storages = [] then
    (.error (.runtime_error "At least one storage required"), b)
  else (.ok b.pc_, b)

/-- The `try` block of `main`: the three products `gaming`, `office` and
`silentWorkstation`, or the exception that leaves the block. -/
def main_try : Except Exception (PC × PC × PC) :=
  let builder := PCBuilder.ctor
  let g := PCDirector.MakeGamingRig builder
  match g.1 with
  | .error e => .error e
  | .ok gaming =>
    let builder := g.2.Reset
    let o := PCDirector.MakeOfficeBox builder
    match o.1 with
    | .error e => .error e
    | .ok office =>
      let s := ((((((PCFluentBuilder.ctor.cpu "Intel i7-14700").ram 64).gpu
        "NVIDIA RTX A2000").storage "2TB NVMe").wifi true).bt true).build
      match s.1 with
      | .error e => .error e
      | .ok silentWorkstation => .ok (gaming, office, silentWorkstation)

/-- Statement `try { body } catch (const std::exception& ex) { ... } return 0;`
of `main`, for any way `body` ends: the value `main` returns. Every exception
of the demo is a `std::runtime_error`, which the handler catches. -/
def main_catch {α : Type} (body : Except Exception α) : Int :=
  match body with
  | .ok _ => 0
  | .error _ => 0

/-- Function `main`: the value it returns. -/
def main : Int := main_catch main_try

end Builder

/-! # State -/

namespace StateDemo

/-- The object held in `AudioPlayer::state`, by its concrete class. -/
inductive State where
  | StoppedState
  | PlayingState
  | PausedState
  deriving Repr, DecidableEq

/-- Class `AudioPlayer`: the member `state`. -/
structure AudioPlayer where
  state : State
  deriving Repr, DecidableEq

/-- Constructor `AudioPlayer()`: the initial state is a `StoppedState`. -/
def AudioPlayer.ctor : AudioPlayer := ⟨State.StoppedState⟩

/-- Member `AudioPlayer::setState(newState)`. -/
def AudioPlayer.setState (_player : AudioPlayer) (newState : State) : AudioPlayer :=
  ⟨newState⟩

/-- Member `StoppedState::play(player)`. -/
def StoppedState.play (player : AudioPlayer) : AudioPlayer :=
  player.setState State.PlayingState

/-- Member `StoppedState::pause(player)`: no state change. -/
def StoppedState.pause (player : AudioPlayer) : AudioPlayer := player

/-- Member `StoppedState::stop(player)`: no state change. -/
def StoppedState.stop (player : AudioPlayer) : AudioPlayer := player

/-- Member `PlayingState::play(player)`: no state change. -/
def PlayingState.play (player : AudioPlayer) : AudioPlayer := player

/-- Member `PlayingState::pause(player)`. -/
def PlayingState.pause (player : AudioPlayer) : AudioPlayer :=
  player.setState State.PausedState

/-- Member `PlayingState::stop(player)`. -/
def PlayingState.stop (player : AudioPlayer) : AudioPlayer :=
  player.setState State.StoppedState

/-- Member `PausedState::play(player)`. -/
def PausedState.play (player : AudioPlayer) : AudioPlayer :=
  player.setState State.PlayingState

/-- Member `PausedState::pause(player)`: no state change. -/
def PausedState.pause (player : AudioPlayer) : AudioPlayer := player

/-- Member `PausedState::stop(player)`. -/
def PausedState.stop (player : AudioPlayer) : AudioPlayer :=
  player.setState State.StoppedState

/-- Member `AudioPlayer::play()`: the virtual call `state->play(*this)`. -/
def AudioPlayer.play (player : AudioPlayer) : AudioPlayer :=
  match player.state with
  | .StoppedState => StoppedState.play player
  | .PlayingState => PlayingState.play player
  | .PausedState => PausedState.play player

/-- Member `AudioPlayer::pause()`: the virtual call `state->pause(*this)`. -/
def AudioPlayer.pause (player : AudioPlayer) : AudioPlayer :=
  match player.state with
  | .StoppedState => StoppedState.pause player
  | .PlayingState => PlayingState.pause player
  | .PausedState => PausedState.pause player

/-- Member `AudioPlayer::stop()`: the virtual call `state->stop(*this)`. -/
def AudioPlayer.stop (player : AudioPlayer) : AudioPlayer :=
  match player.state with
  | .StoppedState => StoppedState.stop player
  | .PlayingState => PlayingState.stop player
  | .PausedState => PausedState.stop player

/-- The commands of the public interface of `AudioPlayer`. -/
inductive Command where
  | play
  | pause
  | stop
  deriving Repr, DecidableEq

/-- One command on a player. -/
def Command.run : Command → AudioPlayer → AudioPlayer
  | .play, player => player.play
  | .pause, player => player.pause
  | .stop, player => player.stop

/-- The states a player is in after each command of a sequence, in order. -/
def visits : List Command → AudioPlayer → List State
  | [], _ => []
  | c :: cs, player => (c.run player).state :: visits cs (c.run player)

/-- The commands of `main`, on a newly constructed player. -/
def main_commands : List Command :=
  [Command.play, Command.pause, Command.play, Command.stop, Command.stop]

end StateDemo

/-! # Memento -/

namespace Memonto

/-- Class `Memento`: the member `state_`. -/
structure Memento where
  state_ : String
  deriving Repr, DecidableEq

/-- Member `Memento::getState()`. -/
def Memento.getState (m : Memento) : String := m.state_

/-- Class `Editor`: the member `text_`. -/
structure Editor where
  text_ : String
  deriving Repr, DecidableEq

/-- A default-constructed `Editor`: the text is empty. -/
def Editor.ctor : Editor := ⟨""⟩

/-- Member `Editor::type(words)`: `text_ += words`. -/
def Editor.type (e : Editor) (words : String) : Editor := ⟨e.text_ ++ words⟩

/-- Member `Editor::save()`, which is `const`: `Memento(text_)`. -/
def Editor.save (e : Editor) : Memento := ⟨e.text_⟩

/-- Member `Editor::restore(m)`: `text_ = m.getState()`. -/
def Editor.restore (_e : Editor) (m : Memento) : Editor := ⟨m.getState⟩

/-- Class `History`: the vector `history_`. -/
structure History where
  history_ : List Memento
  deriving Repr, DecidableEq

/-- A default-constructed `History`: no memento. -/
def History.ctor : History := ⟨[]⟩

/-- Member `History::push(m)`: `history_.push_back(m)`. -/
def History.push (h : History) (m : Memento) : History := ⟨h.history_ ++ [m]⟩

/-- Member `History::canUndo()`: `!history_.empty()`. -/
def History.canUndo (h : History) : Bool := !h.history_.isEmpty

/-- Member `History::pop()`: the returned memento and the receiver after the
call. On an empty history it returns `Memento("")`; otherwise it returns
`history_.back()` and does `history_.pop_back()`. -/
def History.pop (h : History) : Memento × History :=
  match h.history_.getLast? with
  | none => (⟨""⟩, h)
  | some m => (m, ⟨h.history_.dropLast⟩)

/-- State of a client: its editor and its history. -/
structure Session where
  editor : Editor
  history : History
  deriving Repr, DecidableEq

/-- State at the start of `main`. -/
def Session.init : Session := ⟨Editor.ctor, History.ctor⟩

/-- Statements of a client, as `main` uses them: `editor.type(words)`,
`history.push(editor.save())`, and the guarded undo
`if (history.canUndo()) editor.restore(history.pop())`. -/
inductive Step where
  | type (words : String)
  | save
  | undo
  deriving Repr, DecidableEq

/-- Execution of one statement. -/
def Step.run : Step → Session → Session
  | .type words, s => ⟨s.editor.type words, s.history⟩
  | .save, s => ⟨s.editor, s.history.push s.editor.save⟩
  | .undo, s =>
    if s.history.canUndo then ⟨s.editor.restore s.history.pop.1, s.history.pop.2⟩ else s

/-- Execution of a sequence of statements. -/
def run : List Step → Session → Session
  | [], s => s
  | c :: cs, s => run cs (c.run s)

/-- Statements of `main` up to the first undo. -/
def main_edits : List Step :=
  [Step.type "Hello", Step.save, Step.type ", world", Step.save, Step.type "!!!"]

end Memonto

/-! # Flyweight -/

namespace Flyweight

/-- Class `Glyph`: the members `ch_` and `font_`. -/
structure Glyph where
  ch_ : Char
  font_ : String
  deriving Repr, DecidableEq

/-- Struct `GlyphFactory::Key`, with its `operator==`. -/
structure Key where
  ch : Char
  font : String
  deriving Repr, DecidableEq

/-- Class `GlyphFactory`: the entries of the map `pool_`; the value of an
entry is the address held by its `std::shared_ptr<const Glyph>`. -/
structure GlyphFactory where
  pool_ : List (Key × Nat)
  deriving Repr, DecidableEq

/-- State of a client: the `Glyph` objects made by `std::make_shared` so far,
the address of an object being its position, and the factory. -/
structure World where
  glyphs : List Glyph
  factory : GlyphFactory
  deriving Repr, DecidableEq

/-- State at the start of `main`: no glyph, an empty pool. -/
def World.init : World := ⟨[], ⟨[]⟩⟩

/-- Member `GlyphFactory::Get(ch, font)`: the address in the returned pointer
and the state after the call. A key found in `pool_` gives the pointer stored
with it; otherwise a `Glyph(ch, font)` is made and stored under the key. -/
def GlyphFactory.Get (w : World) (ch : Char) (font : String) : Nat × World :=
  match w.factory.pool_.lookup ⟨ch, font⟩ with
  | some g => (g, w)
  | none =>
    (w.glyphs.length,
     ⟨w.glyphs ++ [⟨ch, font⟩], ⟨w.factory.pool_ ++ [(⟨ch, font⟩, w.glyphs.length)]⟩⟩)

/-- Consistency of a state: every entry of `pool_` points at a glyph with the
`ch` and `font` of its key, and no key occurs twice (`pool_` is a map). -/
def World.wf (w : World) : Prop :=
  (∀ k a, (k, a) ∈ w.factory.pool_ → w.glyphs[a]? = some ⟨k.ch, k.font⟩)
  ∧ (w.factory.pool_.map Prod.fst).Nodup

/-- Member `GlyphFactory::Count()`: `pool_.size()`. -/
def GlyphFactory.Count (f : GlyphFactory) : Nat := f.pool_.length

/-- A sequence of `Get` calls: the addresses returned, in order, and the state
at the end. -/
def get_all : List Key → World → List Nat × World
  | [], w => ([], w)
  | k :: ks, w =>
    let q := GlyphFactory.Get w k.ch k.font
    let rest := get_all ks q.2
    (q.1 :: rest.1, rest.2)

/-- The `(ch, font)` pairs of the `Get` calls of the two nested loops of
`main`, in order: for each of the 3 rows, the characters of "ABBA" with the
font alternating between "Consolas-14" and "Consolas-Bold-14". -/
def main_requests : List Key :=
  (List.range 3).flatMap fun _row =>
    ("ABBA".toList.enum).map fun p =>
      ⟨p.2, if p.1 % 2 = 0 then "Consolas-14" else "Consolas-Bold-14"⟩

/-- The `(ch, font)` pairs of the three `Get` calls at the end of `main`. -/
def main_checks : List Key :=
  [⟨'A', "Consolas-14"⟩, ⟨'A', "Consolas-14"⟩, ⟨'A', "Consolas-Bold-14"⟩]

end Flyweight

namespace Builder

/-! ## Client programs -/

/-- A call of one of the six setters that the two builders have in common,
named after the member of `PCBuilder`; the member of `PCFluentBuilder` that
corresponds is `cpu`, `ram`, `gpu`, `storage`, `wifi`, `bt`, in this order. -/
inductive Setter where
  | SetCPU (v : String)
  | SetRAM (gb : Int)
  | SetGPU (v : String)
  | AddStorage (v : String)
  | EnableWiFi (enable : Bool)
  | EnableBluetooth (enable : Bool)
  deriving Repr, DecidableEq

/-- The setter call `s` on a `PCBuilder`: the builder after the call. -/
def PCBuilder.set (b : PCBuilder) : Setter → PCBuilder
  | .SetCPU v => b.SetCPU v
  | .SetRAM gb => b.SetRAM gb
  | .SetGPU v => b.SetGPU v
  | .AddStorage v => b.AddStorage v
  | .EnableWiFi enable => b.EnableWiFi enable
  | .EnableBluetooth enable => b.EnableBluetooth enable

/-- The corresponding setter call on a `PCFluentBuilder`: the builder after
the call. -/
def PCFluentBuilder.set (f : PCFluentBuilder) : Setter → PCFluentBuilder
  | .SetCPU v => f.cpu v
  | .SetRAM gb => f.ram gb
  | .SetGPU v => f.gpu v
  | .AddStorage v => f.storage v
  | .EnableWiFi enable => f.wifi enable
  | .EnableBluetooth enable => f.bt enable

/-- A statement of a client of one `PCBuilder`: a setter call, `Build()` in a
`try` block of its own, or `Reset()`. -/
inductive Call where
  | set (s : Setter)
  | Build
  | Reset
  deriving Repr, DecidableEq

/-- One statement of a client: the outcome of the call when it is a `Build()`,
and the builder after the statement. -/
def exec : Call → PCBuilder → Option (Except Exception PC) × PCBuilder
  | .set s, b => (none, b.set s)
  | .Build, b => (some b.Build.1, b.Build.2)
  | .Reset, b => (none, b.Reset)

/-- A sequence of statements of a client: the outcomes of its `Build()` calls,
in order, and the builder at the end. -/
def run : List Call → PCBuilder → List (Except Exception PC) × PCBuilder
  | [], b => ([], b)
  | c :: cs, b =>
    let q := exec c b
    let rest := run cs q.2
    (q.1.toList ++ rest.1, rest.2)

end Builder

/-! # Proxy -/

namespace Proxy

/-- Class `RealDatabase`: it has no data member. -/
structure RealDatabase where
  deriving Repr, DecidableEq

/-- Member `RealDatabase::ReadData()`: the text written to `std::cout`, one
string for each output statement. The call assigns nothing. -/
def RealDatabase.ReadData (_db : RealDatabase) : List String :=
  ["[RealDatabase] Reading data from the database...\n"]

/-- Member `RealDatabase::WriteData(data)`: the text written to `std::cout`.
The call assigns nothing. -/
def RealDatabase.WriteData (_db : RealDatabase) (data : String) : List String :=
  ["[RealDatabase] Writing '" ++ data ++ "' to the database.\n"]

/-- Class `DatabaseProxy`: the members `user_`, `role_` and `real_db_`. -/
structure DatabaseProxy where
  user_ : String
  role_ : String
  real_db_ : RealDatabase
  deriving Repr, DecidableEq

/-- Constructor `DatabaseProxy(user, role)`. -/
def DatabaseProxy.ctor (user role : String) : DatabaseProxy := ⟨user, role, ⟨⟩⟩

/-- Member `DatabaseProxy::ReadData()`: the text written to `std::cout`, that
of the proxy and then that of the call `real_db_->ReadData()`. The call assigns
no member. -/
def DatabaseProxy.ReadData (p : DatabaseProxy) : List String :=
  ("[Proxy] User '" ++ p.user_ ++ "' requests READ access.\n") :: p.real_db_.ReadData

/-- Member `DatabaseProxy::WriteData(data)`: the text written to `std::cout`.
When `role_ != "admin"` the denial is written and the call returns; otherwise
`real_db_->WriteData(data)` is called. The call assigns no member. -/
def DatabaseProxy.WriteData (p : DatabaseProxy) (data : String) : List String :=
  ("[Proxy] User '" ++ p.user_ ++ "' requests WRITE access.\n") ::
    (if p.role_ ≠ "admin" then ["[Proxy] Access denied! Only admin can write.\n"]
     else p.real_db_.WriteData data)

/-- Function `main`: the text written to `std::cout` and the value returned. -/
def main : List String × Int :=
  let userDB := DatabaseProxy.ctor "Alice" "user"
  let adminDB := DatabaseProxy.ctor "Bob" "admin"
  (["=== Proxy Pattern: Protection Proxy ===\n\n"]
      ++ userDB.ReadData
      ++ userDB.WriteData "confidential info"
      ++ ["\n---\n\n"]
      ++ adminDB.ReadData
      ++ adminDB.WriteData "system settings",
   0)

end Proxy

/-! # Theorems: Composite -/

namespace Composite

/-! ## Aggregation (`size_bytes`) -/

theorem size_loop_lt (cs : List Node) :
    ∀ total, total < SIZE_MOD → Folder.size_loop cs total < SIZE_MOD := by
  induction cs with
  | nil => intro total h; simpa [Folder.size_loop] using h
  | cons c rest ih =>
    intro total _
    rw [Folder.size_loop]
    exact ih _ (Nat.mod_lt _ (by decide))

mutual
theorem size_bytes_mod_eq :
    ∀ t : Node, t.size_bytes % SIZE_MOD = t.leaf_sizes.sum % SIZE_MOD
  | .file _ b => by simp [Node.size_bytes, Node.leaf_sizes]
  | .folder _ cs => by
    rw [Node.size_bytes, Node.leaf_sizes, size_loop_mod_eq cs 0]
    simp
theorem size_loop_mod_eq : ∀ (cs : List Node) (total : Nat),
    Folder.size_loop cs total % SIZE_MOD
      = (total + (Folder.leaf_sizes cs).sum) % SIZE_MOD
  | [], total => by simp [Folder.size_loop, Folder.leaf_sizes]
  | c :: rest, total => by
    rw [Folder.size_loop, size_loop_mod_eq rest, Folder.leaf_sizes, List.sum_append]
    have h := size_bytes_mod_eq c
    simp only [SIZE_MOD] at h ⊢
    omega
end

theorem folder_size_lt (n : String) (cs : List Node) :
    (Node.folder n cs).size_bytes < SIZE_MOD := by
  rw [Node.size_bytes]; exact size_loop_lt cs 0 (by decide)

theorem size_bytes_lt (t : Node) (h : t.fits) : t.size_bytes < SIZE_MOD := by
  cases t with
  | file n b => exact h b (by simp [Node.leaf_sizes])
  | folder n cs => exact folder_size_lt n cs

theorem size_bytes_eq_sum_mod (t : Node) (h : t.fits) :
    t.size_bytes = t.leaf_sizes.sum % SIZE_MOD := by
  rw [← size_bytes_mod_eq t, Nat.mod_eq_of_lt (size_bytes_lt t h)]

theorem size_loop_append (cs : List Node) (c : Node) : ∀ total,
    Folder.size_loop (cs ++ [c]) total
      = (Folder.size_loop cs total + c.size_bytes) % SIZE_MOD := by
  induction cs with
  | nil => intro total; simp [Folder.size_loop]
  | cons d rest ih => intro total; simp [Folder.size_loop, ih]

/-- C1, as stated, fails: a folder holding two files of 2^63 bytes each stores
well-formed sizes, its leaves sum to 2^64, and `size_bytes` returns 0. -/
theorem size_bytes_exact_sum_fails :
    (Node.folder "big" [make_file "a" (2 ^ 63), make_file "b" (2 ^ 63)]).fits ∧
    (Node.folder "big" [make_file "a" (2 ^ 63), make_file "b" (2 ^ 63)]).size_bytes
      ≠ (Node.folder "big" [make_file "a" (2 ^ 63), make_file "b" (2 ^ 63)]).leaf_sizes.sum := by
  decide

/-- C1 (amended): for every tree `t` of files and folders, `size_bytes t` is the
sum of the byte sizes of the file leaves reachable from `t` reduced modulo 2^64,
hence the exact sum whenever that sum is below 2^64; two trees holding the same
leaves, however grouped into folders, have the same `size_bytes`; a file
returns its stored size and a folder with no children returns 0. -/
theorem size_bytes_eq_leaf_sum_mod (t : Node) (h : t.fits) :
    t.size_bytes = t.leaf_sizes.sum % SIZE_MOD
    ∧ (t.leaf_sizes.sum < SIZE_MOD → t.size_bytes = t.leaf_sizes.sum)
    ∧ (∀ t' : Node, t'.fits → t'.leaf_sizes.Perm t.leaf_sizes →
        t'.size_bytes = t.size_bytes)
    ∧ (∀ name bytes, t = Node.file name bytes → t.size_bytes = bytes)
    ∧ (∀ name, t = Node.folder name [] → t.size_bytes = 0) := by
  refine ⟨size_bytes_eq_sum_mod t h, ?_, ?_, ?_, ?_⟩
  · intro hlt
    rw [size_bytes_eq_sum_mod t h, Nat.mod_eq_of_lt hlt]
  · intro t' h' hp
    rw [size_bytes_eq_sum_mod t h, size_bytes_eq_sum_mod t' h', hp.sum_eq]
  · intro name bytes e
    subst e
    rfl
  · intro name e
    subst e
    rfl

theorem size_bytes_eq_leaf_sum_mod_witness :
    main_root.fits ∧
    (main_root.size_bytes = main_root.leaf_sizes.sum % SIZE_MOD
    ∧ (main_root.leaf_sizes.sum < SIZE_MOD → main_root.size_bytes = main_root.leaf_sizes.sum)
    ∧ (∀ t' : Node, t'.fits → t'.leaf_sizes.Perm main_root.leaf_sizes →
        t'.size_bytes = main_root.size_bytes)
    ∧ (∀ name bytes, main_root = Node.file name bytes → main_root.size_bytes = bytes)
    ∧ (∀ name, main_root = Node.folder name [] → main_root.size_bytes = 0)) :=
  ⟨by decide, size_bytes_eq_leaf_sum_mod main_root (by decide)⟩

/-! ## `add` -/

/-- C7: `add` on a `File` always fails with `std::logic_error` and leaves the
leaf, its name and its size unchanged; `add` on a `Folder` never fails. -/
theorem add_on_file_throws :
    (∀ (name : String) (bytes : Nat) (child : Node),
      Node.add (Node.file name bytes) child
        = (Except.error (Exception.logic_error ("Cannot add child to a leaf: " ++ name)),
           Node.file name bytes)
      ∧ (Node.add (Node.file name bytes) child).2.name = name
      ∧ (Node.add (Node.file name bytes) child).2.size_bytes = bytes)
    ∧ (∀ (name : String) (children : List Node) (child : Node),
      (Node.add (Node.folder name children) child).1 = Except.ok ()) := by
  refine ⟨fun name bytes child => ⟨rfl, rfl, rfl⟩, fun name children child => rfl⟩

/-- C8, as stated, fails in its last part: adding a 1-byte file to a folder
whose size is 2^64 - 1 makes `size_bytes` 0, not 2^64. -/
theorem add_size_exact_growth_fails :
    (Node.folder "g" [make_file "a" (2 ^ 64 - 1)]).fits ∧ (make_file "b" 1).fits ∧
    (Node.add (Node.folder "g" [make_file "a" (2 ^ 64 - 1)]) (make_file "b" 1)).2.size_bytes
      ≠ (Node.folder "g" [make_file "a" (2 ^ 64 - 1)]).size_bytes
          + (make_file "b" 1).size_bytes := by
  decide

/-- C8 (amended): `add(group, child)` succeeds and appends `child` at the end:
the children afterwards are the children before, unchanged and in the same
order, followed by `child`; `size_bytes(group)` afterwards is the size before
plus `size_bytes(child)` reduced modulo 2^64, hence grows by exactly
`size_bytes(child)` whenever that sum is below 2^64. -/
theorem add_appends_child (name : String) (children : List Node) (child : Node) :
    Node.add (Node.folder name children) child
      = (Except.ok (), Node.folder name (children ++ [child]))
    ∧ (Node.add (Node.folder name children) child).2.size_bytes
      = ((Node.folder name children).size_bytes + child.size_bytes) % SIZE_MOD
    ∧ ((Node.folder name children).size_bytes + child.size_bytes < SIZE_MOD →
        (Node.add (Node.folder name children) child).2.size_bytes
          = (Node.folder name children).size_bytes + child.size_bytes) := by
  have h : (Node.add (Node.folder name children) child).2.size_bytes
      = ((Node.folder name children).size_bytes + child.size_bytes) % SIZE_MOD := by
    simp [Node.add, Node.size_bytes, size_loop_append]
  refine ⟨rfl, h, fun hlt => ?_⟩
  rw [h, Nat.mod_eq_of_lt hlt]

theorem add_appends_child_witness :
    (Node.folder "docs" [make_file "report.pdf" 1200]).size_bytes
        + (make_file "notes.txt" 300).size_bytes < SIZE_MOD
    ∧ (Node.add (Node.folder "docs" [make_file "report.pdf" 1200])
        (make_file "notes.txt" 300)).2.size_bytes
      = (Node.folder "docs" [make_file "report.pdf" 1200]).size_bytes
        + (make_file "notes.txt" 300).size_bytes :=
  ⟨by decide,
   (add_appends_child "docs" [make_file "report.pdf" 1200]
      (make_file "notes.txt" 300)).2.2 (by decide)⟩

/-! ## The scenario of `main` -/

/-- C9: the tree built by `main` is root{docs{report.pdf:1200, notes.txt:300},
images{logo.png:500, banner.jpg:2048}, readme.md:100}; its `size_bytes` is 4148;
`remove(root, "banner.jpg")` returns true, and afterwards `size_bytes(root)` is
2100 with `images` holding only logo.png. -/
theorem main_scenario :
    main_root = Node.folder "root"
      [Node.folder "docs" [Node.file "report.pdf" 1200, Node.file "notes.txt" 300],
       Node.folder "images" [Node.file "logo.png" 500, Node.file "banner.jpg" 2048],
       Node.file "readme.md" 100]
    ∧ main_root.size_bytes = 4148
    ∧ main_removed.1 = true
    ∧ main_removed.2.size_bytes = 2100
    ∧ main_removed.2 = Node.folder "root"
      [Node.folder "docs" [Node.file "report.pdf" 1200, Node.file "notes.txt" 300],
       Node.folder "images" [Node.file "logo.png" 500],
       Node.file "readme.md" 100] := by
  decide

end Composite

namespace Composite

/-! ## `remove`: unfolding lemmas -/

theorem remove_if_length_eq_iff (cs : List Node) (n : String) :
    (remove_if cs n).length = cs.length ↔ ∀ c ∈ cs, c.name ≠ n := by
  simp [remove_if, List.filter_length_eq_length]

theorem remove_if_eq_self (cs : List Node) (n : String) (h : ∀ c ∈ cs, c.name ≠ n) :
    remove_if cs n = cs := by
  unfold remove_if
  rw [List.filter_eq_self]
  intro c hc
  simpa using h c hc

theorem remove_file (n name : String) (bytes : Nat) :
    Node.remove n (Node.file name bytes) = (false, Node.file name bytes) := by
  rw [Node.remove]

theorem remove_folder_of_match (m : String) (cs : List Node) (n : String)
    (h : ∃ c ∈ cs, c.name = n) :
    Node.remove n (Node.folder m cs) = (true, Node.folder m (remove_if cs n)) := by
  have hne : (remove_if cs n).length ≠ cs.length := by
    rw [Ne, remove_if_length_eq_iff]
    intro hall
    obtain ⟨c, hc, hn⟩ := h
    exact hall c hc hn
  rw [Node.remove]
  simp only [hne, ne_eq, not_false_eq_true, if_true]

theorem remove_folder_of_no_match (m : String) (cs : List Node) (n : String)
    (h : ∀ c ∈ cs, c.name ≠ n) :
    Node.remove n (Node.folder m cs)
      = ((Folder.remove_loop n cs).1, Node.folder m (Folder.remove_loop n cs).2) := by
  have he : (remove_if cs n).length = cs.length := (remove_if_length_eq_iff cs n).2 h
  rw [Node.remove]
  simp only [he, ne_eq, not_true_eq_false, if_false]

theorem remove_loop_nil (n : String) : Folder.remove_loop n [] = (false, []) := by
  rw [Folder.remove_loop]

theorem remove_loop_cons (n : String) (c : Node) (rest : List Node) :
    Folder.remove_loop n (c :: rest)
      = if (Node.remove n c).1 then (true, (Node.remove n c).2 :: rest)
        else ((Folder.remove_loop n rest).1,
              (Node.remove n c).2 :: (Folder.remove_loop n rest).2) := by
  cases c with
  | file name bytes => rw [Folder.remove_loop, remove_file]; simp
  | folder name cs => rw [Folder.remove_loop]

end Composite

namespace Composite

/-! ## `remove`: which folder is erased -/

theorem erasures_folder_of_match (m : String) (cs : List Node) (n : String)
    (h : ∃ c ∈ cs, c.name = n) :
    (Node.folder m cs).erasures n
      = Node.folder m (remove_if cs n) :: (Folder.erasures_below n cs).map (Node.folder m) := by
  have ha : cs.any (fun c => c.name == n) = true := by simpa using h
  rw [Node.erasures]
  simp only [ha, if_true, List.singleton_append]

theorem erasures_folder_of_no_match (m : String) (cs : List Node) (n : String)
    (h : ∀ c ∈ cs, c.name ≠ n) :
    (Node.folder m cs).erasures n = (Folder.erasures_below n cs).map (Node.folder m) := by
  have ha : ¬ (cs.any (fun c => c.name == n) = true) := by simpa using h
  rw [Node.erasures]
  simp [ha]

mutual
theorem remove_eq_head_erasures (n : String) : ∀ t : Node,
    Node.remove n t = match (t.erasures n).head? with
      | some t' => (true, t')
      | none => (false, t)
  | .file name bytes => by
    rw [remove_file, Node.erasures]; rfl
  | .folder m cs => by
    by_cases h : ∃ c ∈ cs, c.name = n
    · rw [remove_folder_of_match m cs n h, erasures_folder_of_match m cs n h]
      rfl
    · have h' : ∀ c ∈ cs, c.name ≠ n := fun c hc hn => h ⟨c, hc, hn⟩
      rw [remove_folder_of_no_match m cs n h', erasures_folder_of_no_match m cs n h',
        remove_loop_eq_head_erasures n cs, List.head?_map]
      cases (Folder.erasures_below n cs).head? <;> rfl
theorem remove_loop_eq_head_erasures (n : String) : ∀ cs : List Node,
    Folder.remove_loop n cs = match (Folder.erasures_below n cs).head? with
      | some cs' => (true, cs')
      | none => (false, cs)
  | [] => by
    rw [remove_loop_nil, Folder.erasures_below]; rfl
  | c :: rest => by
    rw [remove_loop_cons, remove_eq_head_erasures n c, remove_loop_eq_head_erasures n rest,
      Folder.erasures_below, List.head?_append, List.head?_map, List.head?_map]
    cases (c.erasures n).head? <;> cases (Folder.erasures_below n rest).head? <;> rfl
end

theorem remove_unchanged_of_false (n : String) (t : Node) (h : (Node.remove n t).1 = false) :
    (Node.remove n t).2 = t := by
  rw [remove_eq_head_erasures] at h ⊢
  cases he : (t.erasures n).head? with
  | none => rfl
  | some t' => rw [he] at h; cases h

mutual
theorem erasures_eq_nil_iff (n : String) : ∀ t : Node,
    t.erasures n = [] ↔ n ∉ t.names_below
  | .file name bytes => by simp [Node.erasures, Node.names_below]
  | .folder m cs => by
    rw [Node.names_below, ← erasures_below_eq_nil_iff n cs]
    by_cases h : ∃ c ∈ cs, c.name = n
    · rw [erasures_folder_of_match m cs n h]
      simp only [List.cons_ne_nil, false_iff, not_and, not_forall, not_not]
      intro hall
      obtain ⟨c, hc, hn⟩ := h
      exact (hall c hc hn).elim
    · have h' : ∀ c ∈ cs, c.name ≠ n := fun c hc hn => h ⟨c, hc, hn⟩
      rw [erasures_folder_of_no_match m cs n h']
      simp only [List.map_eq_nil_iff, iff_and_self]
      exact fun _ => h'
theorem erasures_below_eq_nil_iff (n : String) : ∀ cs : List Node,
    ((∀ c ∈ cs, c.name ≠ n) ∧ Folder.erasures_below n cs = []) ↔ n ∉ Folder.names_of cs
  | [] => by simp [Folder.erasures_below, Folder.names_of]
  | c :: rest => by
    have h1 := erasures_eq_nil_iff n c
    have h2 := erasures_below_eq_nil_iff n rest
    rw [Folder.erasures_below, Folder.names_of]
    simp only [List.mem_cons, forall_eq_or_imp, List.append_eq_nil, List.map_eq_nil_iff,
      List.cons_append, List.mem_append, not_or, ← h2, h1]
    constructor
    · rintro ⟨⟨a, b⟩, c, d⟩
      exact ⟨fun e => a e.symm, c, b, d⟩
    · rintro ⟨a, c, b, d⟩
      exact ⟨⟨fun e => a e.symm, b⟩, c, d⟩
end

theorem remove_true_iff (n : String) (t : Node) :
    (Node.remove n t).1 = true ↔ n ∈ t.names_below := by
  rw [← not_iff_not, ← erasures_eq_nil_iff, remove_eq_head_erasures]
  cases he : t.erasures n with
  | nil => simp
  | cons a l => simp

theorem remove_of_absent (n : String) (t : Node) (h : n ∉ t.names_below) :
    Node.remove n t = (false, t) := by
  have h1 : (Node.remove n t).1 = false := by
    rw [← Bool.not_eq_true, remove_true_iff]; exact h
  have h2 := remove_unchanged_of_false n t h1
  exact Prod.ext h1 h2

end Composite

namespace Composite

/-! ## `remove`: claims on absent names, order of the search and duplicates -/

theorem remove_loop_first_success (n : String) (c : Node) (post : List Node)
    (hc : (Node.remove n c).1 = true) : ∀ pre : List Node,
    (∀ p ∈ pre, (Node.remove n p).1 = false) →
    Folder.remove_loop n (pre ++ c :: post) = (true, pre ++ (Node.remove n c).2 :: post) := by
  intro pre
  induction pre with
  | nil => intro _; rw [List.nil_append, remove_loop_cons, if_pos hc, List.nil_append]
  | cons p pre ih =>
    intro hp
    have hp1 : (Node.remove n p).1 = false := hp p (List.mem_cons_self p pre)
    have hrest := ih (fun q hq => hp q (List.mem_cons_of_mem p hq))
    rw [List.cons_append, remove_loop_cons, hp1, hrest, remove_unchanged_of_false n p hp1]
    simp

theorem remove_loop_all_fail (n : String) : ∀ cs : List Node,
    (∀ d ∈ cs, (Node.remove n d).1 = false) → Folder.remove_loop n cs = (false, cs) := by
  intro cs
  induction cs with
  | nil => intro _; exact remove_loop_nil n
  | cons p rest ih =>
    intro hp
    have hp1 : (Node.remove n p).1 = false := hp p (List.mem_cons_self p rest)
    rw [remove_loop_cons, hp1, ih (fun q hq => hp q (List.mem_cons_of_mem p hq)),
      remove_unchanged_of_false n p hp1]
    simp

/-- C4: for every folder `T` and every name `n` that no node below `T` carries,
`remove(T, n)` returns false and leaves `T` unchanged (same children in the
same order at every level, same `size_bytes`); calling it any number of times
is a no-op, and every one of the calls returns false. -/
theorem remove_absent_is_noop (m : String) (cs : List Node) (n : String)
    (h : n ∉ (Node.folder m cs).names_below) :
    Node.remove n (Node.folder m cs) = (false, Node.folder m cs)
    ∧ (Node.remove n (Node.folder m cs)).2.size_bytes = (Node.folder m cs).size_bytes
    ∧ (∀ k : Nat, (fun t => (Node.remove n t).2)^[k] (Node.folder m cs) = Node.folder m cs)
    ∧ (∀ k : Nat, Node.remove n ((fun t => (Node.remove n t).2)^[k] (Node.folder m cs))
        = (false, Node.folder m cs)) := by
  have h0 := remove_of_absent n (Node.folder m cs) h
  have hk : ∀ k : Nat,
      (fun t => (Node.remove n t).2)^[k] (Node.folder m cs) = Node.folder m cs := by
    intro k
    induction k with
    | zero => rfl
    | succ k ih => rw [Function.iterate_succ_apply', ih, h0]
  refine ⟨h0, by rw [h0], hk, fun k => ?_⟩
  rw [hk k, h0]

theorem remove_absent_is_noop_witness :
    "missing.txt" ∉ (Node.folder "root"
        [Node.folder "docs" [Node.file "report.pdf" 1200], Node.file "readme.md" 100]).names_below
    ∧ Node.remove "missing.txt" (Node.folder "root"
        [Node.folder "docs" [Node.file "report.pdf" 1200], Node.file "readme.md" 100])
      = (false, Node.folder "root"
        [Node.folder "docs" [Node.file "report.pdf" 1200], Node.file "readme.md" 100]) :=
  ⟨by decide,
   (remove_absent_is_noop "root"
      [Node.folder "docs" [Node.file "report.pdf" 1200], Node.file "readme.md" 100]
      "missing.txt" (by decide)).1⟩

/-- C5: `remove(T, n)` examines the direct children of `T` before it descends.
If some direct child is named `n`, the children that remain are the direct
children not named `n`, each unaltered; when no direct child matches, the child
folders are tried in child order and the call returns at the first child `c`
whose `remove` succeeds, the children before it and every later sibling `post`
being left unchanged whatever `post` contains; when no direct child matches and
no child succeeds, the call returns false. -/
theorem remove_direct_children_first (m n : String) (cs pre post : List Node) (c : Node) :
    ((∃ d ∈ cs, d.name = n) →
      Node.remove n (Node.folder m cs)
        = (true, Node.folder m (cs.filter (fun d => decide (d.name ≠ n)))))
    ∧ ((∀ d ∈ pre ++ c :: post, d.name ≠ n) →
       (∀ p ∈ pre, (Node.remove n p).1 = false) →
       (Node.remove n c).1 = true →
       Node.remove n (Node.folder m (pre ++ c :: post))
         = (true, Node.folder m (pre ++ (Node.remove n c).2 :: post)))
    ∧ ((∀ d ∈ cs, d.name ≠ n) →
       (∀ d ∈ cs, (Node.remove n d).1 = false) →
       Node.remove n (Node.folder m cs) = (false, Node.folder m cs)) := by
  refine ⟨fun h => ?_, fun hno hpre hc => ?_, fun hno hall => ?_⟩
  · rw [remove_folder_of_match m cs n h]
    have e : remove_if cs n = cs.filter (fun d => decide (d.name ≠ n)) := by
      unfold remove_if
      congr 1
      funext d
      by_cases hd : d.name = n <;> simp [hd]
    rw [e]
  · rw [remove_folder_of_no_match m _ n hno, remove_loop_first_success n c post hc pre hpre]
  · rw [remove_folder_of_no_match m cs n hno, remove_loop_all_fail n cs hall]

theorem remove_direct_children_first_witness :
    (∀ d ∈ [Node.folder "a" []] ++ Node.folder "b" [Node.file "x" 1]
        :: [Node.folder "c" [Node.file "x" 2]], d.name ≠ "x")
    ∧ (∀ p ∈ [Node.folder "a" []], (Node.remove "x" p).1 = false)
    ∧ (Node.remove "x" (Node.folder "b" [Node.file "x" 1])).1 = true
    ∧ Node.remove "x" (Node.folder "r" ([Node.folder "a" []]
          ++ Node.folder "b" [Node.file "x" 1] :: [Node.folder "c" [Node.file "x" 2]]))
        = (true, Node.folder "r" ([Node.folder "a" []]
          ++ (Node.remove "x" (Node.folder "b" [Node.file "x" 1])).2
            :: [Node.folder "c" [Node.file "x" 2]])) :=
  ⟨by decide, by decide, by decide,
   (remove_direct_children_first "r" "x" [] [Node.folder "a" []]
      [Node.folder "c" [Node.file "x" 2]] (Node.folder "b" [Node.file "x" 1])).2.1
      (by decide) (by decide) (by decide)⟩

end Composite

namespace Composite

/-! ## `remove` of a name carried by exactly one node -/

theorem name_mem_names_of (n : String) : ∀ cs : List Node,
    (∃ d ∈ cs, d.name = n) → n ∈ Folder.names_of cs := by
  intro cs
  induction cs with
  | nil => rintro ⟨d, hd, _⟩; cases hd
  | cons c rest ih =>
    rintro ⟨d, hd, hn⟩
    rw [Folder.names_of]
    rcases List.mem_cons.1 hd with e | hmem
    · subst e; simp [hn]
    · have := ih ⟨d, hmem, hn⟩
      simp [this]

theorem count_names_of_cons (n : String) (c : Node) (rest : List Node) :
    (Folder.names_of (c :: rest)).count n
      = (if c.name = n then 1 else 0) + c.names_below.count n
        + (Folder.names_of rest).count n := by
  rw [Folder.names_of, List.count_append, List.count_cons]
  by_cases h : c.name = n
  · simp [h]; omega
  · simp [h]

theorem remove_if_cons_match (c : Node) (rest : List Node) (n : String) (h : c.name = n) :
    remove_if (c :: rest) n = remove_if rest n := by
  simp [remove_if, h]

theorem remove_if_cons_no_match (c : Node) (rest : List Node) (n : String) (h : c.name ≠ n) :
    remove_if (c :: rest) n = c :: remove_if rest n := by
  simp [remove_if, h]

theorem remove_if_delete_each (n : String) : ∀ cs : List Node,
    (Folder.names_of cs).count n = 1 → (∃ d ∈ cs, d.name = n) →
    ∃ c, c.name = n ∧ (c, remove_if cs n) ∈ delete_each cs := by
  intro cs
  induction cs with
  | nil => rintro _ ⟨d, hd, _⟩; cases hd
  | cons c rest ih =>
    intro hcount hex
    rw [count_names_of_cons] at hcount
    by_cases hc : c.name = n
    · rw [if_pos hc] at hcount
      have h0 : (Folder.names_of rest).count n = 0 := by omega
      have hnone : ∀ d ∈ rest, d.name ≠ n := fun d hd hn =>
        (List.count_eq_zero.1 h0) (name_mem_names_of n rest ⟨d, hd, hn⟩)
      refine ⟨c, hc, ?_⟩
      rw [remove_if_cons_match c rest n hc, remove_if_eq_self rest n hnone, delete_each]
      exact List.mem_cons_self _ _
    · rw [if_neg hc] at hcount
      have hex' : ∃ d ∈ rest, d.name = n := by
        obtain ⟨d, hd, hn⟩ := hex
        rcases List.mem_cons.1 hd with e | hmem
        · subst e; exact (hc hn).elim
        · exact ⟨d, hmem, hn⟩
      have hpos : 0 < (Folder.names_of rest).count n :=
        List.count_pos_iff.2 (name_mem_names_of n rest hex')
      obtain ⟨c0, hc0, hmem⟩ := ih (by omega) hex'
      refine ⟨c0, hc0, ?_⟩
      rw [remove_if_cons_no_match c rest n hc, delete_each]
      exact List.mem_cons_of_mem _ (List.mem_map.2 ⟨_, hmem, rfl⟩)

mutual
theorem remove_unique (n : String) : ∀ t : Node, t.names_below.count n = 1 →
    ∃ c, c.name = n ∧ (Node.remove n t).1 = true
      ∧ (c, (Node.remove n t).2) ∈ t.child_deletions
  | .file name bytes => by
    intro h; simp [Node.names_below] at h
  | .folder m cs => by
    intro h
    rw [Node.names_below] at h
    by_cases hd : ∃ d ∈ cs, d.name = n
    · obtain ⟨c, hc, hmem⟩ := remove_if_delete_each n cs h hd
      refine ⟨c, hc, ?_, ?_⟩
      · rw [remove_folder_of_match m cs n hd]
      · rw [remove_folder_of_match m cs n hd, Node.child_deletions]
        exact List.mem_append_left _ (List.mem_map.2 ⟨_, hmem, rfl⟩)
    · have hno : ∀ d ∈ cs, d.name ≠ n := fun d hd' hn => hd ⟨d, hd', hn⟩
      obtain ⟨c, hc, htrue, hmem⟩ := remove_loop_unique n cs h hno
      refine ⟨c, hc, ?_, ?_⟩
      · rw [remove_folder_of_no_match m cs n hno]; exact htrue
      · rw [remove_folder_of_no_match m cs n hno, Node.child_deletions]
        exact List.mem_append_right _ (List.mem_map.2 ⟨_, hmem, rfl⟩)
theorem remove_loop_unique (n : String) : ∀ cs : List Node,
    (Folder.names_of cs).count n = 1 → (∀ d ∈ cs, d.name ≠ n) →
    ∃ c, c.name = n ∧ (Folder.remove_loop n cs).1 = true
      ∧ (c, (Folder.remove_loop n cs).2) ∈ Folder.deletions_below cs
  | [] => by
    intro h; simp [Folder.names_of] at h
  | c :: rest => by
    intro hcount hno
    have hc : c.name ≠ n := hno c (List.mem_cons_self c rest)
    have hrest : ∀ d ∈ rest, d.name ≠ n := fun d hd => hno d (List.mem_cons_of_mem c hd)
    rw [count_names_of_cons, if_neg hc] at hcount
    by_cases hin : c.names_below.count n = 1
    · obtain ⟨c0, hc0, htrue, hmem⟩ := remove_unique n c hin
      refine ⟨c0, hc0, ?_, ?_⟩
      · rw [remove_loop_cons, if_pos htrue]
      · rw [remove_loop_cons, if_pos htrue, Folder.deletions_below]
        exact List.mem_append_left _ (List.mem_map.2 ⟨_, hmem, rfl⟩)
    · have h0 : c.names_below.count n = 0 := by omega
      have hfalse := remove_of_absent n c (List.count_eq_zero.1 h0)
      obtain ⟨c0, hc0, htrue, hmem⟩ := remove_loop_unique n rest (by omega) hrest
      refine ⟨c0, hc0, ?_, ?_⟩
      · rw [remove_loop_cons, hfalse]; simpa using htrue
      · rw [remove_loop_cons, hfalse, Folder.deletions_below]
        exact List.mem_append_right _ (List.mem_map.2 ⟨_, hmem, rfl⟩)
end

theorem delete_each_leaf_sum : ∀ (cs : List Node) (c : Node) (cs' : List Node),
    (c, cs') ∈ delete_each cs →
    (Folder.leaf_sizes cs).sum = c.leaf_sizes.sum + (Folder.leaf_sizes cs').sum := by
  intro cs
  induction cs with
  | nil => intro c cs' h; simp [delete_each] at h
  | cons d rest ih =>
    intro c cs' h
    rw [delete_each, List.mem_cons] at h
    rcases h with e | h
    · injection e with e1 e2
      subst e1; subst e2
      rw [Folder.leaf_sizes, List.sum_append]
    · obtain ⟨p, hp, e⟩ := List.mem_map.1 h
      injection e with e1 e2
      subst e1; subst e2
      have := ih p.1 p.2 hp
      rw [Folder.leaf_sizes, Folder.leaf_sizes, List.sum_append, List.sum_append, this]
      omega

mutual
theorem child_deletions_leaf_sum : ∀ (t c t' : Node), (c, t') ∈ t.child_deletions →
    t.leaf_sizes.sum = c.leaf_sizes.sum + t'.leaf_sizes.sum
  | .file name bytes, c, t' => by
    intro h; simp [Node.child_deletions] at h
  | .folder m cs, c, t' => by
    intro h
    rw [Node.child_deletions, List.mem_append] at h
    rcases h with h | h
    · obtain ⟨p, hp, e⟩ := List.mem_map.1 h
      injection e with e1 e2
      subst e1; subst e2
      rw [Node.leaf_sizes, Node.leaf_sizes]
      exact delete_each_leaf_sum cs p.1 p.2 hp
    · obtain ⟨p, hp, e⟩ := List.mem_map.1 h
      injection e with e1 e2
      subst e1; subst e2
      rw [Node.leaf_sizes, Node.leaf_sizes]
      exact deletions_below_leaf_sum cs p.1 p.2 hp
theorem deletions_below_leaf_sum : ∀ (cs : List Node) (c : Node) (cs' : List Node),
    (c, cs') ∈ Folder.deletions_below cs →
    (Folder.leaf_sizes cs).sum = c.leaf_sizes.sum + (Folder.leaf_sizes cs').sum
  | [], c, cs' => by
    intro h; simp [Folder.deletions_below] at h
  | d :: rest, c, cs' => by
    intro h
    rw [Folder.deletions_below, List.mem_append] at h
    rcases h with h | h
    · obtain ⟨p, hp, e⟩ := List.mem_map.1 h
      injection e with e1 e2
      subst e1; subst e2
      have := child_deletions_leaf_sum d p.1 p.2 hp
      rw [Folder.leaf_sizes, Folder.leaf_sizes, List.sum_append, List.sum_append, this]
      omega
    · obtain ⟨p, hp, e⟩ := List.mem_map.1 h
      injection e with e1 e2
      subst e1; subst e2
      have := deletions_below_leaf_sum rest p.1 p.2 hp
      rw [Folder.leaf_sizes, Folder.leaf_sizes, List.sum_append, List.sum_append, this]
      omega
end

theorem size_bytes_eq_sum_of_lt (t : Node) (h : t.leaf_sizes.sum < SIZE_MOD) :
    t.size_bytes = t.leaf_sizes.sum := by
  cases t with
  | file name bytes => simp [Node.size_bytes, Node.leaf_sizes]
  | folder m cs =>
    have h1 := size_bytes_mod_eq (Node.folder m cs)
    rw [Nat.mod_eq_of_lt (folder_size_lt m cs), Nat.mod_eq_of_lt h] at h1
    exact h1

theorem remove_folder_is_folder (m : String) (cs : List Node) (n : String) :
    ∃ cs', (Node.remove n (Node.folder m cs)).2 = Node.folder m cs' := by
  by_cases hd : ∃ d ∈ cs, d.name = n
  · exact ⟨_, by rw [remove_folder_of_match m cs n hd]⟩
  · have hno : ∀ d ∈ cs, d.name ≠ n := fun d hd' hn => hd ⟨d, hd', hn⟩
    exact ⟨_, by rw [remove_folder_of_no_match m cs n hno]⟩

end Composite

namespace Composite

/-- C3, as stated, fails: in a folder holding a and b of 2^63 bytes each, the
name "a" is carried by exactly one node and `remove` returns true, but
`size_bytes` is 0 before the call and 2^63 after it, which is not 0 minus the
2^63 bytes of the removed file. -/
theorem remove_size_exact_difference_fails :
    (Node.folder "r" [Node.file "a" (2 ^ 63), Node.file "b" (2 ^ 63)]).fits
    ∧ (Node.folder "r" [Node.file "a" (2 ^ 63), Node.file "b" (2 ^ 63)]).names_below.count "a" = 1
    ∧ Node.remove "a" (Node.folder "r" [Node.file "a" (2 ^ 63), Node.file "b" (2 ^ 63)])
        = (true, Node.folder "r" [Node.file "b" (2 ^ 63)])
    ∧ (Node.folder "r" [Node.file "a" (2 ^ 63), Node.file "b" (2 ^ 63)]).size_bytes = 0
    ∧ (Node.remove "a"
        (Node.folder "r" [Node.file "a" (2 ^ 63), Node.file "b" (2 ^ 63)])).2.size_bytes = 2 ^ 63
    ∧ ((Node.remove "a"
        (Node.folder "r" [Node.file "a" (2 ^ 63), Node.file "b" (2 ^ 63)])).2.size_bytes : Int)
      ≠ ((Node.folder "r" [Node.file "a" (2 ^ 63), Node.file "b" (2 ^ 63)]).size_bytes : Int)
          - ((Node.file "a" (2 ^ 63)).size_bytes : Int) := by
  decide

/-- C3 (amended): for every folder `T` and every name `n` carried by exactly
one node below `T`, `remove(T, n)` returns true and deletes exactly that node
`c` (with its subtree), all other nodes keeping their place and order;
`size_bytes(T)` afterwards equals `size_bytes(T)` before the call minus
`size_bytes(c)` in `std::size_t` arithmetic, that is, modulo 2^64 (the size
before is the size after plus `size_bytes(c)`, reduced modulo 2^64), and it is
exactly the size before minus `size_bytes(c)` whenever the leaf sizes below
`T` sum to less than 2^64. -/
theorem remove_unique_name (m : String) (cs : List Node) (n : String)
    (h : (Node.folder m cs).names_below.count n = 1) :
    ∃ c : Node, c.name = n
      ∧ (Node.remove n (Node.folder m cs)).1 = true
      ∧ (c, (Node.remove n (Node.folder m cs)).2) ∈ (Node.folder m cs).child_deletions
      ∧ ((Node.remove n (Node.folder m cs)).2.size_bytes + c.size_bytes) % SIZE_MOD
          = (Node.folder m cs).size_bytes
      ∧ ((Node.folder m cs).leaf_sizes.sum < SIZE_MOD →
          c.size_bytes ≤ (Node.folder m cs).size_bytes
          ∧ (Node.remove n (Node.folder m cs)).2.size_bytes
              = (Node.folder m cs).size_bytes - c.size_bytes) := by
  obtain ⟨c, hc, htrue, hmem⟩ := remove_unique n (Node.folder m cs) h
  have hsum := child_deletions_leaf_sum _ _ _ hmem
  refine ⟨c, hc, htrue, hmem, ?_, fun hlt => ?_⟩
  · have h1 := size_bytes_mod_eq (Node.folder m cs)
    have h2 := size_bytes_mod_eq (Node.remove n (Node.folder m cs)).2
    have h3 := size_bytes_mod_eq c
    have h4 := folder_size_lt m cs
    rw [hsum] at h1
    simp only [SIZE_MOD] at h1 h2 h3 h4 ⊢
    omega
  · have e1 := size_bytes_eq_sum_of_lt (Node.folder m cs) hlt
    have e2 := size_bytes_eq_sum_of_lt (Node.remove n (Node.folder m cs)).2 (by omega)
    have e3 := size_bytes_eq_sum_of_lt c (by omega)
    omega

theorem remove_unique_name_witness :
    (Node.folder "root"
        [Node.folder "docs" [Node.file "report.pdf" 1200, Node.file "notes.txt" 300],
         Node.folder "images" [Node.file "logo.png" 500, Node.file "banner.jpg" 2048],
         Node.file "readme.md" 100]).names_below.count "banner.jpg" = 1
    ∧ ∃ c : Node, c.name = "banner.jpg"
      ∧ (Node.remove "banner.jpg" (Node.folder "root"
          [Node.folder "docs" [Node.file "report.pdf" 1200, Node.file "notes.txt" 300],
           Node.folder "images" [Node.file "logo.png" 500, Node.file "banner.jpg" 2048],
           Node.file "readme.md" 100])).1 = true :=
  ⟨by decide,
   (remove_unique_name "root"
      [Node.folder "docs" [Node.file "report.pdf" 1200, Node.file "notes.txt" 300],
       Node.folder "images" [Node.file "logo.png" 500, Node.file "banner.jpg" 2048],
       Node.file "readme.md" 100] "banner.jpg" (by decide)).imp
     (fun _ hc => ⟨hc.1, hc.2.1⟩)⟩

end Composite

/-! # Theorems: Chain of Responsibility -/

namespace ChainOfResponsibility

theorem chain_mk_none {Request : Type} (process : Request → Bool) :
    (Handler.mk process none).chain = [process] := by
  rw [Handler.chain]

theorem chain_mk_some {Request : Type} (process : Request → Bool) (next : Handler Request) :
    (Handler.mk process (some next)).chain = process :: next.chain := by
  rw [Handler.chain]

theorem range_succ_map_offset (position k : Nat) :
    (List.range (k + 1)).map (fun i => Event.processed (position + i) false)
      = Event.processed position false
        :: (List.range k).map (fun i => Event.processed (position + 1 + i) false) := by
  rw [List.range_succ_eq_map, List.map_cons, List.map_map]
  simp [Function.comp_def, Nat.add_assoc, Nat.add_comm 1]

theorem handle_at_eq {Request : Type} (r : Request) :
    ∀ (h : Handler Request) (position : Nat),
    Handler.handle_at r h position
      = (List.range (h.chain.takeWhile (fun p => !p r)).length).map
          (fun i => Event.processed (position + i) false)
        ++ (if (h.chain.takeWhile (fun p => !p r)).length < h.chain.length
            then [Event.processed (position + (h.chain.takeWhile (fun p => !p r)).length) true]
            else [Event.rejected])
  | .mk process none, position => by
    rw [Handler.handle_at, chain_mk_none]
    cases hp : process r <;> simp [hp, List.takeWhile, List.range_succ]
  | .mk process (some next), position => by
    rw [Handler.handle_at, chain_mk_some]
    cases hp : process r
    · have ih := handle_at_eq r next (position + 1)
      simp only [hp, Bool.false_eq_true, if_false, List.takeWhile_cons, Bool.not_false,
        if_true, List.length_cons, Nat.add_lt_add_iff_right, range_succ_map_offset,
        List.cons_append, ih]
      simp [Nat.add_assoc, Nat.add_comm 1]
    · simp [hp, List.takeWhile]

theorem takeWhile_length_spec {α : Type} (q : α → Bool) : ∀ l : List α,
    (∀ i, i < (l.takeWhile q).length → ∃ a, l[i]? = some a ∧ q a = true)
    ∧ ((l.takeWhile q).length < l.length →
        ∃ a, l[(l.takeWhile q).length]? = some a ∧ q a = false) := by
  intro l
  induction l with
  | nil => simp
  | cons x xs ih =>
    cases hq : q x
    · simp [List.takeWhile, hq]
    · constructor
      · intro i hi
        cases i with
        | zero => exact ⟨x, by simp, hq⟩
        | succ j =>
          simp only [List.takeWhile, hq, List.length_cons, Nat.add_lt_add_iff_right] at hi
          simpa using ih.1 j hi
      · intro hlt
        simp only [List.takeWhile, hq, List.length_cons, Nat.add_lt_add_iff_right] at hlt
        simpa [List.takeWhile, hq] using ih.2 hlt

/-- C10: for every finite chain and request `r`, `handle(head, r)` offers `r`
to the handlers in chain order and stops at the first handler whose `process`
returns true. With `k` the number of handlers that decline before the first
one that accepts, the calls of `process` are exactly those on the handlers at
positions 0, 1, ..., k - 1, each once and each declining, followed, if the chain
has a handler at position `k`, by one call on that handler, which accepts; no
handler after it is called, and the rejection is written only when every
handler has declined. -/
theorem handle_stops_at_first_acceptor {Request : Type} (head : Handler Request)
    (r : Request) :
    head.handle r
      = (List.range (head.chain.takeWhile (fun p => !p r)).length).map
          (fun i => Event.processed i false)
        ++ (if (head.chain.takeWhile (fun p => !p r)).length < head.chain.length
            then [Event.processed (head.chain.takeWhile (fun p => !p r)).length true]
            else [Event.rejected])
    ∧ (∀ i, i < (head.chain.takeWhile (fun p => !p r)).length →
        ∃ p, head.chain[i]? = some p ∧ p r = false)
    ∧ ((head.chain.takeWhile (fun p => !p r)).length < head.chain.length →
        ∃ p, head.chain[(head.chain.takeWhile (fun p => !p r)).length]? = some p
          ∧ p r = true) := by
  have hs := takeWhile_length_spec (fun p : Request → Bool => !p r) head.chain
  refine ⟨?_, fun i hi => ?_, fun hlt => ?_⟩
  · rw [Handler.handle, handle_at_eq]
    simp
  · obtain ⟨p, hp, hq⟩ := hs.1 i hi
    exact ⟨p, hp, by simpa using hq⟩
  · obtain ⟨p, hp, hq⟩ := hs.2 hlt
    exact ⟨p, hp, by simpa using hq⟩

theorem handle_stops_at_first_acceptor_witness :
    ((Handler.mk (fun r : Nat => decide (r ≤ 10))
        (some (Handler.mk (fun r : Nat => decide (r ≤ 20))
          (some (Handler.mk (fun r : Nat => decide (r ≤ 30)) none))))).chain.takeWhile
        (fun p => !p 15)).length = 1
    ∧ (Handler.mk (fun r : Nat => decide (r ≤ 10))
        (some (Handler.mk (fun r : Nat => decide (r ≤ 20))
          (some (Handler.mk (fun r : Nat => decide (r ≤ 30)) none))))).handle 15
      = [Event.processed 0 false, Event.processed 1 true] :=
  ⟨by decide,
   (handle_stops_at_first_acceptor
      (Handler.mk (fun r : Nat => decide (r ≤ 10))
        (some (Handler.mk (fun r : Nat => decide (r ≤ 20))
          (some (Handler.mk (fun r : Nat => decide (r ≤ 30)) none))))) 15).1.trans
     (by decide)⟩

end ChainOfResponsibility

namespace ChainOfResponsibility

/-! ## Terminal outcome of `handle` -/

theorem takeWhile_length_le {α : Type} (q : α → Bool) (l : List α) :
    (l.takeWhile q).length ≤ l.length := by
  induction l with
  | nil => simp
  | cons x xs ih =>
    cases hq : q x <;> simp [List.takeWhile, hq]
    exact ih

theorem takeWhile_length_eq_iff {α : Type} (q : α → Bool) (l : List α) :
    (l.takeWhile q).length = l.length ↔ ∀ a ∈ l, q a = true := by
  induction l with
  | nil => simp
  | cons x xs ih =>
    cases hq : q x <;> simp [List.takeWhile, hq, ih]

theorem handle_eq {Request : Type} (head : Handler Request) (r : Request) :
    head.handle r
      = (List.range (head.chain.takeWhile (fun p => !p r)).length).map
          (fun i => Event.processed i false)
        ++ (if (head.chain.takeWhile (fun p => !p r)).length < head.chain.length
            then [Event.processed (head.chain.takeWhile (fun p => !p r)).length true]
            else [Event.rejected]) := by
  rw [Handler.handle, handle_at_eq]
  simp

theorem declines_filter_terminal (k : Nat) :
    ((List.range k).map (fun i => Event.processed i false)).filter Event.terminal = [] := by
  rw [List.filter_eq_nil_iff]
  intro e he
  obtain ⟨i, _, rfl⟩ := List.mem_map.1 he
  simp [Event.terminal]

theorem rejected_not_mem_declines (k : Nat) :
    Event.rejected ∉ (List.range k).map (fun i => Event.processed i false) := by
  intro he
  obtain ⟨i, _, h⟩ := List.mem_map.1 he
  cases h

theorem rejected_mem_handle_iff {Request : Type} (head : Handler Request) (r : Request) :
    Event.rejected ∈ head.handle r ↔ ∀ p ∈ head.chain, p r = false := by
  have hle := takeWhile_length_le (fun p : Request → Bool => !p r) head.chain
  have heq := takeWhile_length_eq_iff (fun p : Request → Bool => !p r) head.chain
  rw [handle_eq, List.mem_append]
  constructor
  · rintro (h | h)
    · exact (rejected_not_mem_declines _ h).elim
    · by_cases hlt : (head.chain.takeWhile (fun p => !p r)).length < head.chain.length
      · rw [if_pos hlt] at h; simp at h
      · intro p hp
        have hk : (head.chain.takeWhile (fun p => !p r)).length = head.chain.length :=
          Nat.le_antisymm hle (Nat.not_lt.1 hlt)
        have := heq.1 hk p hp
        simpa using this
  · intro hall
    right
    have : (head.chain.takeWhile (fun p => !p r)).length = head.chain.length :=
      heq.2 (fun p hp => by simpa using hall p hp)
    have hnlt : ¬ (head.chain.takeWhile (fun p => !p r)).length < head.chain.length := by
      rw [this]; exact Nat.lt_irrefl _
    rw [if_neg hnlt]
    simp

end ChainOfResponsibility

namespace ChainOfResponsibility

/-! ## The demo chain -/

theorem le_ofInt_mono (a : Double) (c1 c2 : Int) (hc : c1 ≤ c2)
    (h : Double.le a (Double.ofInt c1) = true) : Double.le a (Double.ofInt c2) = true := by
  cases a with
  | nan => simp [Double.le, Double.ofInt] at h
  | neg_inf => simp [Double.le, Double.ofInt]
  | pos_inf => simp [Double.le, Double.ofInt] at h
  | finite m e =>
    simp only [Double.le, Double.ofInt, Double.finite_le, decide_eq_true_eq] at h ⊢
    have hB : (0 : Int) ≤ ((2 ^ (0 - min e 0).toNat : Nat) : Int) := Int.ofNat_nonneg _
    exact le_trans h (mul_le_mul_of_nonneg_right hc hB)

theorem le_false_iff_gt_or_nan (a : Double) (c : Int) :
    Double.le a (Double.ofInt c) = false
      ↔ (Double.gt a (Double.ofInt c) = true ∨ a = Double.nan) := by
  cases a <;> simp [Double.le, Double.gt, Double.ofInt]

theorem main_chain_chain :
    main_chain.chain = [TeamLead.process, Manager.process, Director.process, CEO.process] := by
  rfl

theorem main_chain_rejects_iff (q : Request) :
    Event.rejected ∈ main_chain.handle q
      ↔ Double.le q.amount (Double.ofInt 200000) = false := by
  rw [rejected_mem_handle_iff, main_chain_chain]
  simp only [List.mem_cons, List.mem_singleton, List.not_mem_nil, or_false, forall_eq_or_imp,
    forall_eq, TeamLead.process, Manager.process, Director.process, CEO.process]
  constructor
  · rintro ⟨_, _, _, h4⟩
    simpa using h4
  · intro h
    have m1 := le_ofInt_mono q.amount 1000 200000 (by decide)
    have m2 := le_ofInt_mono q.amount 5000 200000 (by decide)
    have m3 := le_ofInt_mono q.amount 50000 200000 (by decide)
    rw [h] at m1 m2 m3
    refine ⟨?_, ?_, ?_, ?_⟩
    · cases h1 : Double.le q.amount (Double.ofInt 1000)
      · simp
      · exact absurd (m1 h1) (by simp)
    · cases h1 : Double.le q.amount (Double.ofInt 5000)
      · simp
      · exact absurd (m2 h1) (by simp)
    · cases h1 : Double.le q.amount (Double.ofInt 50000)
      · simp
      · exact absurd (m3 h1) (by simp)
    · simp [h]

/-- C11, as stated, fails in its clause on the demo chain: a request whose
amount is not-a-number is declined by all four handlers and reported as
rejected, although `amount > 200000` is false for it. -/
theorem rejected_iff_above_cap_fails :
    main_chain.handle ⟨Double.nan, "audit"⟩
      = [Event.processed 0 false, Event.processed 1 false, Event.processed 2 false,
         Event.processed 3 false, Event.rejected]
    ∧ Event.rejected ∈ main_chain.handle ⟨Double.nan, "audit"⟩
    ∧ Double.gt (Request.mk Double.nan "audit").amount (Double.ofInt 200000) = false := by
  decide

/-- C11 (amended): every call `handle(head, r)` on a finite chain ends in
exactly one terminal outcome: its steps contain exactly one terminal step, an
approval or the rejection, and that step is the last one; the request is
reported as rejected if and only if every handler in the chain declines, and
then the rejection comes after the declining calls of all the handlers, in
chain order. On the demo chain a request `q` is rejected if and only if
`amount <= 200000` is false, that is, if and only if `amount > 200000` or the
amount is not-a-number. -/
theorem handle_one_terminal_outcome {R : Type} (head : Handler R) (r : R) (q : Request) :
    ((head.handle r).filter Event.terminal).length = 1
    ∧ (∃ e, (head.handle r).getLast? = some e ∧ e.terminal = true)
    ∧ (Event.rejected ∈ head.handle r ↔ ∀ p ∈ head.chain, p r = false)
    ∧ (Event.rejected ∈ head.handle r →
        head.handle r = (List.range head.chain.length).map (fun i => Event.processed i false)
          ++ [Event.rejected])
    ∧ (Event.rejected ∈ head.handle r → ∀ i, Event.processed i true ∉ head.handle r)
    ∧ (Event.rejected ∈ main_chain.handle q
        ↔ (Double.gt q.amount (Double.ofInt 200000) = true ∨ q.amount = Double.nan)) := by
  have hle := takeWhile_length_le (fun p : R → Bool => !p r) head.chain
  have heq := takeWhile_length_eq_iff (fun p : R → Bool => !p r) head.chain
  have hrej : Event.rejected ∈ head.handle r →
      head.handle r = (List.range head.chain.length).map (fun i => Event.processed i false)
        ++ [Event.rejected] := by
    intro h
    have hall := (rejected_mem_handle_iff head r).1 h
    have hk : (head.chain.takeWhile (fun p => !p r)).length = head.chain.length :=
      heq.2 (fun p hp => by simpa using hall p hp)
    rw [handle_eq, hk, if_neg (Nat.lt_irrefl _)]
  refine ⟨?_, ?_, rejected_mem_handle_iff head r, hrej, ?_, ?_⟩
  · rw [handle_eq, List.filter_append, declines_filter_terminal]
    by_cases hlt : (head.chain.takeWhile (fun p => !p r)).length < head.chain.length
    · rw [if_pos hlt]; simp [Event.terminal]
    · rw [if_neg hlt]; simp [Event.terminal]
  · rw [handle_eq]
    by_cases hlt : (head.chain.takeWhile (fun p => !p r)).length < head.chain.length
    · rw [if_pos hlt]
      exact ⟨Event.processed (head.chain.takeWhile (fun p => !p r)).length true, by simp, rfl⟩
    · rw [if_neg hlt]
      exact ⟨Event.rejected, by simp, rfl⟩
  · intro h i hi
    rw [hrej h, List.mem_append] at hi
    rcases hi with hi | hi
    · obtain ⟨j, _, e⟩ := List.mem_map.1 hi
      cases e
    · simp at hi
  · rw [main_chain_rejects_iff, le_false_iff_gt_or_nan]

theorem handle_one_terminal_outcome_witness :
    Event.rejected ∈ main_chain.handle ⟨Double.ofInt 350000, "New office renovation"⟩
    ∧ main_chain.handle ⟨Double.ofInt 350000, "New office renovation"⟩
        = (List.range main_chain.chain.length).map (fun i => Event.processed i false)
          ++ [Event.rejected] :=
  ⟨by decide,
   (handle_one_terminal_outcome main_chain
      ⟨Double.ofInt 350000, "New office renovation"⟩
      ⟨Double.ofInt 350000, "New office renovation"⟩).2.2.2.1 (by decide)⟩

/-- C12: on the chain TeamLead(1000) -> Manager(5000) -> Director(50000) ->
CEO(200000) built by `main`, the request of amount 999.9 is accepted by the
first handler, 4200 by the second, and 350000 by none (rejected); the requests
120, 1800, 22000 and 120000 are accepted by TeamLead, Manager, Director and CEO
respectively. -/
theorem main_requests_outcomes :
    main_chain.chain = [TeamLead.process, Manager.process, Director.process, CEO.process]
    ∧ main_requests.map (fun q => q.amount)
        = [Double.ofInt 120, Double.lit_999_9, Double.ofInt 1800, Double.ofInt 4200,
           Double.ofInt 22000, Double.ofInt 120000, Double.ofInt 350000]
    ∧ main_requests.map main_chain.handle
        = [[Event.processed 0 true],
           [Event.processed 0 true],
           [Event.processed 0 false, Event.processed 1 true],
           [Event.processed 0 false, Event.processed 1 true],
           [Event.processed 0 false, Event.processed 1 false, Event.processed 2 true],
           [Event.processed 0 false, Event.processed 1 false, Event.processed 2 false,
            Event.processed 3 true],
           [Event.processed 0 false, Event.processed 1 false, Event.processed 2 false,
            Event.processed 3 false, Event.rejected]]
    ∧ (serve main_chain main_requests).1 = main_requests.map main_chain.handle :=
  ⟨rfl, by decide, by decide, by decide⟩

end ChainOfResponsibility

namespace ChainOfResponsibility

/-! ## The concrete handlers -/

theorem zpow_split (e e0 : Int) (h : e0 ≤ e) :
    (2 : ℚ) ^ e = (((2 ^ (e - e0).toNat : Nat) : Int) : ℚ) * (2 : ℚ) ^ e0 := by
  have hk : ((e - e0).toNat : Int) = e - e0 := Int.toNat_of_nonneg (by omega)
  have h2 : (2 : ℚ) ≠ 0 := by norm_num
  have : e = ((e - e0).toNat : Int) + e0 := by omega
  conv_lhs => rw [this]
  rw [zpow_add₀ h2, zpow_natCast]
  push_cast
  ring

theorem finite_le_iff (m1 e1 m2 e2 : Int) :
    Double.finite_le m1 e1 m2 e2 = true ↔ Double.value m1 e1 ≤ Double.value m2 e2 := by
  have hpos : (0 : ℚ) < (2 : ℚ) ^ (min e1 e2) := zpow_pos (by norm_num) _
  unfold Double.finite_le Double.value
  rw [decide_eq_true_eq, zpow_split e1 (min e1 e2) (min_le_left _ _),
    zpow_split e2 (min e1 e2) (min_le_right _ _), ← mul_assoc, ← mul_assoc,
    mul_le_mul_right hpos]
  rw [← Int.cast_mul, ← Int.cast_mul, Int.cast_le]

theorem value_ofInt (c : Int) : Double.value c 0 = (c : ℚ) := by
  simp [Double.value]

end ChainOfResponsibility

namespace ChainOfResponsibility

theorem handle_run_eq {Request : Type} (r : Request) :
    ∀ (h : Handler Request) (position : Nat),
    Handler.handle_run r h position = (Handler.handle_at r h position, h)
  | .mk process none, position => by
    rw [Handler.handle_run, Handler.handle_at]
    cases process r <;> rfl
  | .mk process (some next), position => by
    rw [Handler.handle_run, Handler.handle_at]
    cases hp : process r
    · simp only [Bool.false_eq_true, if_false, handle_run_eq r next (position + 1)]
    · simp

theorem serve_eq {Request : Type} (head : Handler Request) :
    ∀ rs : List Request, serve head rs = (rs.map head.handle, head) := by
  intro rs
  induction rs with
  | nil => rfl
  | cons r rs ih =>
    rw [serve]
    simp only [handle_run_eq, ih, List.map_cons, Handler.handle]

/-- C13: each concrete handler's `process` accepts if and only if
`amount <= limit` for its own limit (TeamLead 1000, Manager 5000, Director
50000, CEO 200000), which for a finite amount is the order of the values, the
boundary included (exactly 1000 is accepted by TeamLead, exactly 200000 by
CEO); the decision depends on the amount only, never on the description; and a
handler of one of the four classes is unchanged by a call of `handle`, in
particular when it declines. -/
theorem process_accepts_iff_within_limit (r : Request) (d : String) (m e : Int)
    (next_ : Option (Handler Request)) (position : Nat) :
    (TeamLead.process r = Double.le r.amount (Double.ofInt 1000)
      ∧ Manager.process r = Double.le r.amount (Double.ofInt 5000)
      ∧ Director.process r = Double.le r.amount (Double.ofInt 50000)
      ∧ CEO.process r = Double.le r.amount (Double.ofInt 200000))
    ∧ ((TeamLead.process ⟨Double.finite m e, d⟩ = true ↔ Double.value m e ≤ 1000)
      ∧ (Manager.process ⟨Double.finite m e, d⟩ = true ↔ Double.value m e ≤ 5000)
      ∧ (Director.process ⟨Double.finite m e, d⟩ = true ↔ Double.value m e ≤ 50000)
      ∧ (CEO.process ⟨Double.finite m e, d⟩ = true ↔ Double.value m e ≤ 200000))
    ∧ (TeamLead.process ⟨Double.ofInt 1000, d⟩ = true
      ∧ Manager.process ⟨Double.ofInt 5000, d⟩ = true
      ∧ Director.process ⟨Double.ofInt 50000, d⟩ = true
      ∧ CEO.process ⟨Double.ofInt 200000, d⟩ = true)
    ∧ (TeamLead.process ⟨r.amount, d⟩ = TeamLead.process r
      ∧ Manager.process ⟨r.amount, d⟩ = Manager.process r
      ∧ Director.process ⟨r.amount, d⟩ = Director.process r
      ∧ CEO.process ⟨r.amount, d⟩ = CEO.process r)
    ∧ ((Handler.handle_run r (Handler.mk TeamLead.process next_) position).2
          = Handler.mk TeamLead.process next_
      ∧ (Handler.handle_run r (Handler.mk Manager.process next_) position).2
          = Handler.mk Manager.process next_
      ∧ (Handler.handle_run r (Handler.mk Director.process next_) position).2
          = Handler.mk Director.process next_
      ∧ (Handler.handle_run r (Handler.mk CEO.process next_) position).2
          = Handler.mk CEO.process next_) := by
  have hv : ∀ c : Int, (Double.le (Double.finite m e) (Double.ofInt c) = true
      ↔ Double.value m e ≤ (c : ℚ)) := by
    intro c
    rw [← value_ofInt c, ← finite_le_iff]
    rfl
  refine ⟨⟨?_, ?_, ?_, ?_⟩, ⟨?_, ?_, ?_, ?_⟩, ⟨rfl, rfl, rfl, rfl⟩,
    ⟨rfl, rfl, rfl, rfl⟩, ⟨?_, ?_, ?_, ?_⟩⟩
  · unfold TeamLead.process; cases Double.le r.amount (Double.ofInt 1000) <;> rfl
  · unfold Manager.process; cases Double.le r.amount (Double.ofInt 5000) <;> rfl
  · unfold Director.process; cases Double.le r.amount (Double.ofInt 50000) <;> rfl
  · unfold CEO.process; cases Double.le r.amount (Double.ofInt 200000) <;> rfl
  · have := hv 1000
    simpa [TeamLead.process] using this
  · have := hv 5000
    simpa [Manager.process] using this
  · have := hv 50000
    simpa [Director.process] using this
  · have := hv 200000
    simpa [CEO.process] using this
  · rw [handle_run_eq]
  · rw [handle_run_eq]
  · rw [handle_run_eq]
  · rw [handle_run_eq]

/-- C15: `handle` never changes the chain: after `handle(head, r)` the chain is
the chain before, with the same handlers in the same order; so the steps of a
request served after any requests `rs` are those of serving it first, the
chain after a whole sequence of requests is the chain before, and handling the
same request twice gives the same outcome twice. -/
theorem handle_leaves_chain_unchanged {R : Type} (head : Handler R) (r : R) (rs : List R) :
    Handler.handle_run r head 0 = (head.handle r, head)
    ∧ (Handler.handle_run r head 0).2.chain = head.chain
    ∧ serve head rs = (rs.map head.handle, head)
    ∧ (serve head (rs ++ [r])).1 = (serve head rs).1 ++ [head.handle r]
    ∧ (serve head [r, r]).1 = [head.handle r, head.handle r]
    ∧ (serve head (rs ++ [r])).2 = head := by
  refine ⟨?_, ?_, serve_eq head rs, ?_, ?_, ?_⟩
  · rw [handle_run_eq]; rfl
  · rw [handle_run_eq]
  · rw [serve_eq, serve_eq]; simp
  · rw [serve_eq]; rfl
  · rw [serve_eq]

/-! ## `setNext` -/

theorem chain_length_pos {Request : Type} (h : Handler Request) : 0 < h.chain.length := by
  cases h with
  | mk process next_ => cases next_ <;> simp [Handler.chain]

theorem setNext_at_last {Request : Type} (p : Request → Bool) :
    ∀ h : Handler Request,
    (Handler.setNext_at h (h.chain.length - 1) (Handler.ctor p)).chain = h.chain ++ [p]
  | .mk q none => by
    rw [chain_mk_none]
    simp [Handler.setNext_at, Handler.setNext, Handler.ctor, Handler.chain]
  | .mk q (some nx) => by
    have hpos := chain_length_pos nx
    have ih := setNext_at_last p nx
    rw [chain_mk_some]
    have e : (q :: nx.chain).length - 1 = (nx.chain.length - 1) + 1 := by
      simp only [List.length_cons]; omega
    rw [e, Handler.setNext_at, chain_mk_some, ih]
    rfl

theorem attach_all_fresh {Request : Type} : ∀ (ps : List (Request → Bool))
    (head : Handler Request),
    (Handler.attach_all head (head.chain.length - 1) (ps.map Handler.ctor)).1.chain
      = head.chain ++ ps
    ∧ (Handler.attach_all head (head.chain.length - 1) (ps.map Handler.ctor)).2
      = head.chain.length - 1 + ps.length := by
  intro ps
  induction ps with
  | nil => intro head; simp [Handler.attach_all]
  | cons p ps ih =>
    intro head
    have hpos := chain_length_pos head
    have hl := setNext_at_last p head
    have hlen : (Handler.setNext_at head (head.chain.length - 1) (Handler.ctor p)).chain.length - 1
        = head.chain.length - 1 + 1 := by
      rw [hl, List.length_append]; simp; omega
    have := ih (Handler.setNext_at head (head.chain.length - 1) (Handler.ctor p))
    rw [hlen, hl] at this
    rw [List.map_cons, Handler.attach_all]
    constructor
    · rw [this.1]; simp
    · rw [this.2]; simp; omega

theorem setNext_at_chain {Request : Type} (next : Handler Request) :
    ∀ (head : Handler Request) (links : Nat), links < head.chain.length →
    (Handler.setNext_at head links next).chain = head.chain.take (links + 1) ++ next.chain
  | .mk p none, 0, _ => by
    rw [Handler.setNext_at, Handler.setNext, chain_mk_some, chain_mk_none]
    rfl
  | .mk p (some nx), 0, _ => by
    rw [Handler.setNext_at, Handler.setNext, chain_mk_some, chain_mk_some]
    rfl
  | .mk p none, links + 1, h => by
    rw [chain_mk_none] at h
    simp at h
  | .mk p (some nx), links + 1, h => by
    rw [chain_mk_some, List.length_cons] at h
    have ih := setNext_at_chain next nx links (Nat.lt_of_succ_lt_succ h)
    rw [Handler.setNext_at, chain_mk_some, chain_mk_some, ih]
    rfl

theorem chain_eq_process_cons {Request : Type} (h : Handler Request) :
    h.chain = h.process :: h.chain.tail := by
  cases h with
  | mk p nx => cases nx <;> simp [Handler.chain, Handler.process]

theorem chain_take_one {Request : Type} (h : Handler Request) :
    h.chain.take 1 = [h.process] := by
  rw [chain_eq_process_cons h]
  rfl

theorem deref_setNext_at {Request : Type} (next : Handler Request) :
    ∀ (head : Handler Request) (links : Nat), links < head.chain.length →
    (Handler.setNext_at head links next).deref (links + 1) = some next
  | .mk p none, 0, _ => by
    rw [Handler.setNext_at, Handler.setNext, Handler.deref, Handler.deref]
  | .mk p (some nx), 0, _ => by
    rw [Handler.setNext_at, Handler.setNext, Handler.deref, Handler.deref]
  | .mk p none, links + 1, h => by
    rw [chain_mk_none] at h
    simp at h
  | .mk p (some nx), links + 1, h => by
    rw [chain_mk_some, List.length_cons] at h
    rw [Handler.setNext_at, Handler.deref]
    exact deref_setNext_at next nx links (Nat.lt_of_succ_lt_succ h)

theorem attach_all_tail {Request : Type} : ∀ (xs : List (Handler Request))
    (head : Handler Request) (tail : Nat),
    (Handler.attach_all head tail xs).2 = tail + xs.length
  | [], _, _ => rfl
  | x :: xs, head, tail => by
    rw [Handler.attach_all, attach_all_tail xs, List.length_cons]
    omega

theorem setNext_at_chain_length {Request : Type} (next head : Handler Request) (links : Nat)
    (h : links < head.chain.length) :
    links + 1 < (Handler.setNext_at head links next).chain.length := by
  have hpos := chain_length_pos next
  rw [setNext_at_chain next head links h, List.length_append, List.length_take]
  omega

theorem attach_all_chain {Request : Type} (x : Handler Request) :
    ∀ (xs : List (Handler Request)) (head : Handler Request) (tail : Nat),
    tail < head.chain.length →
    (Handler.attach_all head tail (xs ++ [x])).1.chain
      = head.chain.take (tail + 1) ++ xs.map Handler.process ++ x.chain
  | [], head, tail, h => by
    rw [List.nil_append, Handler.attach_all, Handler.attach_all, setNext_at_chain x head tail h]
    simp
  | y :: ys, head, tail, h => by
    have hlen := setNext_at_chain_length y head tail h
    have ih := attach_all_chain x ys (Handler.setNext_at head tail y) (tail + 1) hlen
    rw [List.cons_append, Handler.attach_all, ih, setNext_at_chain y head tail h]
    have htake : (head.chain.take (tail + 1)).length = tail + 1 := by
      rw [List.length_take]; omega
    have e : (List.take (tail + 1) head.chain ++ y.chain).take (tail + 1 + 1)
        = List.take (tail + 1) head.chain ++ [y.process] := by
      rw [List.take_append_eq_append_take, htake, ← chain_take_one y]
      have e1 : tail + 1 + 1 - (tail + 1) = 1 := by omega
      rw [e1, List.take_of_length_le (by rw [htake]; omega)]
    rw [e]
    simp

theorem attach_all_deref {Request : Type} (x : Handler Request) :
    ∀ (xs : List (Handler Request)) (head : Handler Request) (tail : Nat),
    tail < head.chain.length →
    (Handler.attach_all head tail (xs ++ [x])).1.deref (tail + xs.length + 1) = some x
  | [], head, tail, h => by
    rw [List.nil_append, Handler.attach_all, Handler.attach_all]
    exact deref_setNext_at x head tail h
  | y :: ys, head, tail, h => by
    have hlen := setNext_at_chain_length y head tail h
    have ih := attach_all_deref x ys (Handler.setNext_at head tail y) (tail + 1) hlen
    rw [List.cons_append, Handler.attach_all, List.length_cons]
    have e : tail + (ys.length + 1) + 1 = tail + 1 + ys.length + 1 := by omega
    rw [e]
    exact ih

/-- C14, as stated, fails: one `tail = tail->setNext(x)` from the head, with an
`x` that already owns a successor (a Manager followed by a Director), gives a
chain of three handlers, not of 1 + 1. -/
theorem attach_length_one_plus_attaches_fails :
    (Handler.attach_all TeamLead.ctor 0 [Manager.ctor.setNext Director.ctor]).1.chain
      = [TeamLead.process, Manager.process, Director.process]
    ∧ (Handler.attach_all TeamLead.ctor 0 [Manager.ctor.setNext Director.ctor]).1.chain.length
      ≠ 1 + [Manager.ctor.setNext Director.ctor].length := by
  refine ⟨rfl, by decide⟩

/-- C14 (amended): `setNext(h, next)` makes `next` the successor of `h`, and the
pointer it returns (one link below `h`) designates that same `next`. Repeating
`tail = tail->setNext(x)` from a pointer `tail` into a chain yields the chain
up to the handler `tail` designated, then the handlers attached, in attachment
order, then the handlers that the one attached last already owned; `tail` ends
on the handler attached last. From the head the chain is the head, the attached
handlers in order and what the last one owned, and its length is 1 + the number
of attaches exactly when the handler attached last owns no successor; so with
newly constructed handlers the chain is the handlers in attachment order, of
length 1 + the number of attaches, and in `main` it is TeamLead, Manager,
Director, CEO. -/
theorem setNext_builds_chain_in_order {R : Type} (process p0 : R → Bool)
    (old : Option (Handler R)) (next : Handler R) (ps : List (R → Bool))
    (head x : Handler R) (xs : List (Handler R)) (tail : Nat) :
    (Handler.mk process old).setNext next = Handler.mk process (some next)
    ∧ ((Handler.mk process old).setNext next).deref 1 = some next
    ∧ ((Handler.mk process old).setNext next).chain = process :: next.chain
    ∧ (Handler.attach_all (Handler.ctor p0) 0 (ps.map Handler.ctor)).1.chain = p0 :: ps
    ∧ (Handler.attach_all (Handler.ctor p0) 0 (ps.map Handler.ctor)).1.chain.length
        = 1 + ps.length
    ∧ (Handler.attach_all (Handler.ctor p0) 0 (ps.map Handler.ctor)).2 = ps.length
    ∧ main_chain.chain = [TeamLead.process, Manager.process, Director.process, CEO.process]
    ∧ main_chain.chain.length = 4
    ∧ (tail < head.chain.length →
        (Handler.attach_all head tail (xs ++ [x])).1.chain
          = head.chain.take (tail + 1) ++ xs.map Handler.process ++ x.chain)
    ∧ (tail < head.chain.length →
        (Handler.attach_all head tail (xs ++ [x])).1.deref
            (Handler.attach_all head tail (xs ++ [x])).2 = some x)
    ∧ (Handler.attach_all head tail xs).2 = tail + xs.length
    ∧ (Handler.attach_all head 0 (xs ++ [x])).1.chain
        = head.process :: xs.map Handler.process ++ x.chain
    ∧ ((Handler.attach_all head 0 (xs ++ [x])).1.chain.length = 1 + (xs ++ [x]).length
        ↔ x.chain.length = 1)
    ∧ ((∀ y ∈ xs ++ [x], y.chain.length = 1) →
        (Handler.attach_all head 0 (xs ++ [x])).1.chain
            = head.process :: (xs ++ [x]).map Handler.process
          ∧ (Handler.attach_all head 0 (xs ++ [x])).1.chain.length
            = 1 + (xs ++ [x]).length) := by
  have h := attach_all_fresh ps (Handler.ctor p0)
  have hc : (Handler.ctor p0).chain = [p0] := chain_mk_none p0
  rw [hc] at h
  simp only [List.length_singleton, Nat.sub_self, List.singleton_append, Nat.zero_add] at h
  have h0 : (Handler.attach_all head 0 (xs ++ [x])).1.chain
      = head.process :: xs.map Handler.process ++ x.chain := by
    rw [attach_all_chain x xs head 0 (chain_length_pos head), Nat.zero_add, chain_take_one]
    rfl
  have hlen : (Handler.attach_all head 0 (xs ++ [x])).1.chain.length
      = 1 + xs.length + x.chain.length := by
    rw [h0]
    simp only [List.cons_append, List.length_cons, List.length_append, List.length_map]
    omega
  refine ⟨rfl, ?_, chain_mk_some process next, h.1, ?_, h.2, rfl, rfl,
    attach_all_chain x xs head tail, ?_, attach_all_tail xs head tail, h0, ?_, ?_⟩
  · cases next with
    | mk q nx => cases nx <;> rfl
  · rw [h.1, List.length_cons]; omega
  · intro ht
    rw [attach_all_tail, List.length_append, List.length_singleton, ← Nat.add_assoc]
    exact attach_all_deref x xs head tail ht
  · rw [hlen, List.length_append, List.length_singleton]
    omega
  · intro hall
    have hx : x.chain.length = 1 := hall x (by simp)
    have hxc : x.chain = [x.process] := by
      rw [← chain_take_one x, List.take_of_length_le (by omega)]
    constructor
    · rw [h0, hxc]
      simp
    · rw [hlen, hx, List.length_append, List.length_singleton]
      omega

theorem setNext_builds_chain_in_order_witness :
    0 < (TeamLead.ctor.setNext CEO.ctor).chain.length
    ∧ (Handler.attach_all (TeamLead.ctor.setNext CEO.ctor) 0
          ([Manager.ctor.setNext CEO.ctor] ++ [Director.ctor.setNext CEO.ctor])).1.chain
        = (TeamLead.ctor.setNext CEO.ctor).chain.take (0 + 1)
          ++ [Manager.ctor.setNext CEO.ctor].map Handler.process
          ++ (Director.ctor.setNext CEO.ctor).chain :=
  ⟨by decide,
   (setNext_builds_chain_in_order TeamLead.process TeamLead.process none Manager.ctor []
      (TeamLead.ctor.setNext CEO.ctor) (Director.ctor.setNext CEO.ctor)
      [Manager.ctor.setNext CEO.ctor] 0).2.2.2.2.2.2.2.2.1 (by decide)⟩

end ChainOfResponsibility

/-! # Theorems: Prototype -/

namespace Prototype

/-! ## The scenario of `main` -/

theorem run_cons_of_exec (c : Call) (cs : List Call) (w w' : World) (o : Outcome Unit)
    (r : World) (h : exec c w = (o, w')) (hr : (run cs w').2 = r) :
    (run (c :: cs) w).2 = r := by
  simp only [run, h, hr]

theorem main_world_eq (p0 p1 p2 : Int × Int) :
    main_world p0 p1 p2
      = ⟨⟨[("orc-basic", Enemy.orc (Orc.ctor 120 15 ["Roar", "Charge"])),
           ("dragon-fire", Enemy.dragon (Dragon.ctor 350 40 "Fire"))]⟩, 7,
         [Enemy.orc ⟨⟨1, p0.1, p0.2⟩, 120, 15, ["Roar", "Charge"], ⟨1, "Aggressive"⟩⟩,
          Enemy.orc ⟨⟨2, p1.1, p1.2⟩, 120, 15, ["Roar", "Charge", "Berserk"],
            ⟨1, "Aggressive"⟩⟩,
          Enemy.orc ⟨⟨3, p2.1, p2.2⟩, 120, 15, ["Roar", "Charge"], ⟨1, "Aggressive"⟩⟩,
          Enemy.dragon ⟨⟨4, 10, 2⟩, 350, 55, "Fire", ⟨3, "Territorial"⟩⟩,
          Enemy.orc ⟨⟨5, 0, 0⟩, 120, 15, ["Roar", "Charge"], ⟨1, "Aggressive"⟩⟩,
          Enemy.dragon ⟨⟨6, 0, 0⟩, 350, 40, "Fire", ⟨3, "Territorial"⟩⟩]⟩ := by
  unfold main_world main_calls
  refine run_cons_of_exec _ _ _
      ⟨⟨[("orc-basic", Enemy.orc (Orc.ctor 120 15 ["Roar", "Charge"]))]⟩, 1, []⟩
      (Outcome.returned ()) _ rfl ?_
  refine run_cons_of_exec _ _ _
      ⟨⟨[("orc-basic", Enemy.orc (Orc.ctor 120 15 ["Roar", "Charge"])),
         ("dragon-fire", Enemy.dragon (Dragon.ctor 350 40 "Fire"))]⟩, 1, []⟩
      (Outcome.returned ()) _ rfl ?_
  refine run_cons_of_exec _ _ _
      ⟨⟨[("orc-basic", Enemy.orc (Orc.ctor 120 15 ["Roar", "Charge"])),
         ("dragon-fire", Enemy.dragon (Dragon.ctor 350 40 "Fire"))]⟩, 2,
       [Enemy.orc ⟨⟨1, p0.1, p0.2⟩, 120, 15, ["Roar", "Charge"], ⟨1, "Aggressive"⟩⟩]⟩
      (Outcome.returned ()) _ rfl ?_
  refine run_cons_of_exec _ _ _
      ⟨⟨[("orc-basic", Enemy.orc (Orc.ctor 120 15 ["Roar", "Charge"])),
         ("dragon-fire", Enemy.dragon (Dragon.ctor 350 40 "Fire"))]⟩, 3,
       [Enemy.orc ⟨⟨1, p0.1, p0.2⟩, 120, 15, ["Roar", "Charge"], ⟨1, "Aggressive"⟩⟩,
        Enemy.orc ⟨⟨2, p1.1, p1.2⟩, 120, 15, ["Roar", "Charge"], ⟨1, "Aggressive"⟩⟩]⟩
      (Outcome.returned ()) _ rfl ?_
  refine run_cons_of_exec _ _ _
      ⟨⟨[("orc-basic", Enemy.orc (Orc.ctor 120 15 ["Roar", "Charge"])),
         ("dragon-fire", Enemy.dragon (Dragon.ctor 350 40 "Fire"))]⟩, 3,
       [Enemy.orc ⟨⟨1, p0.1, p0.2⟩, 120, 15, ["Roar", "Charge"], ⟨1, "Aggressive"⟩⟩,
        Enemy.orc ⟨⟨2, p1.1, p1.2⟩, 120, 15, ["Roar", "Charge", "Berserk"],
          ⟨1, "Aggressive"⟩⟩]⟩
      (Outcome.returned ()) _ rfl ?_
  refine run_cons_of_exec _ _ _
      ⟨⟨[("orc-basic", Enemy.orc (Orc.ctor 120 15 ["Roar", "Charge"])),
         ("dragon-fire", Enemy.dragon (Dragon.ctor 350 40 "Fire"))]⟩, 4,
       [Enemy.orc ⟨⟨1, p0.1, p0.2⟩, 120, 15, ["Roar", "Charge"], ⟨1, "Aggressive"⟩⟩,
        Enemy.orc ⟨⟨2, p1.1, p1.2⟩, 120, 15, ["Roar", "Charge", "Berserk"],
          ⟨1, "Aggressive"⟩⟩,
        Enemy.orc ⟨⟨3, p2.1, p2.2⟩, 120, 15, ["Roar", "Charge"], ⟨1, "Aggressive"⟩⟩]⟩
      (Outcome.returned ()) _ rfl ?_
  refine run_cons_of_exec _ _ _
      ⟨⟨[("orc-basic", Enemy.orc (Orc.ctor 120 15 ["Roar", "Charge"])),
         ("dragon-fire", Enemy.dragon (Dragon.ctor 350 40 "Fire"))]⟩, 5,
       [Enemy.orc ⟨⟨1, p0.1, p0.2⟩, 120, 15, ["Roar", "Charge"], ⟨1, "Aggressive"⟩⟩,
        Enemy.orc ⟨⟨2, p1.1, p1.2⟩, 120, 15, ["Roar", "Charge", "Berserk"],
          ⟨1, "Aggressive"⟩⟩,
        Enemy.orc ⟨⟨3, p2.1, p2.2⟩, 120, 15, ["Roar", "Charge"], ⟨1, "Aggressive"⟩⟩,
        Enemy.dragon ⟨⟨4, 10, 2⟩, 350, 40, "Fire", ⟨3, "Territorial"⟩⟩]⟩
      (Outcome.returned ()) _ rfl ?_
  refine run_cons_of_exec _ _ _
      ⟨⟨[("orc-basic", Enemy.orc (Orc.ctor 120 15 ["Roar", "Charge"])),
         ("dragon-fire", Enemy.dragon (Dragon.ctor 350 40 "Fire"))]⟩, 5,
       [Enemy.orc ⟨⟨1, p0.1, p0.2⟩, 120, 15, ["Roar", "Charge"], ⟨1, "Aggressive"⟩⟩,
        Enemy.orc ⟨⟨2, p1.1, p1.2⟩, 120, 15, ["Roar", "Charge", "Berserk"],
          ⟨1, "Aggressive"⟩⟩,
        Enemy.orc ⟨⟨3, p2.1, p2.2⟩, 120, 15, ["Roar", "Charge"], ⟨1, "Aggressive"⟩⟩,
        Enemy.dragon ⟨⟨4, 10, 2⟩, 350, 55, "Fire", ⟨3, "Territorial"⟩⟩]⟩
      (Outcome.returned ()) _ rfl ?_
  refine run_cons_of_exec _ _ _
      ⟨⟨[("orc-basic", Enemy.orc (Orc.ctor 120 15 ["Roar", "Charge"])),
         ("dragon-fire", Enemy.dragon (Dragon.ctor 350 40 "Fire"))]⟩, 6,
       [Enemy.orc ⟨⟨1, p0.1, p0.2⟩, 120, 15, ["Roar", "Charge"], ⟨1, "Aggressive"⟩⟩,
        Enemy.orc ⟨⟨2, p1.1, p1.2⟩, 120, 15, ["Roar", "Charge", "Berserk"],
          ⟨1, "Aggressive"⟩⟩,
        Enemy.orc ⟨⟨3, p2.1, p2.2⟩, 120, 15, ["Roar", "Charge"], ⟨1, "Aggressive"⟩⟩,
        Enemy.dragon ⟨⟨4, 10, 2⟩, 350, 55, "Fire", ⟨3, "Territorial"⟩⟩,
        Enemy.orc ⟨⟨5, 0, 0⟩, 120, 15, ["Roar", "Charge"], ⟨1, "Aggressive"⟩⟩]⟩
      (Outcome.returned ()) _ rfl ?_
  refine run_cons_of_exec _ _ _
      ⟨⟨[("orc-basic", Enemy.orc (Orc.ctor 120 15 ["Roar", "Charge"])),
         ("dragon-fire", Enemy.dragon (Dragon.ctor 350 40 "Fire"))]⟩, 7,
       [Enemy.orc ⟨⟨1, p0.1, p0.2⟩, 120, 15, ["Roar", "Charge"], ⟨1, "Aggressive"⟩⟩,
        Enemy.orc ⟨⟨2, p1.1, p1.2⟩, 120, 15, ["Roar", "Charge", "Berserk"],
          ⟨1, "Aggressive"⟩⟩,
        Enemy.orc ⟨⟨3, p2.1, p2.2⟩, 120, 15, ["Roar", "Charge"], ⟨1, "Aggressive"⟩⟩,
        Enemy.dragon ⟨⟨4, 10, 2⟩, 350, 55, "Fire", ⟨3, "Territorial"⟩⟩,
        Enemy.orc ⟨⟨5, 0, 0⟩, 120, 15, ["Roar", "Charge"], ⟨1, "Aggressive"⟩⟩,
        Enemy.dragon ⟨⟨6, 0, 0⟩, 350, 40, "Fire", ⟨3, "Territorial"⟩⟩]⟩
      (Outcome.returned ()) _ rfl ?_
  rfl

end Prototype

namespace Prototype

/-! ## `clone`, `spawnAt`, `spawn` -/

theorem brain_clone_eq (b : Brain) : b.clone = b := by
  cases b; rfl

theorem clone_eq_set_base (e : Enemy) : e.clone = e.set_base EnemyBase.ctor := by
  cases e with
  | orc o => simp [Enemy.clone, Enemy.set_base, Orc.copy_ctor, brain_clone_eq]
  | dragon d => simp [Enemy.clone, Enemy.set_base, Dragon.copy_ctor, brain_clone_eq]

theorem set_base_set_base (e : Enemy) (b b' : EnemyBase) :
    (e.set_base b).set_base b' = e.set_base b' := by
  cases e <;> rfl

theorem base_set_base (e : Enemy) (b : EnemyBase) : (e.set_base b).base = b := by
  cases e <;> rfl

theorem set_base_base (e : Enemy) : e.set_base e.base = e := by
  cases e <;> rfl

theorem int_add_one_of_lt (n : Int) (h0 : INT_MIN ≤ n + 1) (h : n < INT_MAX) :
    int_add n 1 = some (n + 1) := by
  unfold int_add
  rw [if_pos ⟨h0, by omega⟩]

theorem spawn_of_not_found (s : EnemySpawner) (key : String) (x y n : Int)
    (h : s.find key = none) :
    s.spawn key x y n = (Outcome.thrown (Exception.runtime_error ("no prototype: " ++ key)), s, n) := by
  unfold EnemySpawner.spawn
  rw [h]

theorem spawn_of_found (s : EnemySpawner) (key : String) (x y n : Int) (t : Enemy)
    (h : s.find key = some t) (h0 : INT_MIN ≤ n + 1) (hn : n < INT_MAX) :
    s.spawn key x y n
      = (Outcome.returned ((t.set_base ⟨n, x, y⟩)), s, n + 1) := by
  unfold EnemySpawner.spawn Enemy.spawnAt
  rw [h, int_add_one_of_lt n h0 hn]
  simp only [clone_eq_set_base, set_base_set_base]

theorem spawn_spawner (s : EnemySpawner) (key : String) (x y n : Int) :
    (s.spawn key x y n).2.1 = s := by
  unfold EnemySpawner.spawn
  cases s.find key with
  | none => rfl
  | some t =>
    simp only
    cases t.clone.spawnAt x y n with
    | none => rfl
    | some p => rfl

theorem exec_spawn_of_found (w : World) (key : String) (x y : Int) (t : Enemy)
    (h : w.spawner.find key = some t) (h0 : INT_MIN ≤ w.NextId + 1) (hn : w.NextId < INT_MAX) :
    exec (Call.spawn key x y) w
      = (Outcome.returned (),
         ⟨w.spawner, w.NextId + 1, w.spawned ++ [t.set_base ⟨w.NextId, x, y⟩]⟩) := by
  simp only [exec, spawn_of_found w.spawner key x y w.NextId t h h0 hn]

theorem exec_spawn_of_not_found (w : World) (key : String) (x y : Int)
    (h : w.spawner.find key = none) :
    exec (Call.spawn key x y) w
      = (Outcome.thrown (Exception.runtime_error ("no prototype: " ++ key)), w) := by
  simp only [exec, spawn_of_not_found w.spawner key x y w.NextId h]

/-- C16: `spawn(key, x, y)` for a key that is not registered throws
`std::runtime_error` with the message "no prototype: " followed by the key, and
mutates nothing: the spawner holds the same templates under the same keys and
the shared counter `NextId` has the value it had before the call, so the
failed spawn consumes no identifier and a client's state is as it was. -/
theorem spawn_unregistered_key_throws (w : World) (key : String) (x y : Int)
    (h : w.spawner.find key = none) :
    w.spawner.spawn key x y w.NextId
      = (Outcome.thrown (Exception.runtime_error ("no prototype: " ++ key)),
         w.spawner, w.NextId)
    ∧ exec (Call.spawn key x y) w
      = (Outcome.thrown (Exception.runtime_error ("no prototype: " ++ key)), w)
    ∧ (exec (Call.spawn key x y) w).2.spawner.protos_ = w.spawner.protos_
    ∧ (exec (Call.spawn key x y) w).2.NextId = w.NextId := by
  have h1 := exec_spawn_of_not_found w key x y h
  refine ⟨spawn_of_not_found w.spawner key x y w.NextId h, h1, ?_, ?_⟩
  · rw [h1]
  · rw [h1]

theorem spawn_unregistered_key_throws_witness :
    (World.mk (EnemySpawner.ctor.registerProto "orc-basic"
        (Enemy.orc (Orc.ctor 120 15 ["Roar", "Charge"]))) 1 []).spawner.find "troll" = none
    ∧ exec (Call.spawn "troll" 2 3)
        (World.mk (EnemySpawner.ctor.registerProto "orc-basic"
          (Enemy.orc (Orc.ctor 120 15 ["Roar", "Charge"]))) 1 [])
      = (Outcome.thrown (Exception.runtime_error "no prototype: troll"),
         World.mk (EnemySpawner.ctor.registerProto "orc-basic"
          (Enemy.orc (Orc.ctor 120 15 ["Roar", "Charge"]))) 1 []) :=
  ⟨by decide,
   (spawn_unregistered_key_throws
      (World.mk (EnemySpawner.ctor.registerProto "orc-basic"
        (Enemy.orc (Orc.ctor 120 15 ["Roar", "Charge"]))) 1 [])
      "troll" 2 3 (by decide)).2.1⟩

/-- C18 at a failing input: `clone()` copies the class-specific members and
default-constructs the base class, so the copy of every enemy has `id_`, `x_`
and `y_` equal to 0. The orc that `spawn("orc-basic", 3, 4)` returns first in
`main` has id 1 and position (3, 4); its clone has id 0 and position (0, 0), and
is not equal to it. -/
theorem clone_resets_shared_attributes :
    (∀ e : Enemy, e.clone = e.set_base ⟨0, 0, 0⟩)
    ∧ ((EnemySpawner.ctor.registerProto "orc-basic"
          (Enemy.orc (Orc.ctor 120 15 ["Roar", "Charge"]))).spawn "orc-basic" 3 4 1).1
        = Outcome.returned
            (Enemy.orc ⟨⟨1, 3, 4⟩, 120, 15, ["Roar", "Charge"], ⟨1, "Aggressive"⟩⟩)
    ∧ (Enemy.orc ⟨⟨1, 3, 4⟩, 120, 15, ["Roar", "Charge"], ⟨1, "Aggressive"⟩⟩).clone
        = Enemy.orc ⟨⟨0, 0, 0⟩, 120, 15, ["Roar", "Charge"], ⟨1, "Aggressive"⟩⟩
    ∧ (Enemy.orc ⟨⟨1, 3, 4⟩, 120, 15, ["Roar", "Charge"], ⟨1, "Aggressive"⟩⟩).clone
        ≠ Enemy.orc ⟨⟨1, 3, 4⟩, 120, 15, ["Roar", "Charge"], ⟨1, "Aggressive"⟩⟩
    ∧ (Enemy.dragon ⟨⟨4, 10, 2⟩, 350, 55, "Fire", ⟨3, "Territorial"⟩⟩).clone
        ≠ Enemy.dragon ⟨⟨4, 10, 2⟩, 350, 55, "Fire", ⟨3, "Territorial"⟩⟩ :=
  ⟨clone_eq_set_base, by decide, by decide, by decide, by decide⟩

end Prototype

namespace Prototype

/-! ## Frame of the statements of a client -/

theorem exec_spawn_spawner (w : World) (key : String) (x y : Int) :
    (exec (Call.spawn key x y) w).2.spawner = w.spawner := by
  have hs := spawn_spawner w.spawner key x y w.NextId
  rcases h : w.spawner.spawn key x y w.NextId with ⟨o, s, n⟩
  rw [h] at hs
  simp only at hs
  cases o <;> simp [exec, h, hs]

theorem exec_mutate_frame (w : World) (index : Nat) (m : Mutator) :
    (exec (Call.mutate index m) w).2.spawner = w.spawner
    ∧ (exec (Call.mutate index m) w).2.NextId = w.NextId
    ∧ (exec (Call.mutate index m) w).2.spawned.length = w.spawned.length
    ∧ (∀ j, j ≠ index → (exec (Call.mutate index m) w).2.spawned[j]? = w.spawned[j]?) := by
  simp only [exec]
  rcases h1 : w.spawned[index]? with _ | e
  · simp
  · rcases h2 : m.apply e with _ | e'
    · simp only [h2]
      simp
    · simp only [h2, List.length_set, true_and]
      intro j hj
      exact List.getElem?_set_ne (Ne.symm hj)

theorem exec_spawner_of_not_register (c : Call) (w : World)
    (h : ∀ k p, c ≠ Call.registerProto k p) : (exec c w).2.spawner = w.spawner := by
  cases c with
  | registerProto k p => exact absurd rfl (h k p)
  | spawn key x y => exact exec_spawn_spawner w key x y
  | mutate index m => exact (exec_mutate_frame w index m).1

theorem run_spawner_of_no_register : ∀ (cs : List Call) (w : World),
    (∀ c ∈ cs, ∀ k p, c ≠ Call.registerProto k p) → (run cs w).2.spawner = w.spawner := by
  intro cs
  induction cs with
  | nil => intro w _; rfl
  | cons c cs ih =>
    intro w h
    simp only [run]
    rw [ih _ (fun d hd => h d (List.mem_cons_of_mem c hd)),
      exec_spawner_of_not_register c w (h c (List.mem_cons_self c cs))]

/-- C19: spawning never mutates the registry: for every spawner and every key,
registered or not, `spawn(key, x, y)` leaves the spawner as it was, with the
same keys and the same template under each key, the template of the spawned
key included; a template made by a constructor or a copy constructor has id 0
and position (0, 0), and keeps them. Of the statements of a client only
`registerProto` changes the spawner: a run without it leaves the spawner
unchanged. -/
theorem spawn_never_mutates_registry (s : EnemySpawner) (w : World) (key : String)
    (x y n : Int) (c : Call) (cs : List Call) :
    (s.spawn key x y n).2.1 = s
    ∧ (∀ k, (s.spawn key x y n).2.1.find k = s.find k)
    ∧ (exec (Call.spawn key x y) w).2.spawner = w.spawner
    ∧ ((exec c w).2.spawner ≠ w.spawner → ∃ k p, c = Call.registerProto k p)
    ∧ ((∀ d ∈ cs, ∀ k p, d ≠ Call.registerProto k p) → (run cs w).2.spawner = w.spawner)
    ∧ (∀ (hp atk : Int) (abilities : List String) (element : String) (o : Orc) (d : Dragon),
        (Enemy.orc (Orc.ctor hp atk abilities)).base = ⟨0, 0, 0⟩
        ∧ (Enemy.dragon (Dragon.ctor hp atk element)).base = ⟨0, 0, 0⟩
        ∧ (Enemy.orc o.copy_ctor).base = ⟨0, 0, 0⟩
        ∧ (Enemy.dragon d.copy_ctor).base = ⟨0, 0, 0⟩) := by
  refine ⟨spawn_spawner s key x y n, fun k => by rw [spawn_spawner],
    exec_spawn_spawner w key x y, fun hne => ?_, run_spawner_of_no_register cs w,
    fun _ _ _ _ _ _ => ⟨rfl, rfl, rfl, rfl⟩⟩
  by_contra hno
  exact hne (exec_spawner_of_not_register c w (fun k p e => hno ⟨k, p, e⟩))

theorem spawn_never_mutates_registry_witness :
    (∀ d ∈ [Call.spawn "orc-basic" 1 2, Call.mutate 0 (Mutator.addAbility "Berserk"),
        Call.spawn "troll" 0 0], ∀ k p, d ≠ Call.registerProto k p)
    ∧ (run [Call.spawn "orc-basic" 1 2, Call.mutate 0 (Mutator.addAbility "Berserk"),
        Call.spawn "troll" 0 0]
        (World.mk (EnemySpawner.ctor.registerProto "orc-basic"
          (Enemy.orc (Orc.ctor 120 15 ["Roar", "Charge"]))) 1 [])).2.spawner
      = EnemySpawner.ctor.registerProto "orc-basic"
          (Enemy.orc (Orc.ctor 120 15 ["Roar", "Charge"])) :=
  ⟨by
    intro d hd k p e
    subst e
    simp at hd,
   (spawn_never_mutates_registry EnemySpawner.ctor
      (World.mk (EnemySpawner.ctor.registerProto "orc-basic"
          (Enemy.orc (Orc.ctor 120 15 ["Roar", "Charge"]))) 1 [])
      "orc-basic" 0 0 1 (Call.spawn "orc-basic" 0 0)
      [Call.spawn "orc-basic" 1 2, Call.mutate 0 (Mutator.addAbility "Berserk"),
        Call.spawn "troll" 0 0]).2.2.2.2.1
      (by
        intro d hd k p e
        subst e
        simp at hd)⟩

/-! ## Independence of the spawned enemies -/

/-- C17: for every registered key with template `t`, let `c1` and `c2` be two
enemies spawned from it, held by the client at indices `w.spawned.length` and
`w.spawned.length + 1`, and let any mutator (`addAbility`, `setAI`, `empower`,
`setElement`) be applied to `c1`. Then `c2` is unchanged, every other enemy the
client holds is unchanged, the spawner and the template `t` are unchanged, and
a later spawn of the key yields the template's values again (with the next id
and the requested position). In `main`, whatever the random positions, the orc
spawned after "Berserk" was added to another orc has abilities [Roar, Charge],
and the dragon spawned after `empower(15)` on another dragon has ATK 40. -/
theorem mutating_a_clone_is_local (w : World) (key : String) (t : Enemy)
    (x1 y1 x2 y2 x3 y3 : Int) (m : Mutator) (p0 p1 p2 : Int × Int)
    (h : w.spawner.find key = some t) (h0 : INT_MIN ≤ w.NextId + 1)
    (hn : w.NextId + 2 < INT_MAX) :
    (run [Call.spawn key x1 y1, Call.spawn key x2 y2] w).2
      = ⟨w.spawner, w.NextId + 2,
         w.spawned ++ [t.set_base ⟨w.NextId, x1, y1⟩, t.set_base ⟨w.NextId + 1, x2, y2⟩]⟩
    ∧ (run [Call.spawn key x1 y1, Call.spawn key x2 y2,
          Call.mutate w.spawned.length m] w).2.spawned[w.spawned.length + 1]?
        = some (t.set_base ⟨w.NextId + 1, x2, y2⟩)
    ∧ (∀ j, j ≠ w.spawned.length →
        (run [Call.spawn key x1 y1, Call.spawn key x2 y2,
          Call.mutate w.spawned.length m] w).2.spawned[j]?
        = (run [Call.spawn key x1 y1, Call.spawn key x2 y2] w).2.spawned[j]?)
    ∧ (run [Call.spawn key x1 y1, Call.spawn key x2 y2,
          Call.mutate w.spawned.length m] w).2.spawner = w.spawner
    ∧ (run [Call.spawn key x1 y1, Call.spawn key x2 y2,
          Call.mutate w.spawned.length m] w).2.spawner.find key = some t
    ∧ (run [Call.spawn key x1 y1, Call.spawn key x2 y2,
          Call.mutate w.spawned.length m,
          Call.spawn key x3 y3] w).2.spawned[w.spawned.length + 2]?
        = some (t.set_base ⟨w.NextId + 2, x3, y3⟩)
    ∧ (main_world p0 p1 p2).spawned[4]?
        = some (Enemy.orc ⟨⟨5, 0, 0⟩, 120, 15, ["Roar", "Charge"], ⟨1, "Aggressive"⟩⟩)
    ∧ (main_world p0 p1 p2).spawned[5]?
        = some (Enemy.dragon ⟨⟨6, 0, 0⟩, 350, 40, "Fire", ⟨3, "Territorial"⟩⟩) := by
  have e1 := exec_spawn_of_found w key x1 y1 t h h0 (by omega)
  have e2 := exec_spawn_of_found
    ⟨w.spawner, w.NextId + 1, w.spawned ++ [t.set_base ⟨w.NextId, x1, y1⟩]⟩ key x2 y2 t h
    (by simp only; omega) (by simp only; omega)
  have hw2 : (run [Call.spawn key x1 y1, Call.spawn key x2 y2] w).2
      = ⟨w.spawner, w.NextId + 2,
         w.spawned ++ [t.set_base ⟨w.NextId, x1, y1⟩, t.set_base ⟨w.NextId + 1, x2, y2⟩]⟩ := by
    simp only [run, e1, e2, List.append_assoc, List.singleton_append, World.mk.injEq, true_and,
      and_true]
    omega
  have hrun3 : (run [Call.spawn key x1 y1, Call.spawn key x2 y2,
      Call.mutate w.spawned.length m] w).2
        = (exec (Call.mutate w.spawned.length m)
            (run [Call.spawn key x1 y1, Call.spawn key x2 y2] w).2).2 := by
    simp only [run]
  have hrun4 : (run [Call.spawn key x1 y1, Call.spawn key x2 y2,
      Call.mutate w.spawned.length m, Call.spawn key x3 y3] w).2
        = (exec (Call.spawn key x3 y3) (run [Call.spawn key x1 y1, Call.spawn key x2 y2,
            Call.mutate w.spawned.length m] w).2).2 := by
    simp only [run]
  have hf := exec_mutate_frame (run [Call.spawn key x1 y1, Call.spawn key x2 y2] w).2
    w.spawned.length m
  rw [← hrun3] at hf
  obtain ⟨f1, f2, f3, f4⟩ := hf
  have hs3 : (run [Call.spawn key x1 y1, Call.spawn key x2 y2,
      Call.mutate w.spawned.length m] w).2.spawner = w.spawner := by
    rw [f1, hw2]
  have hc2 : (run [Call.spawn key x1 y1, Call.spawn key x2 y2,
      Call.mutate w.spawned.length m] w).2.spawned[w.spawned.length + 1]?
        = some (t.set_base ⟨w.NextId + 1, x2, y2⟩) := by
    rw [f4 _ (by omega), hw2]
    simp only
    rw [List.getElem?_append_right (Nat.le_add_right _ _), Nat.add_sub_cancel_left]
    rfl
  refine ⟨hw2, hc2, f4, hs3, by rw [hs3]; exact h, ?_, ?_, ?_⟩
  · rw [hw2] at f2 f3
    simp only [List.length_append, List.length_cons, List.length_nil] at f3
    have e4 := exec_spawn_of_found (run [Call.spawn key x1 y1, Call.spawn key x2 y2,
      Call.mutate w.spawned.length m] w).2 key x3 y3 t (by rw [hs3]; exact h)
      (by rw [f2]; simp only; omega) (by rw [f2]; simp only; omega)
    rw [hrun4, e4, f2]
    simp only
    have hl : w.spawned.length + 2 = (run [Call.spawn key x1 y1, Call.spawn key x2 y2,
        Call.mutate w.spawned.length m] w).2.spawned.length := by omega
    rw [hl, List.getElem?_concat_length]
  · rw [main_world_eq]; rfl
  · rw [main_world_eq]; rfl

theorem mutating_a_clone_is_local_witness :
    (World.mk (EnemySpawner.ctor.registerProto "orc-basic"
        (Enemy.orc (Orc.ctor 120 15 ["Roar", "Charge"]))) 1 []).spawner.find "orc-basic"
      = some (Enemy.orc (Orc.ctor 120 15 ["Roar", "Charge"]))
    ∧ INT_MIN ≤ (1 : Int) + 1 ∧ (1 : Int) + 2 < INT_MAX
    ∧ (run [Call.spawn "orc-basic" 1 1, Call.spawn "orc-basic" 2 2,
          Call.mutate 0 (Mutator.addAbility "Berserk")]
          (World.mk (EnemySpawner.ctor.registerProto "orc-basic"
            (Enemy.orc (Orc.ctor 120 15 ["Roar", "Charge"]))) 1 [])).2.spawned[0 + 1]?
        = some ((Enemy.orc (Orc.ctor 120 15 ["Roar", "Charge"])).set_base ⟨1 + 1, 2, 2⟩) :=
  ⟨by decide, by decide, by decide,
   (mutating_a_clone_is_local
      (World.mk (EnemySpawner.ctor.registerProto "orc-basic"
        (Enemy.orc (Orc.ctor 120 15 ["Roar", "Charge"]))) 1 [])
      "orc-basic" (Enemy.orc (Orc.ctor 120 15 ["Roar", "Charge"]))
      1 1 2 2 3 3 (Mutator.addAbility "Berserk") (0, 0) (0, 0) (0, 0)
      (by decide) (by decide) (by decide)).2.1⟩

end Prototype

namespace Prototype

/-! ## Identifiers -/

end Prototype

/-! # Theorems: further properties of the demos -/

namespace Prototype

/-! ## `spawn` of a registered key, `registerProto` -/

/-- C21: `spawn(key, x, y)` for a registered key, as long as the increment of
the counter does not overflow (`NextId < INT_MAX`), returns an instance of the
same concrete kind as the template, with the template's type-specific
attributes (hp, atk, abilities or element, brain level and behaviour), with
position (x, y) and with the id that the shared counter had before the call;
the placement and the id are applied to the copy only, the template and the
spawner being unchanged, and the counter is one higher afterwards. -/
theorem spawn_registered_key (s : EnemySpawner) (key : String) (x y n : Int) (t : Enemy)
    (h : s.find key = some t) (h0 : INT_MIN ≤ n) (hn : n < INT_MAX) :
    s.spawn key x y n = (Outcome.returned (t.set_base ⟨n, x, y⟩), s, n + 1)
    ∧ (t.set_base ⟨n, x, y⟩).base = ⟨n, x, y⟩
    ∧ (∀ o : Orc, t = Enemy.orc o →
        t.set_base ⟨n, x, y⟩ = Enemy.orc ⟨⟨n, x, y⟩, o.hp_, o.atk_, o.abilities_, o.brain_⟩)
    ∧ (∀ d : Dragon, t = Enemy.dragon d →
        t.set_base ⟨n, x, y⟩ = Enemy.dragon ⟨⟨n, x, y⟩, d.hp_, d.atk_, d.element_, d.brain_⟩)
    ∧ (s.spawn key x y n).2.1.find key = some t
    ∧ (s.spawn key x y n).2.2 = n + 1 := by
  have hs := spawn_of_found s key x y n t h (by omega) hn
  refine ⟨hs, base_set_base t _, ?_, ?_, ?_, ?_⟩
  · intro o e; subst e; rfl
  · intro d e; subst e; rfl
  · rw [hs]; exact h
  · rw [hs]

theorem spawn_registered_key_witness :
    (EnemySpawner.ctor.registerProto "dragon-fire"
        (Enemy.dragon (Dragon.ctor 350 40 "Fire"))).find "dragon-fire"
      = some (Enemy.dragon (Dragon.ctor 350 40 "Fire"))
    ∧ INT_MIN ≤ (4 : Int) ∧ (4 : Int) < INT_MAX
    ∧ (EnemySpawner.ctor.registerProto "dragon-fire"
        (Enemy.dragon (Dragon.ctor 350 40 "Fire"))).spawn "dragon-fire" 10 2 4
      = (Outcome.returned (Enemy.dragon ⟨⟨4, 10, 2⟩, 350, 40, "Fire", ⟨3, "Territorial"⟩⟩),
         EnemySpawner.ctor.registerProto "dragon-fire"
           (Enemy.dragon (Dragon.ctor 350 40 "Fire")), 4 + 1) :=
  ⟨by decide, by decide, by decide,
   (spawn_registered_key
      (EnemySpawner.ctor.registerProto "dragon-fire" (Enemy.dragon (Dragon.ctor 350 40 "Fire")))
      "dragon-fire" 10 2 4 (Enemy.dragon (Dragon.ctor 350 40 "Fire"))
      (by decide) (by decide) (by decide)).1⟩

theorem lookup_assign_self (key : String) (p : Enemy) : ∀ l : List (String × Enemy),
    (assign key p l).lookup key = some p := by
  intro l
  induction l with
  | nil => simp [assign, List.lookup]
  | cons e rest ih =>
    obtain ⟨k, v⟩ := e
    by_cases hk : k = key
    · simp [assign, hk, List.lookup]
    · have hne : (key == k) = false := by
        simp only [beq_eq_false_iff_ne, ne_eq]
        exact fun e => hk e.symm
      simp [assign, hk, List.lookup, hne, ih]

theorem lookup_assign_ne (key k' : String) (p : Enemy) (hne : k' ≠ key) :
    ∀ l : List (String × Enemy), (assign key p l).lookup k' = l.lookup k' := by
  intro l
  induction l with
  | nil =>
    have : (k' == key) = false := by simpa using hne
    simp [assign, List.lookup, this]
  | cons e rest ih =>
    obtain ⟨k, v⟩ := e
    by_cases hk : k = key
    · subst hk
      have : (k' == k) = false := by simpa using hne
      simp [assign, List.lookup, this]
    · simp only [assign, hk, if_false, List.lookup, ih]

theorem find_registerProto_self (s : EnemySpawner) (key : String) (p : Enemy) :
    (s.registerProto key p).find key = some p :=
  lookup_assign_self key p s.protos_

theorem find_registerProto_ne (s : EnemySpawner) (key k' : String) (p : Enemy)
    (hne : k' ≠ key) : (s.registerProto key p).find k' = s.find k' :=
  lookup_assign_ne key k' p hne s.protos_

theorem find_isSome_registerProto (s : EnemySpawner) (key k' : String) (p : Enemy)
    (h : (s.find k').isSome = true) : ((s.registerProto key p).find k').isSome = true := by
  by_cases hk : k' = key
  · subst hk; rw [find_registerProto_self]; rfl
  · rw [find_registerProto_ne s key k' p hk]; exact h

theorem find_isSome_exec (c : Call) (w : World) (k' : String)
    (h : (w.spawner.find k').isSome = true) :
    ((exec c w).2.spawner.find k').isSome = true := by
  cases c with
  | registerProto key proto => exact find_isSome_registerProto w.spawner key k' proto h
  | spawn key x y => rw [exec_spawn_spawner]; exact h
  | mutate index m => rw [(exec_mutate_frame w index m).1]; exact h

theorem find_isSome_run (k' : String) : ∀ (cs : List Call) (w : World),
    (w.spawner.find k').isSome = true → ((run cs w).2.spawner.find k').isSome = true := by
  intro cs
  induction cs with
  | nil => intro w h; exact h
  | cons c cs ih =>
    intro w h
    simp only [run]
    exact ih _ (find_isSome_exec c w k' h)

/-- C22: `registerProto(key, p)` inserts or overwrites: afterwards the template
under `key` is `p`, whether or not `key` was registered before; the last
registration wins, so a later `spawn(key)` copies the latest `p`; the template
of every other key is unchanged; and a key once registered stays registered,
through that call and through every later statement of a client. -/
theorem registerProto_inserts_or_overwrites (s : EnemySpawner) (key k' : String)
    (p p' : Enemy) (x y n : Int) (cs : List Call) (w : World) :
    (s.registerProto key p).find key = some p
    ∧ ((s.registerProto key p).registerProto key p').find key = some p'
    ∧ (INT_MIN ≤ n → n < INT_MAX →
        ((s.registerProto key p).registerProto key p').spawn key x y n
          = (Outcome.returned (p'.set_base ⟨n, x, y⟩),
             (s.registerProto key p).registerProto key p', n + 1))
    ∧ (k' ≠ key → (s.registerProto key p).find k' = s.find k')
    ∧ ((s.find k').isSome = true → ((s.registerProto key p).find k').isSome = true)
    ∧ ((w.spawner.find k').isSome = true → ((run cs w).2.spawner.find k').isSome = true) := by
  refine ⟨find_registerProto_self s key p, find_registerProto_self _ key p', ?_,
    find_registerProto_ne s key k' p, find_isSome_registerProto s key k' p,
    find_isSome_run k' cs w⟩
  intro h0 hn
  exact spawn_of_found _ key x y n p' (find_registerProto_self _ key p') (by omega) hn

theorem registerProto_inserts_or_overwrites_witness :
    "dragon-fire" ≠ "orc-basic"
    ∧ ((EnemySpawner.ctor.registerProto "dragon-fire"
          (Enemy.dragon (Dragon.ctor 350 40 "Fire"))).registerProto "orc-basic"
          (Enemy.orc (Orc.ctor 120 15 ["Roar", "Charge"]))).find "dragon-fire"
        = (EnemySpawner.ctor.registerProto "dragon-fire"
            (Enemy.dragon (Dragon.ctor 350 40 "Fire"))).find "dragon-fire" :=
  ⟨by decide,
   (registerProto_inserts_or_overwrites
      (EnemySpawner.ctor.registerProto "dragon-fire" (Enemy.dragon (Dragon.ctor 350 40 "Fire")))
      "orc-basic" "dragon-fire" (Enemy.orc (Orc.ctor 120 15 ["Roar", "Charge"]))
      (Enemy.orc (Orc.ctor 100 12 ["Roar"])) 0 0 1 [] World.init).2.2.2.1 (by decide)⟩

end Prototype

/-! # Theorems: Builder -/

namespace Builder

theorem Build_eq (b : PCBuilder) :
    b.Build = (if b.pc_.cpu = "" then Except.error (Exception.runtime_error "CPU is required")
      else if b.pc_.ramGB ≤ 0 then Except.error (Exception.runtime_error "RAM must be > 0")
      else if b.pc_.storages = [] then
        Except.error (Exception.runtime_error "At least one storage required")
      else Except.ok b.pc_, b) := by
  unfold PCBuilder.Build
  split_ifs <;> rfl

theorem build_eq (f : PCFluentBuilder) :
    f.build = (if f.pc_.cpu = "" then Except.error (Exception.runtime_error "CPU is required")
      else if f.pc_.ramGB ≤ 0 then Except.error (Exception.runtime_error "RAM must be > 0")
      else if f.pc_.storages = [] then
        Except.error (Exception.runtime_error "At least one storage required")
      else Except.ok f.pc_, f) := by
  unfold PCFluentBuilder.build
  split_ifs <;> rfl

theorem foldl_AddStorage (ss : List String) : ∀ b : PCBuilder,
    (ss.foldl PCBuilder.AddStorage b).pc_
      = ⟨b.pc_.cpu, b.pc_.ramGB, b.pc_.gpu, b.pc_.storages ++ ss, b.pc_.wifi, b.pc_.bluetooth⟩ := by
  induction ss with
  | nil => intro b; simp
  | cons v ss ih => intro b; simp [ih, PCBuilder.AddStorage]

theorem foldl_storage (ss : List String) : ∀ f : PCFluentBuilder,
    (ss.foldl PCFluentBuilder.storage f).pc_
      = ⟨f.pc_.cpu, f.pc_.ramGB, f.pc_.gpu, f.pc_.storages ++ ss, f.pc_.wifi, f.pc_.bluetooth⟩ := by
  induction ss with
  | nil => intro f; simp
  | cons v ss ih => intro f; simp [ih, PCFluentBuilder.storage]

/-- C23: `PCBuilder::Build`, and likewise `PCFluentBuilder::build`, throws if
and only if the CPU is empty, or `ramGB <= 0`, or no storage has been added;
the rules are checked in that order, so the message is that of the first
violated rule ("CPU is required", "RAM must be > 0", "At least one storage
required"); otherwise it returns the product held by the builder, which for a
new builder configured with a cpu, a ram, a gpu, storages added in some order
and the two flags is exactly that cpu, ram, gpu, the storages in the order
added, wifi and bluetooth; a call, failed or not, leaves the builder's state
unchanged. -/
theorem Build_validates_in_order (b : PCBuilder) (f : PCFluentBuilder)
    (c g : String) (r : Int) (ss : List String) (wf bt : Bool) :
    ((∃ e, b.Build.1 = Except.error e)
        ↔ (b.pc_.cpu = "" ∨ b.pc_.ramGB ≤ 0 ∨ b.pc_.storages = []))
    ∧ (b.pc_.cpu = "" → b.Build.1 = Except.error (Exception.runtime_error "CPU is required"))
    ∧ (b.pc_.cpu ≠ "" → b.pc_.ramGB ≤ 0 →
        b.Build.1 = Except.error (Exception.runtime_error "RAM must be > 0"))
    ∧ (b.pc_.cpu ≠ "" → 0 < b.pc_.ramGB → b.pc_.storages = [] →
        b.Build.1 = Except.error (Exception.runtime_error "At least one storage required"))
    ∧ (b.pc_.cpu ≠ "" → 0 < b.pc_.ramGB → b.pc_.storages ≠ [] → b.Build.1 = Except.ok b.pc_)
    ∧ b.Build.2 = b
    ∧ ((∃ e, f.build.1 = Except.error e)
        ↔ (f.pc_.cpu = "" ∨ f.pc_.ramGB ≤ 0 ∨ f.pc_.storages = []))
    ∧ (f.pc_.cpu = "" → f.build.1 = Except.error (Exception.runtime_error "CPU is required"))
    ∧ (f.pc_.cpu ≠ "" → f.pc_.ramGB ≤ 0 →
        f.build.1 = Except.error (Exception.runtime_error "RAM must be > 0"))
    ∧ (f.pc_.cpu ≠ "" → 0 < f.pc_.ramGB → f.pc_.storages = [] →
        f.build.1 = Except.error (Exception.runtime_error "At least one storage required"))
    ∧ (f.pc_.cpu ≠ "" → 0 < f.pc_.ramGB → f.pc_.storages ≠ [] → f.build.1 = Except.ok f.pc_)
    ∧ f.build.2 = f
    ∧ (c ≠ "" → 0 < r → ss ≠ [] →
        (((ss.foldl PCBuilder.AddStorage (((PCBuilder.ctor.SetCPU c).SetRAM r).SetGPU
            g)).EnableWiFi wf).EnableBluetooth bt).Build.1
          = Except.ok ⟨c, r, g, ss, wf, bt⟩)
    ∧ (c ≠ "" → 0 < r → ss ≠ [] →
        (((ss.foldl PCFluentBuilder.storage (((PCFluentBuilder.ctor.cpu c).ram r).gpu
            g)).wifi wf).bt bt).build.1
          = Except.ok ⟨c, r, g, ss, wf, bt⟩) := by
  refine ⟨?_, ?_, ?_, ?_, ?_, ?_, ?_, ?_, ?_, ?_, ?_, ?_, ?_, ?_⟩
  · rw [Build_eq]
    by_cases h1 : b.pc_.cpu = ""
    · simp [h1]
    · by_cases h2 : b.pc_.ramGB ≤ 0
      · simp [h1, h2]
      · by_cases h3 : b.pc_.storages = []
        · simp [h1, h2, h3]
        · simp [h1, h2, h3]
  · intro h1; rw [Build_eq]; simp [h1]
  · intro h1 h2; rw [Build_eq]; simp [h1, h2]
  · intro h1 h2 h3; rw [Build_eq]; simp [h1, h3, not_le.2 h2]
  · intro h1 h2 h3; rw [Build_eq]; simp [h1, h3, not_le.2 h2]
  · rw [Build_eq]
  · rw [build_eq]
    by_cases h1 : f.pc_.cpu = ""
    · simp [h1]
    · by_cases h2 : f.pc_.ramGB ≤ 0
      · simp [h1, h2]
      · by_cases h3 : f.pc_.storages = []
        · simp [h1, h2, h3]
        · simp [h1, h2, h3]
  · intro h1; rw [build_eq]; simp [h1]
  · intro h1 h2; rw [build_eq]; simp [h1, h2]
  · intro h1 h2 h3; rw [build_eq]; simp [h1, h3, not_le.2 h2]
  · intro h1 h2 h3; rw [build_eq]; simp [h1, h3, not_le.2 h2]
  · rw [build_eq]
  · intro h1 h2 h3
    rw [Build_eq]
    simp [PCBuilder.EnableBluetooth, PCBuilder.EnableWiFi, foldl_AddStorage, PCBuilder.SetGPU,
      PCBuilder.SetRAM, PCBuilder.SetCPU, PCBuilder.ctor, PC.ctor, h1, h3, not_le.2 h2]
  · intro h1 h2 h3
    rw [build_eq]
    simp [PCFluentBuilder.bt, PCFluentBuilder.wifi, foldl_storage, PCFluentBuilder.gpu,
      PCFluentBuilder.ram, PCFluentBuilder.cpu, PCFluentBuilder.ctor, PC.ctor, h1, h3,
      not_le.2 h2]

theorem Build_validates_in_order_witness :
    (PCBuilder.ctor.SetRAM 16).pc_.cpu = ""
    ∧ (PCBuilder.ctor.SetRAM 16).Build.1
        = Except.error (Exception.runtime_error "CPU is required") :=
  ⟨by decide,
   (Build_validates_in_order (PCBuilder.ctor.SetRAM 16) PCFluentBuilder.ctor
      "c" "g" 1 ["s"] true true).2.1 (by decide)⟩

end Builder

/-! # Theorems: State -/

namespace StateDemo

/-- C27: `AudioPlayer` starts in Stopped and follows the transition table:
play moves Stopped and Paused to Playing and leaves Playing as it is; pause
moves Playing to Paused and leaves Stopped and Paused as they are; stop moves
Playing and Paused to Stopped and leaves Stopped as it is. Hence after `play()`
the state is always Playing and after `stop()` always Stopped, Paused is
entered only from Playing (by pause), and the demo sequence play, pause, play,
stop, stop visits Playing, Paused, Playing, Stopped, Stopped. -/
theorem player_transition_table (player : AudioPlayer) (c : Command) :
    AudioPlayer.ctor.state = State.StoppedState
    ∧ ((AudioPlayer.mk State.StoppedState).play.state = State.PlayingState
      ∧ (AudioPlayer.mk State.PausedState).play.state = State.PlayingState
      ∧ (AudioPlayer.mk State.PlayingState).play.state = State.PlayingState)
    ∧ ((AudioPlayer.mk State.PlayingState).pause.state = State.PausedState
      ∧ (AudioPlayer.mk State.StoppedState).pause.state = State.StoppedState
      ∧ (AudioPlayer.mk State.PausedState).pause.state = State.PausedState)
    ∧ ((AudioPlayer.mk State.PlayingState).stop.state = State.StoppedState
      ∧ (AudioPlayer.mk State.PausedState).stop.state = State.StoppedState
      ∧ (AudioPlayer.mk State.StoppedState).stop.state = State.StoppedState)
    ∧ player.play.state = State.PlayingState
    ∧ player.stop.state = State.StoppedState
    ∧ ((c.run player).state = State.PausedState → player.state ≠ State.PausedState →
        player.state = State.PlayingState ∧ c = Command.pause)
    ∧ visits main_commands AudioPlayer.ctor
        = [State.PlayingState, State.PausedState, State.PlayingState, State.StoppedState,
           State.StoppedState] := by
  refine ⟨rfl, ⟨rfl, rfl, rfl⟩, ⟨rfl, rfl, rfl⟩, ⟨rfl, rfl, rfl⟩, ?_, ?_, ?_, by decide⟩
  · obtain ⟨s⟩ := player
    cases s <;> rfl
  · obtain ⟨s⟩ := player
    cases s <;> rfl
  · obtain ⟨s⟩ := player
    cases s <;> cases c <;> decide

theorem player_transition_table_witness :
    (Command.pause.run (AudioPlayer.mk State.PlayingState)).state = State.PausedState
    ∧ (AudioPlayer.mk State.PlayingState).state ≠ State.PausedState
    ∧ ((AudioPlayer.mk State.PlayingState).state = State.PlayingState
      ∧ Command.pause = Command.pause) :=
  ⟨by decide, by decide,
   (player_transition_table (AudioPlayer.mk State.PlayingState) Command.pause).2.2.2.2.2.2.1
     (by decide) (by decide)⟩

end StateDemo

/-! # Theorems: Memento -/

namespace Memonto

theorem pop_push (h : History) (m : Memento) : (h.push m).pop = (m, h) := by
  simp [History.pop, History.push, List.getLast?_append, List.dropLast_concat]

theorem canUndo_push (h : History) (m : Memento) : (h.push m).canUndo = true := by
  simp [History.canUndo, History.push]

theorem run_append (cs ds : List Step) : ∀ s : Session, run (cs ++ ds) s = run ds (run cs s) := by
  induction cs with
  | nil => intro s; rfl
  | cons c cs ih =>
    intro s
    rw [List.cons_append]
    simp only [run]
    exact ih _

theorem run_types (ws : List String) : ∀ s : Session,
    run (ws.map Step.type) s = ⟨ws.foldl Editor.type s.editor, s.history⟩ := by
  induction ws with
  | nil => intro s; rfl
  | cons w ws ih => intro s; simp only [List.map_cons, run, ih, Step.run, List.foldl_cons]

/-- C28: `save` followed by `restore` is a round trip: if `m = editor.save()`
is taken when the text is `t`, then after any sequence of `type` calls
`editor.restore(m)` sets the text back to exactly `t`; `save` does not change
the editor, and a memento keeps the state it was created with whatever is typed
afterwards. -/
theorem save_restore_round_trip (e : Editor) (ws : List String) (s : Session) :
    e.save.getState = e.text_
    ∧ ((ws.foldl Editor.type e).restore e.save).text_ = e.text_
    ∧ (ws.foldl Editor.type e).restore e.save = e
    ∧ (Step.save.run s).editor = s.editor
    ∧ (run (Step.save :: ws.map Step.type) s).history = s.history.push s.editor.save
    ∧ (run (Step.save :: ws.map Step.type) s).history.pop.1.getState = s.editor.text_
    ∧ run (Step.save :: ws.map Step.type ++ [Step.undo]) s = s := by
  have h1 : run (Step.save :: ws.map Step.type) s
      = ⟨ws.foldl Editor.type s.editor, s.history.push s.editor.save⟩ := by
    simp only [run, Step.run, run_types]
  refine ⟨rfl, rfl, rfl, rfl, ?_, ?_, ?_⟩
  · rw [h1]
  · rw [h1]
    simp only [pop_push]
    rfl
  · rw [run_append, h1]
    simp only [run, Step.run, canUndo_push, pop_push, if_true]
    rfl

/-- C29: `History` is a last-in-first-out stack: `pop` returns the most
recently pushed memento that has not been popped yet and removes only that
one; `canUndo` is true iff the history is non-empty; `pop` on an empty history
returns a memento with the empty string as state and leaves the history empty.
In `main` (type "Hello", save, type ", world", save, type "!!!"), the first
undo gives "Hello, world", the second gives "Hello", and the third finds
nothing to undo and leaves the text "Hello". -/
theorem history_is_lifo (h : History) (m m' : Memento) (ms : List Memento) :
    (h.push m).pop = (m, h)
    ∧ ((h.push m).push m').pop = (m', h.push m)
    ∧ ((h.push m).push m').pop.2.pop = (m, h)
    ∧ (ms.foldl History.push h).history_ = h.history_ ++ ms
    ∧ (History.mk (ms ++ [m])).pop = (m, History.mk ms)
    ∧ (h.canUndo = true ↔ h.history_ ≠ [])
    ∧ (h.history_ = [] → h.pop = (Memento.mk "", h))
    ∧ History.ctor.pop = (Memento.mk "", History.ctor)
    ∧ (run main_edits Session.init).editor.text_ = "Hello, world!!!"
    ∧ (run (main_edits ++ [Step.undo]) Session.init).editor.text_ = "Hello, world"
    ∧ (run (main_edits ++ [Step.undo, Step.undo]) Session.init).editor.text_ = "Hello"
    ∧ (run (main_edits ++ [Step.undo, Step.undo]) Session.init).history.canUndo = false
    ∧ (run (main_edits ++ [Step.undo, Step.undo, Step.undo]) Session.init).editor.text_
        = "Hello" := by
  refine ⟨pop_push h m, pop_push _ m', ?_, ?_, ?_, ?_, ?_, rfl, by decide, by decide,
    by decide, by decide, by decide⟩
  · rw [pop_push]; exact pop_push h m
  · induction ms generalizing h with
    | nil => simp
    | cons a ms ih => rw [List.foldl_cons, ih]; simp [History.push]
  · exact pop_push (History.mk ms) m
  · cases hl : h.history_ <;> simp [History.canUndo, hl]
  · intro hl
    obtain ⟨l⟩ := h
    simp only at hl
    subst hl
    rfl

theorem history_is_lifo_witness :
    History.ctor.history_ = []
    ∧ History.ctor.pop = (Memento.mk "", History.ctor) :=
  ⟨by decide,
   (history_is_lifo History.ctor (Memento.mk "a") (Memento.mk "b") []).2.2.2.2.2.2.1
     (by decide)⟩

end Memonto

/-! # Theorems: Composite, `print` -/

namespace Composite

theorem print_eq_line_of_file (name : String) (bytes indent : Nat) :
    (Node.file name bytes).print indent = [(Node.file name bytes).line indent] := by
  rw [Node.print, Node.line]

theorem print_folder (name : String) (children : List Node) (indent : Nat) :
    (Node.folder name children).print indent
      = (Node.folder name children).line indent
        :: Folder.print_loop children (indent + 2) := by
  rw [Node.print, Node.line]

mutual
theorem print_eq_preorder (indent : Nat) : ∀ (t : Node) (depth : Nat),
    t.print (indent + 2 * depth)
      = (t.preorder depth).map (fun p => p.2.line (indent + 2 * p.1))
  | .file name bytes, depth => by
    rw [print_eq_line_of_file, Node.preorder]; rfl
  | .folder name children, depth => by
    rw [print_folder, Node.preorder, List.map_cons]
    have h := print_loop_eq_preorder indent children (depth + 1)
    rw [show indent + 2 * (depth + 1) = indent + 2 * depth + 2 by ring] at h
    rw [h]
theorem print_loop_eq_preorder (indent : Nat) : ∀ (cs : List Node) (depth : Nat),
    Folder.print_loop cs (indent + 2 * depth)
      = (Folder.preorder cs depth).map (fun p => p.2.line (indent + 2 * p.1))
  | [], depth => by
    rw [Folder.print_loop, Folder.preorder]; rfl
  | c :: rest, depth => by
    rw [Folder.print_loop, Folder.preorder, List.map_append, print_eq_preorder indent c depth,
      print_loop_eq_preorder indent rest depth]
end

mutual
theorem preorder_length : ∀ (t : Node) (depth : Nat),
    (t.preorder depth).length = t.count_nodes
  | .file name bytes, depth => by
    rw [Node.preorder, Node.count_nodes]; rfl
  | .folder name children, depth => by
    rw [Node.preorder, Node.count_nodes, List.length_cons,
      preorder_loop_length children (depth + 1)]
    omega
theorem preorder_loop_length : ∀ (cs : List Node) (depth : Nat),
    (Folder.preorder cs depth).length = Folder.count_nodes cs
  | [], depth => by
    rw [Folder.preorder, Folder.count_nodes]; rfl
  | c :: rest, depth => by
    rw [Folder.preorder, Folder.count_nodes, List.length_append, preorder_length c depth,
      preorder_loop_length rest depth]
end

end Composite

namespace Prototype

theorem run_cons_full (c : Call) (cs : List Call) (w w' : World) (o : Outcome Unit)
    (os : List (Outcome Unit)) (h : exec c w = (o, w')) (hr : (run cs w').1 = os) :
    (run (c :: cs) w).1 = o :: os := by
  simp only [run, h, hr]

theorem main_outcomes_eq (p0 p1 p2 : Int × Int) :
    (run (main_calls p0 p1 p2) World.init).1 = List.replicate 10 (Outcome.returned ()) := by
  unfold main_calls
  refine run_cons_full _ _ _
      ⟨⟨[("orc-basic", Enemy.orc (Orc.ctor 120 15 ["Roar", "Charge"]))]⟩, 1,
       []⟩
      (Outcome.returned ()) _ rfl ?_
  refine run_cons_full _ _ _
      ⟨⟨[("orc-basic", Enemy.orc (Orc.ctor 120 15 ["Roar", "Charge"])),
         ("dragon-fire", Enemy.dragon (Dragon.ctor 350 40 "Fire"))]⟩, 1,
       []⟩
      (Outcome.returned ()) _ rfl ?_
  refine run_cons_full _ _ _
      ⟨⟨[("orc-basic", Enemy.orc (Orc.ctor 120 15 ["Roar", "Charge"])),
         ("dragon-fire", Enemy.dragon (Dragon.ctor 350 40 "Fire"))]⟩, 2,
       [Enemy.orc ⟨⟨1, p0.1, p0.2⟩, 120, 15, ["Roar", "Charge"], ⟨1, "Aggressive"⟩⟩]⟩
      (Outcome.returned ()) _ rfl ?_
  refine run_cons_full _ _ _
      ⟨⟨[("orc-basic", Enemy.orc (Orc.ctor 120 15 ["Roar", "Charge"])),
         ("dragon-fire", Enemy.dragon (Dragon.ctor 350 40 "Fire"))]⟩, 3,
       [Enemy.orc ⟨⟨1, p0.1, p0.2⟩, 120, 15, ["Roar", "Charge"], ⟨1, "Aggressive"⟩⟩,
        Enemy.orc ⟨⟨2, p1.1, p1.2⟩, 120, 15, ["Roar", "Charge"], ⟨1, "Aggressive"⟩⟩]⟩
      (Outcome.returned ()) _ rfl ?_
  refine run_cons_full _ _ _
      ⟨⟨[("orc-basic", Enemy.orc (Orc.ctor 120 15 ["Roar", "Charge"])),
         ("dragon-fire", Enemy.dragon (Dragon.ctor 350 40 "Fire"))]⟩, 3,
       [Enemy.orc ⟨⟨1, p0.1, p0.2⟩, 120, 15, ["Roar", "Charge"], ⟨1, "Aggressive"⟩⟩,
        Enemy.orc ⟨⟨2, p1.1, p1.2⟩, 120, 15, ["Roar", "Charge", "Berserk"],
          ⟨1, "Aggressive"⟩⟩]⟩
      (Outcome.returned ()) _ rfl ?_
  refine run_cons_full _ _ _
      ⟨⟨[("orc-basic", Enemy.orc (Orc.ctor 120 15 ["Roar", "Charge"])),
         ("dragon-fire", Enemy.dragon (Dragon.ctor 350 40 "Fire"))]⟩, 4,
       [Enemy.orc ⟨⟨1, p0.1, p0.2⟩, 120, 15, ["Roar", "Charge"], ⟨1, "Aggressive"⟩⟩,
        Enemy.orc ⟨⟨2, p1.1, p1.2⟩, 120, 15, ["Roar", "Charge", "Berserk"],
          ⟨1, "Aggressive"⟩⟩,
        Enemy.orc ⟨⟨3, p2.1, p2.2⟩, 120, 15, ["Roar", "Charge"], ⟨1, "Aggressive"⟩⟩]⟩
      (Outcome.returned ()) _ rfl ?_
  refine run_cons_full _ _ _
      ⟨⟨[("orc-basic", Enemy.orc (Orc.ctor 120 15 ["Roar", "Charge"])),
         ("dragon-fire", Enemy.dragon (Dragon.ctor 350 40 "Fire"))]⟩, 5,
       [Enemy.orc ⟨⟨1, p0.1, p0.2⟩, 120, 15, ["Roar", "Charge"], ⟨1, "Aggressive"⟩⟩,
        Enemy.orc ⟨⟨2, p1.1, p1.2⟩, 120, 15, ["Roar", "Charge", "Berserk"],
          ⟨1, "Aggressive"⟩⟩,
        Enemy.orc ⟨⟨3, p2.1, p2.2⟩, 120, 15, ["Roar", "Charge"], ⟨1, "Aggressive"⟩⟩,
        Enemy.dragon ⟨⟨4, 10, 2⟩, 350, 40, "Fire", ⟨3, "Territorial"⟩⟩]⟩
      (Outcome.returned ()) _ rfl ?_
  refine run_cons_full _ _ _
      ⟨⟨[("orc-basic", Enemy.orc (Orc.ctor 120 15 ["Roar", "Charge"])),
         ("dragon-fire", Enemy.dragon (Dragon.ctor 350 40 "Fire"))]⟩, 5,
       [Enemy.orc ⟨⟨1, p0.1, p0.2⟩, 120, 15, ["Roar", "Charge"], ⟨1, "Aggressive"⟩⟩,
        Enemy.orc ⟨⟨2, p1.1, p1.2⟩, 120, 15, ["Roar", "Charge", "Berserk"],
          ⟨1, "Aggressive"⟩⟩,
        Enemy.orc ⟨⟨3, p2.1, p2.2⟩, 120, 15, ["Roar", "Charge"], ⟨1, "Aggressive"⟩⟩,
        Enemy.dragon ⟨⟨4, 10, 2⟩, 350, 55, "Fire", ⟨3, "Territorial"⟩⟩]⟩
      (Outcome.returned ()) _ rfl ?_
  refine run_cons_full _ _ _
      ⟨⟨[("orc-basic", Enemy.orc (Orc.ctor 120 15 ["Roar", "Charge"])),
         ("dragon-fire", Enemy.dragon (Dragon.ctor 350 40 "Fire"))]⟩, 6,
       [Enemy.orc ⟨⟨1, p0.1, p0.2⟩, 120, 15, ["Roar", "Charge"], ⟨1, "Aggressive"⟩⟩,
        Enemy.orc ⟨⟨2, p1.1, p1.2⟩, 120, 15, ["Roar", "Charge", "Berserk"],
          ⟨1, "Aggressive"⟩⟩,
        Enemy.orc ⟨⟨3, p2.1, p2.2⟩, 120, 15, ["Roar", "Charge"], ⟨1, "Aggressive"⟩⟩,
        Enemy.dragon ⟨⟨4, 10, 2⟩, 350, 55, "Fire", ⟨3, "Territorial"⟩⟩,
        Enemy.orc ⟨⟨5, 0, 0⟩, 120, 15, ["Roar", "Charge"], ⟨1, "Aggressive"⟩⟩]⟩
      (Outcome.returned ()) _ rfl ?_
  refine run_cons_full _ _ _
      ⟨⟨[("orc-basic", Enemy.orc (Orc.ctor 120 15 ["Roar", "Charge"])),
         ("dragon-fire", Enemy.dragon (Dragon.ctor 350 40 "Fire"))]⟩, 7,
       [Enemy.orc ⟨⟨1, p0.1, p0.2⟩, 120, 15, ["Roar", "Charge"], ⟨1, "Aggressive"⟩⟩,
        Enemy.orc ⟨⟨2, p1.1, p1.2⟩, 120, 15, ["Roar", "Charge", "Berserk"],
          ⟨1, "Aggressive"⟩⟩,
        Enemy.orc ⟨⟨3, p2.1, p2.2⟩, 120, 15, ["Roar", "Charge"], ⟨1, "Aggressive"⟩⟩,
        Enemy.dragon ⟨⟨4, 10, 2⟩, 350, 55, "Fire", ⟨3, "Territorial"⟩⟩,
        Enemy.orc ⟨⟨5, 0, 0⟩, 120, 15, ["Roar", "Charge"], ⟨1, "Aggressive"⟩⟩,
        Enemy.dragon ⟨⟨6, 0, 0⟩, 350, 40, "Fire", ⟨3, "Territorial"⟩⟩]⟩
      (Outcome.returned ()) _ rfl ?_
  rfl

end Prototype

/-! # Theorems: the demo drivers -/

namespace Demos

/-- C24: the mains of the Composite, Prototype and Builder demos complete and
return 0, and reach no error branch on the way: in Composite's `main` every
`add` is called on a folder and returns normally; in Prototype's `main`,
whatever the random positions, every statement returns, so no spawn throws
the no-prototype error; all three builds of Builder's `main` (gaming rig,
office box after `Reset`, fluent workstation) pass validation; and in Builder's
`main` an exception leaving the `try` block, if there were one, is caught and
`main` still returns 0. -/
theorem mains_return_zero (p0 p1 p2 : Int × Int)
    (body : Except Builder.Exception (Builder.PC × Builder.PC × Builder.PC)) :
    Composite.main = Except.ok 0
    ∧ [(Composite.Node.add (Composite.make_folder "docs")
          (Composite.make_file "report.pdf" 1200)).1,
       (Composite.Node.add (Composite.Node.folder "docs" [Composite.Node.file "report.pdf" 1200])
          (Composite.make_file "notes.txt" 300)).1,
       (Composite.Node.add (Composite.make_folder "images")
          (Composite.make_file "logo.png" 500)).1,
       (Composite.Node.add (Composite.Node.folder "images" [Composite.Node.file "logo.png" 500])
          (Composite.make_file "banner.jpg" 2048)).1,
       (Composite.Node.add (Composite.make_folder "root") Composite.main_docs).1,
       (Composite.Node.add (Composite.Node.folder "root" [Composite.main_docs])
          Composite.main_images).1,
       (Composite.Node.add
          (Composite.Node.folder "root" [Composite.main_docs, Composite.main_images])
          (Composite.make_file "readme.md" 100)).1]
        = List.replicate 7 (Except.ok ())
    ∧ Prototype.main p0 p1 p2 = Prototype.Outcome.returned 0
    ∧ (Prototype.run (Prototype.main_calls p0 p1 p2) Prototype.World.init).1
        = List.replicate 10 (Prototype.Outcome.returned ())
    ∧ Builder.main_try
        = Except.ok
            (⟨"AMD Ryzen 7 7800X3D", 32, "NVIDIA RTX 4070 Ti", ["1TB NVMe", "2TB SSD"],
              true, true⟩,
             ⟨"Intel i5-13400", 16, "Integrated", ["512GB NVMe"], false, true⟩,
             ⟨"Intel i7-14700", 64, "NVIDIA RTX A2000", ["2TB NVMe"], true, true⟩)
    ∧ Builder.main = 0
    ∧ Builder.main_catch body = 0 := by
  refine ⟨rfl, rfl, ?_, Prototype.main_outcomes_eq p0 p1 p2, rfl, rfl, ?_⟩
  · unfold Prototype.main
    rw [Prototype.main_outcomes_eq]
    rfl
  · cases body <;> rfl

end Demos

/-! # Theorems: Chain of Responsibility, the order of the limits -/

namespace ChainOfResponsibility

theorem main_handle_cases (q : Request) :
    main_chain.handle q
      = if Double.le q.amount (Double.ofInt 1000) = true then [Event.processed 0 true]
        else if Double.le q.amount (Double.ofInt 5000) = true then
          [Event.processed 0 false, Event.processed 1 true]
        else if Double.le q.amount (Double.ofInt 50000) = true then
          [Event.processed 0 false, Event.processed 1 false, Event.processed 2 true]
        else if Double.le q.amount (Double.ofInt 200000) = true then
          [Event.processed 0 false, Event.processed 1 false, Event.processed 2 false,
           Event.processed 3 true]
        else
          [Event.processed 0 false, Event.processed 1 false, Event.processed 2 false,
           Event.processed 3 false, Event.rejected] := by
  rw [handle_eq, main_chain_chain]
  by_cases h0 : Double.le q.amount (Double.ofInt 1000) = true <;>
  by_cases h1 : Double.le q.amount (Double.ofInt 5000) = true <;>
  by_cases h2 : Double.le q.amount (Double.ofInt 50000) = true <;>
  by_cases h3 : Double.le q.amount (Double.ofInt 200000) = true <;>
  simp [List.takeWhile, List.range_succ, TeamLead.process, Manager.process,
    Director.process, CEO.process, h0, h1, h2, h3]

theorem double_le_trans (a b c : Double) (h1 : Double.le a b = true)
    (h2 : Double.le b c = true) : Double.le a c = true := by
  cases a with
  | nan => simp [Double.le] at h1
  | neg_inf =>
    cases c with
    | nan => cases b <;> simp [Double.le] at h2
    | neg_inf => simp [Double.le]
    | pos_inf => simp [Double.le]
    | finite m e => simp [Double.le]
  | pos_inf =>
    cases b <;> simp [Double.le] at h1
    cases c <;> simp [Double.le] at h2 ⊢
  | finite m1 e1 =>
    cases b with
    | nan => simp [Double.le] at h1
    | neg_inf => simp [Double.le] at h1
    | pos_inf => cases c <;> simp [Double.le] at h2 ⊢
    | finite m2 e2 =>
      cases c with
      | nan => simp [Double.le] at h2
      | neg_inf => simp [Double.le] at h2
      | pos_inf => simp [Double.le]
      | finite m3 e3 =>
        simp only [Double.le] at h1 h2 ⊢
        rw [finite_le_iff] at h1 h2 ⊢
        exact le_trans h1 h2

end ChainOfResponsibility

namespace ChainOfResponsibility

theorem approved_at_iff (q : Request) (j : Nat) :
    Event.processed j true ∈ main_chain.handle q
      ↔ (j = 0 ∧ Double.le q.amount (Double.ofInt 1000) = true)
        ∨ (j = 1 ∧ Double.le q.amount (Double.ofInt 1000) = false
            ∧ Double.le q.amount (Double.ofInt 5000) = true)
        ∨ (j = 2 ∧ Double.le q.amount (Double.ofInt 5000) = false
            ∧ Double.le q.amount (Double.ofInt 50000) = true)
        ∨ (j = 3 ∧ Double.le q.amount (Double.ofInt 50000) = false
            ∧ Double.le q.amount (Double.ofInt 200000) = true) := by
  have m1 := le_ofInt_mono q.amount 1000 5000 (by decide)
  have m2 := le_ofInt_mono q.amount 5000 50000 (by decide)
  have m3 := le_ofInt_mono q.amount 50000 200000 (by decide)
  rw [main_handle_cases]
  by_cases h0 : Double.le q.amount (Double.ofInt 1000) = true
  · have h1 := m1 h0
    have h2 := m2 h1
    have h3 := m3 h2
    simp [h0, h1, h2, h3]
  · by_cases h1 : Double.le q.amount (Double.ofInt 5000) = true
    · have h2 := m2 h1
      have h3 := m3 h2
      simp [h0, h1, h2, h3]
    · by_cases h2 : Double.le q.amount (Double.ofInt 50000) = true
      · have h3 := m3 h2
        simp [h0, h1, h2, h3]
      · by_cases h3 : Double.le q.amount (Double.ofInt 200000) = true
        · simp [h0, h1, h2, h3]
        · simp [h0, h1, h2, h3]

/-- C25: on the demo chain, whose limits 1000, 5000, 50000, 200000 are
non-decreasing, a request is resolved if and only if `amount <= 200000`, and
the approving handler is the one with the smallest limit that is `>= amount`;
consequently the position of the approver is monotone in the amount: if
`a <= b` and `b` is approved at position `j`, then `a` is approved at some
position `i <= j`. -/
theorem approver_has_least_sufficient_limit (q a b : Request) (j : Nat) :
    List.Pairwise (fun c c' : Int => c ≤ c') main_limits
    ∧ main_chain.chain.map (fun p => p q)
        = main_limits.map (fun c => Double.le q.amount (Double.ofInt c))
    ∧ ((∃ i, Event.processed i true ∈ main_chain.handle q)
        ↔ Double.le q.amount (Double.ofInt 200000) = true)
    ∧ (Event.processed j true ∈ main_chain.handle q →
        ∃ c, main_limits[j]? = some c ∧ Double.le q.amount (Double.ofInt c) = true
          ∧ ∀ c' ∈ main_limits, Double.le q.amount (Double.ofInt c') = true → c ≤ c')
    ∧ (Double.le a.amount b.amount = true → Event.processed j true ∈ main_chain.handle b →
        ∃ i, i ≤ j ∧ Event.processed i true ∈ main_chain.handle a) := by
  have m1 := le_ofInt_mono q.amount 1000 5000 (by decide)
  have m2 := le_ofInt_mono q.amount 5000 50000 (by decide)
  have m3 := le_ofInt_mono q.amount 50000 200000 (by decide)
  refine ⟨by decide, ?_, ?_, ?_, ?_⟩
  · rw [main_chain_chain]
    simp only [List.map_cons, List.map_nil, main_limits, TeamLead.process, Manager.process,
      Director.process, CEO.process]
    congr 1
    · cases Double.le q.amount (Double.ofInt 1000) <;> rfl
    congr 1
    · cases Double.le q.amount (Double.ofInt 5000) <;> rfl
    congr 1
    · cases Double.le q.amount (Double.ofInt 50000) <;> rfl
    congr 1
    cases Double.le q.amount (Double.ofInt 200000) <;> rfl
  · constructor
    · rintro ⟨i, hi⟩
      rcases (approved_at_iff q i).1 hi with h | h | h | h
      · exact m3 (m2 (m1 h.2))
      · exact m3 (m2 h.2.2)
      · exact m3 h.2.2
      · exact h.2.2
    · intro h
      by_cases h0 : Double.le q.amount (Double.ofInt 1000) = true
      · exact ⟨0, (approved_at_iff q 0).2 (Or.inl ⟨rfl, h0⟩)⟩
      · by_cases h1 : Double.le q.amount (Double.ofInt 5000) = true
        · exact ⟨1, (approved_at_iff q 1).2 (Or.inr (Or.inl ⟨rfl, by simpa using h0, h1⟩))⟩
        · by_cases h2 : Double.le q.amount (Double.ofInt 50000) = true
          · exact ⟨2, (approved_at_iff q 2).2
              (Or.inr (Or.inr (Or.inl ⟨rfl, by simpa using h1, h2⟩)))⟩
          · exact ⟨3, (approved_at_iff q 3).2
              (Or.inr (Or.inr (Or.inr ⟨rfl, by simpa using h2, h⟩)))⟩
  · intro hj
    rcases (approved_at_iff q j).1 hj with ⟨rfl, h⟩ | ⟨rfl, hn, h⟩ | ⟨rfl, hn, h⟩ | ⟨rfl, hn, h⟩
    · refine ⟨1000, rfl, h, ?_⟩
      intro c' hc' _
      simp only [main_limits, List.mem_cons, List.mem_singleton, List.not_mem_nil,
        or_false] at hc'
      omega
    · refine ⟨5000, rfl, h, ?_⟩
      intro c' hc' hle
      simp only [main_limits, List.mem_cons, List.mem_singleton, List.not_mem_nil,
        or_false] at hc'
      rcases hc' with e | e | e | e
      · subst e; rw [hn] at hle; cases hle
      · omega
      · omega
      · omega
    · refine ⟨50000, rfl, h, ?_⟩
      intro c' hc' hle
      simp only [main_limits, List.mem_cons, List.mem_singleton, List.not_mem_nil,
        or_false] at hc'
      have hn1 : Double.le q.amount (Double.ofInt 1000) = false := by
        cases h1 : Double.le q.amount (Double.ofInt 1000)
        · rfl
        · rw [m1 h1] at hn; cases hn
      rcases hc' with e | e | e | e
      · subst e; rw [hn1] at hle; cases hle
      · subst e; rw [hn] at hle; cases hle
      · omega
      · omega
    · refine ⟨200000, rfl, h, ?_⟩
      intro c' hc' hle
      simp only [main_limits, List.mem_cons, List.mem_singleton, List.not_mem_nil,
        or_false] at hc'
      have hn2 : Double.le q.amount (Double.ofInt 5000) = false := by
        cases h1 : Double.le q.amount (Double.ofInt 5000)
        · rfl
        · rw [m2 h1] at hn; cases hn
      have hn1 : Double.le q.amount (Double.ofInt 1000) = false := by
        cases h1 : Double.le q.amount (Double.ofInt 1000)
        · rfl
        · rw [m1 h1] at hn2; cases hn2
      rcases hc' with e | e | e | e
      · subst e; rw [hn1] at hle; cases hle
      · subst e; rw [hn2] at hle; cases hle
      · subst e; rw [hn] at hle; cases hle
      · omega
  · intro hab hj
    have a1 := le_ofInt_mono a.amount 1000 5000 (by decide)
    have a2 := le_ofInt_mono a.amount 5000 50000 (by decide)
    have a3 := le_ofInt_mono a.amount 50000 200000 (by decide)
    have key : ∀ c : Int, Double.le b.amount (Double.ofInt c) = true →
        Double.le a.amount (Double.ofInt c) = true :=
      fun c hc => double_le_trans _ _ _ hab hc
    have first : ∀ k : Nat, k ≤ 3 →
        (k = 0 → Double.le a.amount (Double.ofInt 1000) = true) →
        (k = 1 → Double.le a.amount (Double.ofInt 5000) = true) →
        (k = 2 → Double.le a.amount (Double.ofInt 50000) = true) →
        (k = 3 → Double.le a.amount (Double.ofInt 200000) = true) →
        ∃ i, i ≤ k ∧ Event.processed i true ∈ main_chain.handle a := by
      intro k hk c0 c1 c2 c3
      by_cases h0 : Double.le a.amount (Double.ofInt 1000) = true
      · exact ⟨0, Nat.zero_le k, (approved_at_iff a 0).2 (Or.inl ⟨rfl, h0⟩)⟩
      · by_cases h1 : Double.le a.amount (Double.ofInt 5000) = true
        · refine ⟨1, ?_, (approved_at_iff a 1).2 (Or.inr (Or.inl ⟨rfl, by simpa using h0, h1⟩))⟩
          rcases Nat.eq_zero_or_pos k with e | e
          · exact absurd (c0 e) h0
          · exact e
        · by_cases h2 : Double.le a.amount (Double.ofInt 50000) = true
          · refine ⟨2, ?_, (approved_at_iff a 2).2
              (Or.inr (Or.inr (Or.inl ⟨rfl, by simpa using h1, h2⟩)))⟩
            by_contra hlt
            have hk' : k = 0 ∨ k = 1 := by omega
            rcases hk' with e | e
            · exact h0 (c0 e)
            · exact h1 (c1 e)
          · have h3 : Double.le a.amount (Double.ofInt 200000) = true := by
              have hk' : k = 0 ∨ k = 1 ∨ k = 2 ∨ k = 3 := by omega
              rcases hk' with e | e | e | e
              · exact absurd (c0 e) h0
              · exact absurd (c1 e) h1
              · exact absurd (c2 e) h2
              · exact c3 e
            refine ⟨3, ?_, (approved_at_iff a 3).2
              (Or.inr (Or.inr (Or.inr ⟨rfl, by simpa using h2, h3⟩)))⟩
            by_contra hlt
            have hk' : k = 0 ∨ k = 1 ∨ k = 2 := by omega
            rcases hk' with e | e | e
            · exact h0 (c0 e)
            · exact h1 (c1 e)
            · exact h2 (c2 e)
    rcases (approved_at_iff b j).1 hj with ⟨rfl, h⟩ | ⟨rfl, _, h⟩ | ⟨rfl, _, h⟩ | ⟨rfl, _, h⟩
    · exact first 0 (by omega) (fun _ => key _ h) (fun e => by omega) (fun e => by omega)
        (fun e => by omega)
    · exact first 1 (by omega) (fun e => by omega) (fun _ => key _ h) (fun e => by omega)
        (fun e => by omega)
    · exact first 2 (by omega) (fun e => by omega) (fun e => by omega) (fun _ => key _ h)
        (fun e => by omega)
    · exact first 3 (by omega) (fun e => by omega) (fun e => by omega) (fun e => by omega)
        (fun _ => key _ h)

theorem approver_has_least_sufficient_limit_witness :
    Double.le (Request.mk (Double.ofInt 1800) "laptop").amount
        (Request.mk (Double.ofInt 4200) "fees").amount = true
    ∧ Event.processed 1 true ∈ main_chain.handle (Request.mk (Double.ofInt 4200) "fees")
    ∧ ∃ i, i ≤ 1 ∧ Event.processed i true
        ∈ main_chain.handle (Request.mk (Double.ofInt 1800) "laptop") :=
  ⟨by decide, by decide,
   (approver_has_least_sufficient_limit (Request.mk (Double.ofInt 4200) "fees")
      (Request.mk (Double.ofInt 1800) "laptop") (Request.mk (Double.ofInt 4200) "fees")
      1).2.2.2.2 (by decide) (by decide)⟩

end ChainOfResponsibility

namespace Flyweight

theorem lookup_some_mem (k : Key) (a : Nat) :
    ∀ l : List (Key × Nat), l.lookup k = some a → (k, a) ∈ l
  | [], h => by simp [List.lookup] at h
  | (k', a') :: l, h => by
    by_cases e : k = k'
    · subst e
      simp [List.lookup] at h
      subst h
      exact List.mem_cons_self _ _
    · have e' : (k == k') = false := by simpa using e
      rw [List.lookup, e'] at h
      exact List.mem_cons_of_mem _ (lookup_some_mem k a l h)

theorem lookup_none_not_mem (k : Key) :
    ∀ l : List (Key × Nat), l.lookup k = none → k ∉ l.map Prod.fst
  | [], _ => by simp
  | (k', a') :: l, h => by
    by_cases e : k = k'
    · subst e
      simp [List.lookup] at h
    · have e' : (k == k') = false := by simpa using e
      rw [List.lookup, e'] at h
      simp only [List.map_cons, List.mem_cons, not_or]
      exact ⟨e, lookup_none_not_mem k l h⟩

theorem lookup_some_mem_keys (k : Key) (a : Nat) (l : List (Key × Nat))
    (h : l.lookup k = some a) : k ∈ l.map Prod.fst :=
  List.mem_map.2 ⟨(k, a), lookup_some_mem k a l h, rfl⟩

theorem Get_wf (w : World) (ch : Char) (font : String) (h : w.wf) :
    (GlyphFactory.Get w ch font).2.wf := by
  unfold GlyphFactory.Get
  cases hl : w.factory.pool_.lookup ⟨ch, font⟩ with
  | some g => exact h
  | none =>
    refine ⟨?_, ?_⟩
    · intro k a hm
      simp only [List.mem_append, List.mem_singleton, Prod.mk.injEq] at hm
      rcases hm with hm | ⟨rfl, rfl⟩
      · have := h.1 k a hm
        have hlt : a < w.glyphs.length := by
          by_contra hc
          rw [List.getElem?_eq_none (Nat.le_of_not_lt hc)] at this
          cases this
        simp only []
        rw [List.getElem?_append_left hlt]
        exact this
      · simp
    · simp only [List.map_append, List.map_cons, List.map_nil]
      refine List.Nodup.append h.2 (List.nodup_singleton _) ?_
      simp only [List.disjoint_singleton]
      exact lookup_none_not_mem _ _ hl

theorem Get_mem_pool (w : World) (ch : Char) (font : String) :
    (⟨ch, font⟩, (GlyphFactory.Get w ch font).1) ∈ (GlyphFactory.Get w ch font).2.factory.pool_ := by
  unfold GlyphFactory.Get
  cases hl : w.factory.pool_.lookup ⟨ch, font⟩ with
  | some g => exact lookup_some_mem _ _ _ hl
  | none => simp

theorem Get_pool_subset (w : World) (ch : Char) (font : String) (p : Key × Nat)
    (hp : p ∈ w.factory.pool_) : p ∈ (GlyphFactory.Get w ch font).2.factory.pool_ := by
  unfold GlyphFactory.Get
  cases hl : w.factory.pool_.lookup ⟨ch, font⟩ with
  | some g => exact hp
  | none => exact List.mem_append_left _ hp

theorem Get_keys (w : World) (ch : Char) (font : String) (k : Key) :
    k ∈ (GlyphFactory.Get w ch font).2.factory.pool_.map Prod.fst
      ↔ k ∈ w.factory.pool_.map Prod.fst ∨ k = ⟨ch, font⟩ := by
  unfold GlyphFactory.Get
  cases hl : w.factory.pool_.lookup ⟨ch, font⟩ with
  | some g =>
    constructor
    · exact Or.inl
    · rintro (h | rfl)
      · exact h
      · exact lookup_some_mem_keys _ _ _ hl
  | none => simp

theorem Get_Count (w : World) (ch : Char) (font : String) :
    (GlyphFactory.Get w ch font).2.factory.Count
      = if (⟨ch, font⟩ : Key) ∈ w.factory.pool_.map Prod.fst then w.factory.Count
        else w.factory.Count + 1 := by
  unfold GlyphFactory.Get
  cases hl : w.factory.pool_.lookup ⟨ch, font⟩ with
  | some g => rw [if_pos (lookup_some_mem_keys _ _ _ hl)]
  | none =>
    rw [if_neg (lookup_none_not_mem _ _ hl)]
    simp [GlyphFactory.Count]

theorem get_all_wf : ∀ (ks : List Key) (w : World), w.wf → (get_all ks w).2.wf
  | [], _, h => h
  | k :: ks, w, h => get_all_wf ks _ (Get_wf w k.ch k.font h)

theorem get_all_length : ∀ (ks : List Key) (w : World), (get_all ks w).1.length = ks.length
  | [], _ => rfl
  | k :: ks, w => by simp [get_all, get_all_length ks]

theorem get_all_pool_subset : ∀ (ks : List Key) (w : World) (p : Key × Nat),
    p ∈ w.factory.pool_ → p ∈ (get_all ks w).2.factory.pool_
  | [], _, _, h => h
  | k :: ks, w, p, h => get_all_pool_subset ks _ p (Get_pool_subset w k.ch k.font p h)

theorem get_all_mem_pool : ∀ (ks : List Key) (w : World) (i : Nat) (k : Key) (a : Nat),
    ks[i]? = some k → (get_all ks w).1[i]? = some a → (k, a) ∈ (get_all ks w).2.factory.pool_
  | [], _, _, _, _, h, _ => by simp at h
  | k0 :: ks, w, 0, k, a, h, h2 => by
    simp only [List.getElem?_cons_zero, Option.some.injEq] at h
    simp only [get_all, List.getElem?_cons_zero, Option.some.injEq] at h2
    subst h; subst h2
    exact get_all_pool_subset ks _ _ (Get_mem_pool w k0.ch k0.font)
  | k0 :: ks, w, i + 1, k, a, h, h2 => by
    simp only [List.getElem?_cons_succ] at h
    simp only [get_all, List.getElem?_cons_succ] at h2
    exact get_all_mem_pool ks _ i k a h h2

theorem get_all_keys : ∀ (ks : List Key) (w : World) (k : Key),
    k ∈ (get_all ks w).2.factory.pool_.map Prod.fst
      ↔ k ∈ w.factory.pool_.map Prod.fst ∨ k ∈ ks
  | [], _, _ => by simp [get_all]
  | k0 :: ks, w, k => by
    have e : (get_all (k0 :: ks) w).2 = (get_all ks (GlyphFactory.Get w k0.ch k0.font).2).2 := rfl
    rw [e, get_all_keys ks, Get_keys, List.mem_cons]
    constructor
    · rintro ((h | h) | h)
      · exact Or.inl h
      · exact Or.inr (Or.inl h)
      · exact Or.inr (Or.inr h)
    · rintro (h | h | h)
      · exact Or.inl (Or.inl h)
      · exact Or.inl (Or.inr h)
      · exact Or.inr h

theorem get_all_append : ∀ (ks ms : List Key) (w : World),
    get_all (ks ++ ms) w
      = ((get_all ks w).1 ++ (get_all ms (get_all ks w).2).1, (get_all ms (get_all ks w).2).2)
  | [], _, _ => rfl
  | k :: ks, ms, w => by
    rw [List.cons_append]
    simp only [get_all]
    rw [get_all_append ks ms]
    rfl

theorem init_wf : World.init.wf :=
  ⟨fun _ _ h => by simp [World.init] at h, by simp [World.init]⟩

theorem wf_value_unique (w : World) (h : w.wf) (k : Key) (a b : Nat)
    (ha : (k, a) ∈ w.factory.pool_) (hb : (k, b) ∈ w.factory.pool_) : a = b := by
  have hn := h.2
  generalize w.factory.pool_ = l at ha hb hn
  induction l with
  | nil => simp at ha
  | cons p l ih =>
    simp only [List.map_cons, List.nodup_cons] at hn
    simp only [List.mem_cons] at ha hb
    rcases ha with ha | ha <;> rcases hb with hb | hb
    · rw [← ha] at hb
      exact ((Prod.mk.injEq _ _ _ _).mp hb).2.symm
    · exact absurd (List.mem_map.2 ⟨(k, b), hb, by rw [← ha]⟩) hn.1
    · exact absurd (List.mem_map.2 ⟨(k, a), ha, by rw [← hb]⟩) hn.1
    · exact ih ha hb hn.2

theorem get_all_Count (ks : List Key) :
    (get_all ks World.init).2.factory.Count = ks.toFinset.card := by
  rw [List.card_toFinset]
  unfold GlyphFactory.Count
  rw [← List.length_map (get_all ks World.init).2.factory.pool_ Prod.fst]
  apply List.Perm.length_eq
  rw [List.perm_ext_iff_of_nodup (get_all_wf ks _ init_wf).2 (List.nodup_dedup ks)]
  intro k
  rw [get_all_keys, List.mem_dedup]
  simp [World.init]

/-- C30: after any sequence `ks` of `Get` calls on a new factory, two calls
return the same glyph exactly when their `(ch, font)` pairs are equal, the
glyph returned has the requested `ch` and `font`, `Count()` is the number of
distinct pairs requested, and a further request for a pair already requested
returns without changing `Count()`. In `main` the 12 requests of the loops
make 4 flyweights and the three requests that follow leave `Count()` at 4. -/
theorem Get_shares_one_glyph_per_pair (ks : List Key) (i j : Nat) (ki kj : Key)
    (ai aj : Nat) (ch : Char) (font : String) :
    (get_all ks World.init).1.length = ks.length
    ∧ (ks[i]? = some ki → ks[j]? = some kj →
        (get_all ks World.init).1[i]? = some ai → (get_all ks World.init).1[j]? = some aj →
        (ai = aj ↔ ki = kj))
    ∧ (ks[i]? = some ki → (get_all ks World.init).1[i]? = some ai →
        (get_all (ks.take (i + 1)) World.init).2.glyphs[ai]? = some ⟨ki.ch, ki.font⟩
        ∧ (get_all ks World.init).2.glyphs[ai]? = some ⟨ki.ch, ki.font⟩)
    ∧ (get_all ks World.init).2.factory.Count = ks.toFinset.card
    ∧ ((⟨ch, font⟩ : Key) ∈ ks →
        (GlyphFactory.Get (get_all ks World.init).2 ch font).2 = (get_all ks World.init).2)
    ∧ ((⟨ch, font⟩ : Key) ∉ ks →
        (GlyphFactory.Get (get_all ks World.init).2 ch font).2.factory.Count
          = (get_all ks World.init).2.factory.Count + 1)
    ∧ main_requests.length = 12
    ∧ (get_all main_requests World.init).2.factory.Count = 4
    ∧ (get_all (main_requests ++ main_checks) World.init).2.factory.Count = 4 := by
  have hwf := get_all_wf ks _ init_wf
  refine ⟨get_all_length ks _, ?_, ?_, get_all_Count ks, ?_, ?_, by decide, by decide, by decide⟩
  · intro hi hj hai haj
    have mi := get_all_mem_pool ks _ i ki ai hi hai
    have mj := get_all_mem_pool ks _ j kj aj hj haj
    constructor
    · intro e
      subst e
      have gi := hwf.1 ki ai mi
      have gj := hwf.1 kj ai mj
      rw [gi] at gj
      simp only [Option.some.injEq, Glyph.mk.injEq] at gj
      cases ki; cases kj
      simp only [Key.mk.injEq]
      exact gj
    · intro e
      subst e
      exact wf_value_unique _ hwf ki ai aj mi mj
  · intro hi hai
    refine ⟨?_, hwf.1 ki ai (get_all_mem_pool ks _ i ki ai hi hai)⟩
    have hlt : i < ks.length := by
      by_contra hc
      rw [List.getElem?_eq_none (Nat.le_of_not_lt hc)] at hi
      cases hi
    have hsplit : get_all ks World.init
        = get_all (ks.take (i + 1) ++ ks.drop (i + 1)) World.init := by
      rw [List.take_append_drop]
    rw [hsplit, get_all_append] at hai
    have hlen : i < (get_all (ks.take (i + 1)) World.init).1.length := by
      rw [get_all_length, List.length_take]
      omega
    simp only [] at hai
    rw [List.getElem?_append_left hlen] at hai
    have hi' : (ks.take (i + 1))[i]? = some ki := by
      rw [List.getElem?_take_of_lt (Nat.lt_succ_self i)]
      exact hi
    exact (get_all_wf _ _ init_wf).1 ki ai (get_all_mem_pool _ _ i ki ai hi' hai)
  · intro hk
    have hmem : (⟨ch, font⟩ : Key) ∈ (get_all ks World.init).2.factory.pool_.map Prod.fst :=
      (get_all_keys ks _ _).2 (Or.inr hk)
    unfold GlyphFactory.Get
    cases hl : (get_all ks World.init).2.factory.pool_.lookup ⟨ch, font⟩ with
    | some g => rfl
    | none => exact absurd hmem (lookup_none_not_mem _ _ hl)
  · intro hk
    have hmem : (⟨ch, font⟩ : Key) ∉ (get_all ks World.init).2.factory.pool_.map Prod.fst := by
      intro hm
      rcases (get_all_keys ks _ _).1 hm with h | h
      · simp [World.init] at h
      · exact hk h
    rw [Get_Count, if_neg hmem]

theorem Get_shares_one_glyph_per_pair_witness :
    main_requests[0]? = some ⟨'A', "Consolas-14"⟩
    ∧ main_requests[3]? = some ⟨'A', "Consolas-Bold-14"⟩
    ∧ (get_all main_requests World.init).1[0]? = some 0
    ∧ (get_all main_requests World.init).1[3]? = some 3
    ∧ ((0 : Nat) = 3 ↔ (⟨'A', "Consolas-14"⟩ : Key) = ⟨'A', "Consolas-Bold-14"⟩) :=
  ⟨by decide, by decide, by decide, by decide,
   (Get_shares_one_glyph_per_pair main_requests 0 3 ⟨'A', "Consolas-14"⟩
      ⟨'A', "Consolas-Bold-14"⟩ 0 3 'A' "Consolas-14").2.1
      (by decide) (by decide) (by decide) (by decide)⟩

end Flyweight

/-! # Theorems: Proxy -/

namespace Proxy

theorem denied_not_mem_real_write (db : RealDatabase) (data : String) :
    "[Proxy] Access denied! Only admin can write.\n" ∉ db.WriteData data := by
  intro h
  simp only [RealDatabase.WriteData, List.mem_singleton] at h
  have h2 := congrArg (fun s : String => s.data[1]?) h
  simp only [String.data_append, List.cons_append, List.getElem?_cons_succ,
    List.getElem?_cons_zero, Option.some.injEq] at h2
  exact absurd h2 (by decide)

theorem request_not_mem_real_write (db : RealDatabase) (user data : String) :
    "[Proxy] User '" ++ user ++ "' requests WRITE access.\n" ∉ db.WriteData data := by
  intro h
  simp only [RealDatabase.WriteData, List.mem_singleton] at h
  have h2 := congrArg (fun s : String => s.data[1]?) h
  simp only [String.data_append, List.cons_append, List.getElem?_cons_succ,
    List.getElem?_cons_zero, Option.some.injEq] at h2
  exact absurd h2 (by decide)

theorem WriteData_of_admin (p : DatabaseProxy) (data : String) (h : p.role_ = "admin") :
    p.WriteData data
      = ("[Proxy] User '" ++ p.user_ ++ "' requests WRITE access.\n")
        :: p.real_db_.WriteData data := by
  simp [DatabaseProxy.WriteData, h]

theorem WriteData_of_not_admin (p : DatabaseProxy) (data : String) (h : p.role_ ≠ "admin") :
    p.WriteData data
      = ["[Proxy] User '" ++ p.user_ ++ "' requests WRITE access.\n",
         "[Proxy] Access denied! Only admin can write.\n"] := by
  simp [DatabaseProxy.WriteData, h]

/-- C31: `DatabaseProxy::WriteData` forwards the write to the real database if
and only if the role is exactly "admin" (a role "Admin" is denied); for every
other role the write is denied: the output is the request line and the denial,
the same for any two data values, and contains no line of
`RealDatabase::WriteData` whatever its argument; `ReadData` is forwarded for
every role. In `main`, Alice (role user) is denied the write and Bob (role
admin) performs it, and `main` returns 0. -/
theorem WriteData_forwards_iff_admin (p : DatabaseProxy) (d d1 d2 d' : String) :
    (p.role_ = "admin" →
      p.WriteData d
        = ("[Proxy] User '" ++ p.user_ ++ "' requests WRITE access.\n")
          :: p.real_db_.WriteData d)
    ∧ (p.role_ ≠ "admin" →
      p.WriteData d
        = ["[Proxy] User '" ++ p.user_ ++ "' requests WRITE access.\n",
           "[Proxy] Access denied! Only admin can write.\n"])
    ∧ ((∀ x ∈ p.real_db_.WriteData d, x ∈ p.WriteData d) ↔ p.role_ = "admin")
    ∧ (p.role_ ≠ "admin" → p.WriteData d1 = p.WriteData d2)
    ∧ (p.role_ ≠ "admin" → ∀ x ∈ p.real_db_.WriteData d', x ∉ p.WriteData d)
    ∧ p.ReadData
        = ("[Proxy] User '" ++ p.user_ ++ "' requests READ access.\n")
          :: p.real_db_.ReadData
    ∧ (DatabaseProxy.ctor "Eve" "Admin").WriteData d
        = ["[Proxy] User 'Eve' requests WRITE access.\n",
           "[Proxy] Access denied! Only admin can write.\n"]
    ∧ (DatabaseProxy.ctor "Alice" "user").WriteData "confidential info"
        = ["[Proxy] User 'Alice' requests WRITE access.\n",
           "[Proxy] Access denied! Only admin can write.\n"]
    ∧ (DatabaseProxy.ctor "Bob" "admin").WriteData "system settings"
        = ["[Proxy] User 'Bob' requests WRITE access.\n",
           "[RealDatabase] Writing 'system settings' to the database.\n"]
    ∧ main
        = (["=== Proxy Pattern: Protection Proxy ===\n\n",
            "[Proxy] User 'Alice' requests READ access.\n",
            "[RealDatabase] Reading data from the database...\n",
            "[Proxy] User 'Alice' requests WRITE access.\n",
            "[Proxy] Access denied! Only admin can write.\n",
            "\n---\n\n",
            "[Proxy] User 'Bob' requests READ access.\n",
            "[RealDatabase] Reading data from the database...\n",
            "[Proxy] User 'Bob' requests WRITE access.\n",
            "[RealDatabase] Writing 'system settings' to the database.\n"], 0) := by
  have hno : p.role_ ≠ "admin" → ∀ e, ∀ x ∈ p.real_db_.WriteData e, x ∉ p.WriteData d := by
    intro h e x hx hmem
    rw [WriteData_of_not_admin p d h] at hmem
    simp only [List.mem_cons, List.mem_singleton, List.not_mem_nil, or_false] at hmem
    rcases hmem with rfl | rfl
    · exact request_not_mem_real_write _ _ _ hx
    · exact denied_not_mem_real_write _ _ hx
  refine ⟨WriteData_of_admin p d, WriteData_of_not_admin p d, ?_, ?_, ?_, rfl, ?_, ?_, ?_, ?_⟩
  · constructor
    · intro h
      by_contra hne
      exact hno hne d _ (List.mem_singleton_self _) (h _ (List.mem_singleton_self _))
    · intro h x hx
      rw [WriteData_of_admin p d h]
      exact List.mem_cons_of_mem _ hx
  · intro h
    rw [WriteData_of_not_admin p d1 h, WriteData_of_not_admin p d2 h]
  · intro h
    exact hno h d'
  · exact WriteData_of_not_admin _ d (by decide)
  · decide
  · decide
  · decide

theorem WriteData_forwards_iff_admin_witness :
    (DatabaseProxy.ctor "Alice" "user").role_ ≠ "admin"
    ∧ (DatabaseProxy.ctor "Alice" "user").WriteData "confidential info"
        = (DatabaseProxy.ctor "Alice" "user").WriteData "other data" :=
  ⟨by decide,
   (WriteData_forwards_iff_admin (DatabaseProxy.ctor "Alice" "user") "confidential info"
      "confidential info" "other data" "x").2.2.2.1 (by decide)⟩

end Proxy

/-! # Theorems: Builder, reuse and the two builders -/

namespace Builder

theorem Build_state (b : PCBuilder) : b.Build.2 = b := by
  unfold PCBuilder.Build
  split_ifs <;> rfl

theorem Build_ok_eq (b : PCBuilder) (pc : PC) (h : b.Build.1 = Except.ok pc) : pc = b.pc_ := by
  unfold PCBuilder.Build at h
  split_ifs at h
  injection h with h
  exact h.symm

theorem set_keeps_storages (b : PCBuilder) (s : Setter) :
    b.pc_.storages <+: (b.set s).pc_.storages := by
  cases s <;>
    simp [PCBuilder.set, PCBuilder.SetCPU, PCBuilder.SetRAM, PCBuilder.SetGPU,
      PCBuilder.AddStorage, PCBuilder.EnableWiFi, PCBuilder.EnableBluetooth]

theorem run_keeps_storages : ∀ (cs : List Call) (b : PCBuilder), Call.Reset ∉ cs →
    b.pc_.storages <+: (run cs b).2.pc_.storages
    ∧ ∀ pc, Except.ok pc ∈ (run cs b).1 → b.pc_.storages <+: pc.storages
  | [], b, _ => ⟨List.prefix_refl _, fun _ h => by simp [run] at h⟩
  | c :: cs, b, hr => by
    have hc : c ≠ Call.Reset := fun e => hr (by rw [e]; exact List.mem_cons_self _ _)
    have hcs : Call.Reset ∉ cs := fun h => hr (List.mem_cons_of_mem _ h)
    have ih := run_keeps_storages cs (exec c b).2 hcs
    have hstep : b.pc_.storages <+: (exec c b).2.pc_.storages := by
      cases c with
      | set s => exact set_keeps_storages b s
      | Build => simp only [exec, Build_state]; exact List.prefix_refl _
      | Reset => exact absurd rfl hc
    refine ⟨hstep.trans ih.1, ?_⟩
    intro pc hpc
    simp only [run, List.mem_append] at hpc
    rcases hpc with hpc | hpc
    · cases c with
      | set s => simp [exec] at hpc
      | Build =>
        simp only [exec, Option.toList, List.mem_singleton] at hpc
        have e := Build_ok_eq b pc hpc.symm
        subst e
        exact List.prefix_refl _
      | Reset => exact absurd rfl hc
    · exact hstep.trans (ih.2 pc hpc)

theorem set_pc_eq (b : PCBuilder) (f : PCFluentBuilder) (s : Setter) (h : b.pc_ = f.pc_) :
    (b.set s).pc_ = (f.set s).pc_ := by
  cases s <;>
    simp [PCBuilder.set, PCFluentBuilder.set, PCBuilder.SetCPU, PCBuilder.SetRAM,
      PCBuilder.SetGPU, PCBuilder.AddStorage, PCBuilder.EnableWiFi, PCBuilder.EnableBluetooth,
      PCFluentBuilder.cpu, PCFluentBuilder.ram, PCFluentBuilder.gpu, PCFluentBuilder.storage,
      PCFluentBuilder.wifi, PCFluentBuilder.bt, h]

theorem foldl_set_pc_eq : ∀ (ss : List Setter) (b : PCBuilder) (f : PCFluentBuilder),
    b.pc_ = f.pc_ → (ss.foldl PCBuilder.set b).pc_ = (ss.foldl PCFluentBuilder.set f).pc_
  | [], _, _, h => h
  | s :: ss, b, f, h => foldl_set_pc_eq ss (b.set s) (f.set s) (set_pc_eq b f s h)

theorem Build_eq_build_of_pc_eq (b : PCBuilder) (f : PCFluentBuilder) (h : b.pc_ = f.pc_) :
    b.Build.1 = f.build.1 := by
  unfold PCBuilder.Build PCFluentBuilder.build
  rw [h]
  split_ifs <;> rfl

/-- C32: `Build` does not clear the builder, and `Reset` makes it reusable: a
second `Build` with no setter in between gives the same result, and in a client
that does not call `Reset` the storages held at any point are part of every
later product and of the builder's later state; after `Reset` the builder is a
freshly constructed `PCBuilder`, so that every client continues as on a new
builder and `Build` right after `Reset` fails with "CPU is required". In `main`
the office box built after `Reset` has the single storage "512GB NVMe" and none
of the gaming rig's, which it would have without the `Reset`. -/
theorem Build_keeps_state_until_Reset (b : PCBuilder) (cs : List Call) (pc : PC) :
    b.Build.2 = b
    ∧ b.Build.2.Build = b.Build
    ∧ (Call.Reset ∉ cs → b.pc_.storages <+: (run cs b.Build.2).2.pc_.storages)
    ∧ (Call.Reset ∉ cs → Except.ok pc ∈ (run cs b.Build.2).1 →
        b.pc_.storages <+: pc.storages)
    ∧ b.Reset = PCBuilder.ctor
    ∧ run (Call.Reset :: cs) b = run cs PCBuilder.ctor
    ∧ b.Reset.Build.1 = Except.error (Exception.runtime_error "CPU is required")
    ∧ (run [Call.Reset, Call.Build] b).1
        = [Except.error (Exception.runtime_error "CPU is required")]
    ∧ (PCDirector.MakeOfficeBox (PCDirector.MakeGamingRig PCBuilder.ctor).2.Reset).1
        = Except.ok ⟨"Intel i5-13400", 16, "Integrated", ["512GB NVMe"], false, true⟩
    ∧ (∃ gaming office silent, main_try = Except.ok (gaming, office, silent)
        ∧ office.storages = ["512GB NVMe"]
        ∧ ∀ s ∈ gaming.storages, s ∉ office.storages)
    ∧ (PCDirector.MakeOfficeBox (PCDirector.MakeGamingRig PCBuilder.ctor).2).1
        = Except.ok ⟨"Intel i5-13400", 16, "Integrated",
            ["1TB NVMe", "2TB SSD", "512GB NVMe"], false, true⟩ := by
  refine ⟨Build_state b, by rw [Build_state], ?_, ?_, rfl, rfl, rfl, rfl, rfl, ?_, rfl⟩
  · intro h
    rw [Build_state]
    exact (run_keeps_storages cs b h).1
  · intro h hpc
    rw [Build_state] at hpc
    exact (run_keeps_storages cs b h).2 pc hpc
  · exact ⟨_, _, _, rfl, rfl, by decide⟩

theorem Build_keeps_state_until_Reset_witness :
    Call.Reset ∉ [Call.set (Setter.AddStorage "2TB SSD"), Call.Build]
    ∧ Except.ok (⟨"c", 8, "", ["1TB NVMe", "2TB SSD"], false, false⟩ : PC)
        ∈ (run [Call.set (Setter.AddStorage "2TB SSD"), Call.Build]
            (PCBuilder.mk ⟨"c", 8, "", ["1TB NVMe"], false, false⟩).Build.2).1
    ∧ ["1TB NVMe"] <+: ["1TB NVMe", "2TB SSD"] :=
  ⟨by decide, List.mem_singleton.2 rfl,
   (Build_keeps_state_until_Reset (PCBuilder.mk ⟨"c", 8, "", ["1TB NVMe"], false, false⟩)
      [Call.set (Setter.AddStorage "2TB SSD"), Call.Build]
      ⟨"c", 8, "", ["1TB NVMe", "2TB SSD"], false, false⟩).2.2.2.1 (by decide)
      (List.mem_singleton.2 rfl)⟩

/-- C33: the classic `PCBuilder` and the fluent `PCFluentBuilder` are
observationally equivalent: for every sequence of corresponding setter calls
applied to freshly constructed builders, `Build` and `build` end in the same
way, either both throwing an exception with the same message or both returning
equal PCs; the two builders hold equal products after the calls. -/
theorem classic_and_fluent_builders_agree (ss : List Setter) :
    (ss.foldl PCBuilder.set PCBuilder.ctor).Build.1
      = (ss.foldl PCFluentBuilder.set PCFluentBuilder.ctor).build.1
    ∧ (ss.foldl PCBuilder.set PCBuilder.ctor).pc_
      = (ss.foldl PCFluentBuilder.set PCFluentBuilder.ctor).pc_
    ∧ ((∃ what, (ss.foldl PCBuilder.set PCBuilder.ctor).Build.1
            = Except.error (Exception.runtime_error what)
          ∧ (ss.foldl PCFluentBuilder.set PCFluentBuilder.ctor).build.1
            = Except.error (Exception.runtime_error what))
        ∨ (∃ pc, (ss.foldl PCBuilder.set PCBuilder.ctor).Build.1 = Except.ok pc
          ∧ (ss.foldl PCFluentBuilder.set PCFluentBuilder.ctor).build.1 = Except.ok pc)) := by
  have hpc := foldl_set_pc_eq ss PCBuilder.ctor PCFluentBuilder.ctor rfl
  have hb := Build_eq_build_of_pc_eq _ _ hpc
  refine ⟨hb, hpc, ?_⟩
  rw [← hb]
  cases h : (ss.foldl PCBuilder.set PCBuilder.ctor).Build.1 with
  | error e =>
    cases e with
    | runtime_error what => exact Or.inl ⟨what, rfl, rfl⟩
  | ok pc => exact Or.inr ⟨pc, rfl, rfl⟩

end Builder

/-! # Theorems: Composite, the receiver of `remove` and the wrap of `size_bytes` -/

namespace Composite

theorem remove_name (child_name : String) (t : Node) :
    (Node.remove child_name t).2.name = t.name := by
  cases t with
  | file n b => rw [Node.remove]
  | folder n cs =>
    rw [Node.remove]
    simp only []
    split_ifs <;> rfl

/-- C34: `remove` never matches the node it is called on: for a `Folder` `T`
named `n` with no node below it named `n`, `remove(T, n)` returns false and
leaves `T` unchanged; `remove` on a `File` returns false for every name, the
file's own name included, and changes nothing. For every node the returned
`bool` depends only on the names below the node, and the node is still there,
under its name, after the call. -/
theorem remove_never_matches_receiver (n : String) (cs : List Node) (t : Node)
    (name child_name : String) (bytes : Nat) :
    (n ∉ (Node.folder n cs).names_below →
      Node.remove n (Node.folder n cs) = (false, Node.folder n cs))
    ∧ Node.remove child_name (Node.file name bytes) = (false, Node.file name bytes)
    ∧ Node.remove name (Node.file name bytes) = (false, Node.file name bytes)
    ∧ ((Node.remove child_name t).1 = true ↔ child_name ∈ t.names_below)
    ∧ (Node.remove child_name t).2.name = t.name
    ∧ Node.remove "docs" (Node.folder "docs" [make_file "notes.txt" 300])
        = (false, Node.folder "docs" [make_file "notes.txt" 300]) := by
  refine ⟨remove_of_absent n _, remove_file _ _ _, remove_file _ _ _,
    remove_true_iff child_name t, remove_name child_name t, by decide⟩

theorem remove_never_matches_receiver_witness :
    "root" ∉ (Node.folder "root" [Node.folder "docs" [make_file "notes.txt" 300],
        make_file "readme.md" 100]).names_below
    ∧ Node.remove "root" (Node.folder "root" [Node.folder "docs" [make_file "notes.txt" 300],
        make_file "readme.md" 100])
      = (false, Node.folder "root" [Node.folder "docs" [make_file "notes.txt" 300],
          make_file "readme.md" 100]) :=
  ⟨by decide,
   (remove_never_matches_receiver "root"
      [Node.folder "docs" [make_file "notes.txt" 300], make_file "readme.md" 100]
      (make_file "x" 0) "x" "x" 0).1 (by decide)⟩

/-- C36: `Folder::size_bytes` accumulates in `std::size_t`, so its result is
the sum of the reachable leaf sizes reduced modulo 2^64: it equals the exact
sum whenever that sum is below 2^64, and otherwise it wraps, being below 2^64
and so smaller than the sum; a folder holding two files of 2^63 bytes each,
sizes that a `std::size_t` holds, reports 0. -/
theorem folder_size_bytes_is_sum_mod_2_64 (name : String) (children : List Node) :
    (Node.folder name children).size_bytes
      = (Node.folder name children).leaf_sizes.sum % 2 ^ 64
    ∧ ((Node.folder name children).leaf_sizes.sum < 2 ^ 64 →
        (Node.folder name children).size_bytes = (Node.folder name children).leaf_sizes.sum)
    ∧ (2 ^ 64 ≤ (Node.folder name children).leaf_sizes.sum →
        (Node.folder name children).size_bytes < 2 ^ 64
        ∧ (Node.folder name children).size_bytes
            < (Node.folder name children).leaf_sizes.sum
        ∧ (Node.folder name children).size_bytes % 2 ^ 64
            = (Node.folder name children).leaf_sizes.sum % 2 ^ 64)
    ∧ (Node.folder "big" [make_file "a" (2 ^ 63), make_file "b" (2 ^ 63)]).fits
    ∧ (Node.folder "big" [make_file "a" (2 ^ 63), make_file "b" (2 ^ 63)]).leaf_sizes.sum
        = 2 ^ 64
    ∧ (Node.folder "big" [make_file "a" (2 ^ 63), make_file "b" (2 ^ 63)]).size_bytes = 0 := by
  have hlt : (Node.folder name children).size_bytes < 2 ^ 64 := folder_size_lt name children
  have hmod : (Node.folder name children).size_bytes % 2 ^ 64
      = (Node.folder name children).leaf_sizes.sum % 2 ^ 64 :=
    size_bytes_mod_eq (Node.folder name children)
  have heq : (Node.folder name children).size_bytes
      = (Node.folder name children).leaf_sizes.sum % 2 ^ 64 := by
    rw [← hmod, Nat.mod_eq_of_lt hlt]
  refine ⟨heq, ?_, ?_, by decide, by decide, by decide⟩
  · intro h
    rw [heq, Nat.mod_eq_of_lt h]
  · intro h
    exact ⟨hlt, Nat.lt_of_lt_of_le hlt h, hmod⟩

theorem folder_size_bytes_is_sum_mod_2_64_witness :
    (Node.folder "root" [make_file "a" 1200, Node.folder "d" [make_file "b" 300]]).leaf_sizes.sum
        < 2 ^ 64
    ∧ (Node.folder "root" [make_file "a" 1200, Node.folder "d" [make_file "b" 300]]).size_bytes
        = (Node.folder "root"
            [make_file "a" 1200, Node.folder "d" [make_file "b" 300]]).leaf_sizes.sum :=
  ⟨by decide,
   (folder_size_bytes_is_sum_mod_2_64 "root"
      [make_file "a" 1200, Node.folder "d" [make_file "b" 300]]).2.1 (by decide)⟩

end Composite

/-! # Theorems: Chain of Responsibility, `setNext` on a handler with a successor -/

namespace ChainOfResponsibility

/-- C35: `setNext` on a handler that already has a successor replaces it: the
previous successor and the whole remainder of the chain behind it are dropped,
the handler afterwards being what it would be had it had no successor, and its
chain being the handler followed by the chain of `next` only; the same holds
for `setNext` through a pointer to a handler inside a chain. So on a handler
`h` that has a successor, `h.setNext(a)` followed by `h.setNext(b)` leaves the
chain of `h.setNext(b)`, whatever `a` is: `a` never receives a request. -/
theorem setNext_replaces_successor {R : Type} (process : R → Bool)
    (old next a a' b head : Handler R) (links : Nat) (r : R) :
    (Handler.mk process (some old)).setNext next = (Handler.mk process none).setNext next
    ∧ ((Handler.mk process (some old)).setNext next).chain = process :: next.chain
    ∧ ((Handler.mk process (some old)).setNext next).deref 1 = some next
    ∧ (links < head.chain.length →
        (Handler.setNext_at head links next).chain
          = head.chain.take (links + 1) ++ next.chain)
    ∧ ((Handler.mk process (some old)).setNext a).setNext b
        = (Handler.mk process (some old)).setNext b
    ∧ (((Handler.mk process (some old)).setNext a).setNext b).chain = process :: b.chain
    ∧ ((Handler.mk process (some old)).setNext a).setNext b
        = ((Handler.mk process (some old)).setNext a').setNext b
    ∧ (((Handler.mk process (some old)).setNext a).setNext b).handle r
        = (if process r then [Event.processed 0 true]
           else Event.processed 0 false :: Handler.handle_at r b 1) := by
  refine ⟨rfl, chain_mk_some process next, ?_, setNext_at_chain next head links, rfl,
    chain_mk_some process b, rfl, ?_⟩
  · cases next with
    | mk q nx => cases nx <;> rfl
  · simp only [Handler.setNext, Handler.handle]
    rw [Handler.handle_at]

theorem setNext_replaces_successor_witness :
    1 < main_chain.chain.length
    ∧ (Handler.setNext_at main_chain 1 CEO.ctor).chain
        = main_chain.chain.take (1 + 1) ++ CEO.ctor.chain :=
  ⟨by decide,
   (setNext_replaces_successor TeamLead.process Manager.ctor CEO.ctor Director.ctor
      Director.ctor CEO.ctor main_chain 1 ⟨Double.ofInt 120, "x"⟩).2.2.2.1 (by decide)⟩

end ChainOfResponsibility
